import Mathlib

/-! Plural rules engine (`plurrule.cpp`): a shallow embedding.

The C++ classes `AndConstraint`, `OrConstraint`, `RuleChain`, `RuleParser` and
`PluralRules` are embedded as pure Lean functions.

Representation choices.

* `UnicodeString` is a list of characters; `int32_t` values are `Int`
  (no operation of the embedded code can overflow on values read from a
  description whose numbers fit `int32_t`).
* A nullable pointer to a singly linked structure (`AndConstraint*`,
  `OrConstraint*`, `RuleChain*`) is the list of its nodes in `next` order; the
  null pointer is the empty list.  A node record carries every field of the
  C++ object except `next`.
* `UErrorCode& status` out-parameters become returned values.
-/

set_option autoImplicit false

/-- A `UnicodeString`: the sequence of its characters. -/
abbrev UnicodeString := List Char

/-- Modelled from the spec: the error codes of `unicode/utypes.h` that this
file sets (spec section 7: IllegalCharacter, UnexpectedToken, BufferOverflow). -/
inductive UErrorCode where
  | U_ZERO_ERROR
  | U_ILLEGAL_CHARACTER
  | U_UNEXPECTED_TOKEN
  | U_BUFFER_OVERFLOW_ERROR
  deriving DecidableEq, Repr

/-- The macro `U_FAILURE`. -/
def U_FAILURE (status : UErrorCode) : Bool :=
  decide (status ≠ UErrorCode.U_ZERO_ERROR)

/-- The macro `U_SUCCESS`. -/
def U_SUCCESS (status : UErrorCode) : Bool :=
  decide (status = UErrorCode.U_ZERO_ERROR)

/-- Modelled from the spec: the enumeration `tokenType` of `plurrule_impl.h`
(spec section 3, Token), with every enumerator the source file names. -/
inductive tokenType where
  | none
  | tLetter
  | tNumber
  | tSemiColon
  | tSpace
  | tColon
  | tDot
  | tKeyword
  | tZero
  | tOne
  | tTwo
  | tFew
  | tMany
  | tOther
  | tAnd
  | tOr
  | tMod
  | tNot
  | tIn
  | tWithin
  | tNotIn
  | tVariableN
  | tIs
  | tLeftBrace
  | tRightBrace
  deriving DecidableEq, Repr

/-- The constant `PLURAL_KEYWORD_OTHER`. -/
def PLURAL_KEYWORD_OTHER : UnicodeString := ['o', 't', 'h', 'e', 'r']

/-- The constant `PLURAL_DEFAULT_RULE`. -/
def PLURAL_DEFAULT_RULE : UnicodeString := ['o', 't', 'h', 'e', 'r', ':', ' ', 'n']

/-- The constant `PK_IN`. -/
def PK_IN : UnicodeString := ['i', 'n']

/-- The constant `PK_NOT`. -/
def PK_NOT : UnicodeString := ['n', 'o', 't']

/-- The constant `PK_IS`. -/
def PK_IS : UnicodeString := ['i', 's']

/-- The constant `PK_MOD`. -/
def PK_MOD : UnicodeString := ['m', 'o', 'd']

/-- The constant `PK_AND`. -/
def PK_AND : UnicodeString := ['a', 'n', 'd']

/-- The constant `PK_OR`. -/
def PK_OR : UnicodeString := ['o', 'r']

/-- The constant `PK_VAR_N`. -/
def PK_VAR_N : UnicodeString := ['n']

/-- Modelled from the spec: the constant `PLURAL_RANGE_HIGH` of
`plurrule_impl.h`, the "range pending" value an `in` token stores in
`rangeHigh` until the upper bound is read. -/
def PLURAL_RANGE_HIGH : Int := 0x7fffffff

/-- Modelled from the spec: the function `uprv_max` of `putilimp.h`, the
larger of two `int32_t` values. -/
def uprv_max (x y : Int) : Int := if x > y then x else y

/-! ## AndConstraint -/

/-- Modelled from the spec: the enumeration `AndConstraint::RuleOp` of
`plurrule_impl.h` (no modulo, or modulo). -/
inductive RuleOp where
  | NONE
  | MOD
  deriving DecidableEq, Repr

/-- One `AndConstraint` node (without its `next` pointer). -/
structure AndConstraint where
  op : RuleOp
  opNum : Int
  rangeLow : Int
  rangeHigh : Int
  notIn : Bool
  deriving DecidableEq, Repr

/-- The constructor `AndConstraint::AndConstraint()`. -/
def AndConstraint.new : AndConstraint :=
  { op := RuleOp.NONE, opNum := -1, rangeLow := -1, rangeHigh := -1, notIn := false }

/-- The value the method `AndConstraint::isFulfilled` returns.  The C operator
`%` truncates towards zero, which is `Int.tmod`; where C++ leaves the remainder
undefined (divisor 0, or `INT32_MIN % -1`) the method returns no value, which
`AndConstraint.isFulfilledChecked` below models. -/
def AndConstraint.isFulfilled (c : AndConstraint) (number : Int) : Bool :=
  let value := if c.op = RuleOp.MOD then Int.tmod number c.opNum else number
  let result :=
    if c.rangeHigh = -1 then
      if c.rangeLow = -1 then true
      else if value = c.rangeLow then true else false
    else
      if c.rangeLow ≤ value ∧ value ≤ c.rangeHigh then true else false
  if c.notIn then !result else result

/-- The method `AndConstraint::updateRepeatLimit`. -/
def AndConstraint.updateRepeatLimit (c : AndConstraint) (maxLimit : Int) : Int :=
  if c.op = RuleOp.MOD then uprv_max c.opNum maxLimit
  else if c.rangeHigh = -1 then (if c.rangeLow > maxLimit then c.rangeLow else maxLimit)
  else uprv_max c.rangeHigh maxLimit

/-! ## OrConstraint -/

/-- One `OrConstraint` node (without its `next` pointer): `childNode` is the
chain of `AndConstraint`s it points to. -/
structure OrConstraint where
  childNode : List AndConstraint
  deriving DecidableEq, Repr

/-- The inner loop of `OrConstraint::isFulfilled`:
`while (andRule!=NULL && result)`. -/
def OrConstraint.andLoop (number : Int) : List AndConstraint → Bool → Bool
  | [], result => result
  | andRule :: next, result =>
    if result then OrConstraint.andLoop number next (andRule.isFulfilled number)
    else result

/-- The outer loop of `OrConstraint::isFulfilled`:
`while (orRule!=NULL && !result)`. -/
def OrConstraint.orLoop (number : Int) : List OrConstraint → Bool → Bool
  | [], result => result
  | orRule :: next, result =>
    if !result then
      OrConstraint.orLoop number next (OrConstraint.andLoop number orRule.childNode true)
    else result

/-- The method `OrConstraint::isFulfilled`, called on the chain starting at `this`. -/
def OrConstraint.isFulfilled (this : List OrConstraint) (number : Int) : Bool :=
  OrConstraint.orLoop number this false

/-! ## RuleChain -/

/-- One `RuleChain` node (without its `next` pointer). -/
structure RuleChain where
  keyword : UnicodeString
  ruleHeader : List OrConstraint
  repeatLimit : Int
  deriving DecidableEq, Repr

/-- The constructor `RuleChain::RuleChain()`. -/
def RuleChain.new : RuleChain :=
  { keyword := [], ruleHeader := [], repeatLimit := 0 }

/-- The method `RuleChain::select` on the chain `this :: next`; the empty list
is the branch `next == NULL`. -/
def RuleChain.select : List RuleChain → Int → UnicodeString
  | [], _ => PLURAL_KEYWORD_OTHER
  | this :: next, number =>
    if this.ruleHeader ≠ [] ∧ OrConstraint.isFulfilled this.ruleHeader number = true then
      this.keyword
    else RuleChain.select next number

/-- The inner loop of `RuleChain::setRepeatLimit` over one `AndConstraint` chain. -/
def RuleChain.limitAndLoop : List AndConstraint → Int → Int
  | [], limit => limit
  | andRule :: next, limit => RuleChain.limitAndLoop next (andRule.updateRepeatLimit limit)

/-- The outer loop of `RuleChain::setRepeatLimit` over the `OrConstraint` chain. -/
def RuleChain.limitOrLoop : List OrConstraint → Int → Int
  | [], limit => limit
  | orRule :: next, limit =>
    RuleChain.limitOrLoop next (RuleChain.limitAndLoop orRule.childNode limit)

/-- The method `RuleChain::setRepeatLimit`: the chain with every `repeatLimit`
recomputed, the rest first. -/
def RuleChain.setRepeatLimit : List RuleChain → List RuleChain
  | [] => []
  | this :: next =>
    let next1 := RuleChain.setRepeatLimit next
    let limit : Int := match next1 with
      | [] => 0
      | n :: _ => n.repeatLimit
    { this with repeatLimit := RuleChain.limitOrLoop this.ruleHeader limit } :: next1

/-- The method `RuleChain::getRepeatLimit` (the head's field); it is only
called on a non-null chain. -/
def RuleChain.getRepeatLimit : List RuleChain → Int
  | [] => 0
  | this :: _ => this.repeatLimit

/-- The method `RuleChain::isKeyword`. -/
def RuleChain.isKeyword : List RuleChain → UnicodeString → Bool
  | [], _ => false
  | this :: next, keywordParam =>
    if this.keyword = keywordParam then true else RuleChain.isKeyword next keywordParam

/-! ## RuleParser -/

/-- The result of `RuleParser::inRange`: the returned flag and the value left
in the `type` reference. -/
def RuleParser.inRange (ch : Char) (type : tokenType) : Bool × tokenType :=
  if 'A'.toNat ≤ ch.toNat ∧ ch.toNat ≤ 'Z'.toNat then (false, type)
  else if 'a'.toNat ≤ ch.toNat ∧ ch.toNat ≤ 'z'.toNat then (true, tokenType.tLetter)
  else if '0'.toNat ≤ ch.toNat ∧ ch.toNat ≤ '9'.toNat then (true, tokenType.tNumber)
  else if ch = ':' then (true, tokenType.tColon)
  else if ch = ' ' then (true, tokenType.tSpace)
  else if ch = ';' then (true, tokenType.tSemiColon)
  else if ch = '.' then (true, tokenType.tDot)
  else (false, tokenType.none)

/-- Membership in the set `idStartFilter`, built from the pattern `[[a-z]]`. -/
def RuleParser.idStartFilter (ch : Char) : Bool :=
  decide ('a'.toNat ≤ ch.toNat ∧ ch.toNat ≤ 'z'.toNat)

/-- Membership in the set `idContinueFilter`, built from the pattern
`[[a-z][A-Z][_][0-9]]`. -/
def RuleParser.idContinueFilter (ch : Char) : Bool :=
  decide (('a'.toNat ≤ ch.toNat ∧ ch.toNat ≤ 'z'.toNat) ∨
    ('A'.toNat ≤ ch.toNat ∧ ch.toNat ≤ 'Z'.toNat) ∨ ch = '_' ∨
    ('0'.toNat ≤ ch.toNat ∧ ch.toNat ≤ '9'.toNat))

/-- The method `RuleParser::isValidKeyword`. -/
def RuleParser.isValidKeyword (token : UnicodeString) : Bool :=
  match token with
  | [] => false
  | c :: rest =>
    if RuleParser.idStartFilter c then rest.all RuleParser.idContinueFilter else false

/-- The method `RuleParser::getKeyType`: the values left in `keyType` and `status`. -/
def RuleParser.getKeyType (token : UnicodeString) (keyType : tokenType)
    (status : UErrorCode) : tokenType × UErrorCode :=
  if keyType = tokenType.tNumber then (keyType, status)
  else if token = PK_VAR_N then (tokenType.tVariableN, status)
  else if token = PK_IS then (tokenType.tIs, status)
  else if token = PK_AND then (tokenType.tAnd, status)
  else if token = PK_IN then (tokenType.tIn, status)
  else if token = PK_NOT then (tokenType.tNot, status)
  else if token = PK_MOD then (tokenType.tMod, status)
  else if token = PK_OR then (tokenType.tOr, status)
  else if RuleParser.isValidKeyword token then (tokenType.tKeyword, status)
  else (keyType, UErrorCode.U_UNEXPECTED_TOKEN)

/-- The method `RuleParser::checkSyntax`: the value left in `status`. -/
def RuleParser.checkSyntax (prevType curType : tokenType) (status : UErrorCode) :
    UErrorCode :=
  if U_FAILURE status then status
  else
    match prevType with
    | tokenType.none | tokenType.tSemiColon =>
      if curType ≠ tokenType.tKeyword then UErrorCode.U_UNEXPECTED_TOKEN else status
    | tokenType.tVariableN =>
      if curType ≠ tokenType.tIs ∧ curType ≠ tokenType.tMod ∧ curType ≠ tokenType.tIn ∧
          curType ≠ tokenType.tNot then UErrorCode.U_UNEXPECTED_TOKEN else status
    | tokenType.tZero | tokenType.tOne | tokenType.tTwo | tokenType.tFew
    | tokenType.tMany | tokenType.tOther | tokenType.tKeyword =>
      if curType ≠ tokenType.tColon then UErrorCode.U_UNEXPECTED_TOKEN else status
    | tokenType.tColon =>
      if curType ≠ tokenType.tVariableN then UErrorCode.U_UNEXPECTED_TOKEN else status
    | tokenType.tIs =>
      if curType ≠ tokenType.tNumber ∧ curType ≠ tokenType.tNot then
        UErrorCode.U_UNEXPECTED_TOKEN else status
    | tokenType.tNot =>
      if curType ≠ tokenType.tNumber ∧ curType ≠ tokenType.tIn then
        UErrorCode.U_UNEXPECTED_TOKEN else status
    | tokenType.tMod | tokenType.tDot | tokenType.tIn | tokenType.tAnd | tokenType.tOr =>
      if curType ≠ tokenType.tNumber ∧ curType ≠ tokenType.tVariableN then
        UErrorCode.U_UNEXPECTED_TOKEN else status
    | tokenType.tNumber =>
      if curType ≠ tokenType.tDot ∧ curType ≠ tokenType.tSemiColon ∧
          curType ≠ tokenType.tIs ∧ curType ≠ tokenType.tNot ∧ curType ≠ tokenType.tIn ∧
          curType ≠ tokenType.tAnd ∧ curType ≠ tokenType.tOr then
        UErrorCode.U_UNEXPECTED_TOKEN else status
    | _ => UErrorCode.U_UNEXPECTED_TOKEN

/-- The values `RuleParser::getNextToken` leaves in its reference parameters. -/
structure TokenResult where
  ruleIndex : Nat
  token : UnicodeString
  type : tokenType
  status : UErrorCode
  deriving DecidableEq, Repr

/-- The substring constructor `UnicodeString(src, srcStart, srcLength)`. -/
def UnicodeString.sub (src : UnicodeString) (srcStart srcLength : Nat) : UnicodeString :=
  (src.drop srcStart).take srcLength

/-- The three places of `getNextToken` that cut the pending run out of the text:
`token=UnicodeString(ruleData, *ruleIndex, curIndex-*ruleIndex); *ruleIndex=curIndex;
type=prevType; getKeyType(token, type, status); return;`. -/
def RuleParser.flushToken (ruleData : UnicodeString) (curIndex ruleIndex : Nat)
    (prevType : tokenType) (status : UErrorCode) : TokenResult :=
  let token := UnicodeString.sub ruleData ruleIndex (curIndex - ruleIndex)
  let r := RuleParser.getKeyType token prevType status
  { ruleIndex := curIndex, token := token, type := r.1, status := r.2 }

/-- The `else` branch of `case tDot` in `getNextToken` (the previous kind is set). -/
def RuleParser.dotSeen (ruleData : UnicodeString) (curIndex ruleIndex : Nat)
    (prevType : tokenType) (token : UnicodeString) (status : UErrorCode) : TokenResult :=
  if ruleIndex ≠ curIndex then RuleParser.flushToken ruleData curIndex ruleIndex prevType status
  else { ruleIndex := curIndex + 2, token := token, type := tokenType.tDot, status := status }

/-- The `while` loop of `RuleParser::getNextToken` and the code after it.
`rest` is the text from `curIndex` on, so its head is `ruleData.charAt(curIndex)`
and the empty list is `curIndex >= ruleData.length()`.  In `case tDot` the
`continue` of the first dot runs the loop body again on the same character with
`prevType = tDot`, which is the `else` branch `dotSeen`. -/
def RuleParser.getNextTokenLoop (ruleData : UnicodeString) :
    List Char → Nat → Nat → tokenType → UnicodeString → tokenType → UErrorCode → TokenResult
  | [], curIndex, ruleIndex, _, token, type, status =>
    if type = tokenType.tLetter ∨ type = tokenType.tNumber then
      let token1 := UnicodeString.sub ruleData ruleIndex (curIndex - ruleIndex)
      let r := RuleParser.getKeyType token1 type status
      { ruleIndex := ruleData.length, token := token1, type := r.1, status := r.2 }
    else { ruleIndex := ruleData.length, token := token, type := type, status := status }
  | ch :: rest, curIndex, ruleIndex, prevType, token, type, status =>
    if (RuleParser.inRange ch type).1 = false then
      { ruleIndex := ruleIndex, token := token, type := (RuleParser.inRange ch type).2,
        status := UErrorCode.U_ILLEGAL_CHARACTER }
    else
      match (RuleParser.inRange ch type).2 with
      | tokenType.tSpace =>
        if ruleIndex ≠ curIndex then
          RuleParser.flushToken ruleData curIndex ruleIndex prevType status
        else
          RuleParser.getNextTokenLoop ruleData rest (curIndex + 1) (ruleIndex + 1) prevType
            token tokenType.tSpace status
      | tokenType.tColon =>
        if ruleIndex ≠ curIndex then
          RuleParser.flushToken ruleData curIndex ruleIndex prevType status
        else
          { ruleIndex := curIndex + 1, token := token, type := tokenType.tColon,
            status := status }
      | tokenType.tSemiColon =>
        if ruleIndex ≠ curIndex then
          RuleParser.flushToken ruleData curIndex ruleIndex prevType status
        else
          { ruleIndex := curIndex + 1, token := token, type := tokenType.tSemiColon,
            status := status }
      | tokenType.tLetter =>
        if tokenType.tLetter = prevType ∨ prevType = tokenType.none then
          RuleParser.getNextTokenLoop ruleData rest (curIndex + 1) ruleIndex tokenType.tLetter
            token tokenType.tLetter status
        else
          RuleParser.getNextTokenLoop ruleData rest (curIndex + 1) ruleIndex prevType
            token tokenType.tLetter status
      | tokenType.tNumber =>
        if tokenType.tNumber = prevType ∨ prevType = tokenType.none then
          RuleParser.getNextTokenLoop ruleData rest (curIndex + 1) ruleIndex tokenType.tNumber
            token tokenType.tNumber status
        else
          { ruleIndex := curIndex + 1, token := token, type := tokenType.tNumber,
            status := status }
      | tokenType.tDot =>
        if prevType = tokenType.none then
          RuleParser.dotSeen ruleData curIndex ruleIndex tokenType.tDot token status
        else
          RuleParser.dotSeen ruleData curIndex ruleIndex prevType token status
      | other =>
        { ruleIndex := ruleIndex, token := token, type := other,
          status := UErrorCode.U_UNEXPECTED_TOKEN }

/-- The method `RuleParser::getNextToken`, from the values of `*ruleIndex`,
`token`, `type` and `status` on entry to their values on return. -/
def RuleParser.getNextToken (ruleData : UnicodeString) (ruleIndex : Nat)
    (token : UnicodeString) (type : tokenType) (status : UErrorCode) : TokenResult :=
  RuleParser.getNextTokenLoop ruleData (ruleData.drop ruleIndex) ruleIndex ruleIndex
    tokenType.none token type status

/-! ## PluralRules: parsing a description -/

/-- How a run of the embedded code ends: normally with a value, with a failure
`status`, by dereferencing a null pointer (no defined result in C++), or by
using up the iteration bound the embedding gives a loop. -/
inductive Outcome (α : Type) where
  | ok (value : α)
  | failure (status : UErrorCode)
  | nullDeref
  | outOfFuel
  deriving DecidableEq, Repr

/-- Modelled from the spec: `UnicodeString::toLower` (declared in
`unicode/unistr.h`), the case folding of a description to lower case; on the
letters `A`-`Z` it is the ASCII mapping used here. -/
def UnicodeString.toLower (s : UnicodeString) : UnicodeString :=
  s.map Char.toLower

/-- Modelled from the spec: the C library function `atoi` on a token made of
letters and digits: the decimal value of the leading run of digits (0 when
there is none).  C defines the result only when it fits `int`. -/
def atoi : List Char → Nat → Nat
  | [], acc => acc
  | c :: rest, acc =>
    if '0'.toNat ≤ c.toNat ∧ c.toNat ≤ '9'.toNat then
      atoi rest (10 * acc + (c.toNat - '0'.toNat))
    else acc

/-- The conversion of a number to the 32-bit `int` that `atoi` returns: its low
32 bits read as a two's complement number. -/
def toInt32 (n : Nat) : Int :=
  (((n + 2147483648) % 4294967296 : Nat) : Int) - 2147483648

/-- The method `PluralRules::getNumberValue`, `(int32_t)atoi(digits)`, for a
token of fewer than 128 characters (a longer one overruns the buffer
`char digits[128]`, which C++ leaves undefined).  A decimal value above
2147483647 does not fit the result of `atoi`; the value then is its low 32
bits, -2147483648 for "2147483648". -/
def PluralRules.getNumberValue (token : UnicodeString) : Int :=
  toInt32 (atoi token 0)

/-- Apply `f` to the last element of a list (the node a walk
`while (p->next != NULL) p = p->next;` stops at). -/
def modifyLast {α : Type} (f : α → α) : List α → List α
  | [] => []
  | [a] => [f a]
  | a :: b :: l => a :: modifyLast f (b :: l)

/-- Apply `f` to the element at position `i` of a list. -/
def modifyAt {α : Type} (f : α → α) : Nat → List α → List α
  | _, [] => []
  | 0, a :: l => f a :: l
  | i + 1, a :: l => a :: modifyAt f i l

/-- Apply `f` to the `AndConstraint` chain of the last `OrConstraint` of a node. -/
def RuleChain.onLastOr (f : List AndConstraint → List AndConstraint) (node : RuleChain) :
    RuleChain :=
  { node with
    ruleHeader := modifyLast (fun o => { o with childNode := f o.childNode }) node.ruleHeader }

/-- The local variables of `PluralRules::parseDescription` that live across the
iterations of its loop, besides `ruleIndex`, `token`, `type` and `prevType`.
`rules` is the chain passed by reference (its head node always exists).
`ruleChain` is the position in `rules` of the node `ruleChain` points to, `none`
for `NULL`.  `curAndConstraint` is `none` for `NULL`; otherwise the pointer is
always the last `AndConstraint` of the last `OrConstraint` of a node of `rules`
(`add()` returns the node it appended at the end), and the position of that
node is stored. -/
structure ParseState where
  rules : List RuleChain
  ruleChain : Option Nat
  curAndConstraint : Option Nat
  deriving DecidableEq, Repr

/-- An assignment through `curAndConstraint`: `f` applied to the pointed-to
`AndConstraint`; `none` when the pointer is `NULL`. -/
def ParseState.assign (st : ParseState) (f : AndConstraint → AndConstraint) :
    Option ParseState :=
  match st.curAndConstraint with
  | none => none
  | some i =>
    some { st with rules := modifyAt (RuleChain.onLastOr (modifyLast f)) i st.rules }

/-- The body of `case tNumber` of `parseDescription` on the current `AndConstraint`. -/
def PluralRules.storeNumber (value : Int) (c : AndConstraint) : AndConstraint :=
  if c.op = RuleOp.MOD ∧ c.opNum = -1 then { c with opNum := value }
  else if c.rangeLow = -1 then { c with rangeLow := value }
  else { c with rangeHigh := value }

/-- The `switch (type)` of `PluralRules::parseDescription`: the state after the
token is consumed, `none` when a null pointer is dereferenced. -/
def PluralRules.parseToken (st : ParseState) (type : tokenType) (token : UnicodeString) :
    Option ParseState :=
  match type with
  | tokenType.tAnd =>
    match st.curAndConstraint with
    | none => none
    | some i =>
      let rules1 := modifyAt (RuleChain.onLastOr (fun l => l ++ [AndConstraint.new])) i st.rules
      some { st with rules := rules1 }
  | tokenType.tOr =>
    match st.rules with
    | [] => none
    | head :: next =>
      if head.ruleHeader = [] then none
      else
        some { st with
          rules := { head with ruleHeader :=
            head.ruleHeader ++ [{ childNode := [AndConstraint.new] }] } :: next,
          curAndConstraint := some 0 }
  | tokenType.tIs => st.assign (fun c => { c with rangeHigh := -1 })
  | tokenType.tNot => st.assign (fun c => { c with notIn := true })
  | tokenType.tIn => st.assign (fun c => { c with rangeHigh := PLURAL_RANGE_HIGH })
  | tokenType.tNumber =>
    st.assign (PluralRules.storeNumber (PluralRules.getNumberValue token))
  | tokenType.tMod => st.assign (fun c => { c with op := RuleOp.MOD })
  | tokenType.tKeyword =>
    match st.ruleChain with
    | none =>
      match st.rules with
      | [] => none
      | head :: next =>
        some { rules := { head with ruleHeader := [{ childNode := [AndConstraint.new] }],
                                    keyword := token } :: next,
               ruleChain := some 0, curAndConstraint := some 0 }
    | some _ =>
      some { rules := st.rules ++ [{ keyword := token,
                                     ruleHeader := [{ childNode := [AndConstraint.new] }],
                                     repeatLimit := 0 }],
             ruleChain := some st.rules.length, curAndConstraint := some st.rules.length }
  | _ => some st

/-- The `while (ruleIndex< ruleData.length())` loop of
`PluralRules::parseDescription`, run for at most `fuel` iterations. -/
def PluralRules.parseLoop (ruleData : UnicodeString) :
    Nat → Nat → UnicodeString → tokenType → tokenType → ParseState →
      Outcome (List RuleChain)
  | fuel, ruleIndex, token, type, prevType, st =>
    if ruleIndex < ruleData.length then
      match fuel with
      | 0 => Outcome.outOfFuel
      | fuel + 1 =>
        let r := RuleParser.getNextToken ruleData ruleIndex token type UErrorCode.U_ZERO_ERROR
        if U_FAILURE r.status then Outcome.failure r.status
        else
          let status := RuleParser.checkSyntax prevType r.type r.status
          if U_FAILURE status then Outcome.failure status
          else
            match PluralRules.parseToken st r.type r.token with
            | none => Outcome.nullDeref
            | some st1 =>
              PluralRules.parseLoop ruleData fuel r.ruleIndex r.token r.type r.type st1
    else Outcome.ok st.rules

/-- The method `PluralRules::parseDescription`, entered with a successful
`status` and the freshly constructed chain `RuleChain rules;`.  Every call of
`getNextToken` moves `ruleIndex` forward, so the length of the text bounds the
number of iterations. -/
def PluralRules.parseDescription (data : UnicodeString) : Outcome (List RuleChain) :=
  let ruleData := UnicodeString.toLower data
  PluralRules.parseLoop ruleData ruleData.length 0 [] tokenType.none tokenType.none
    { rules := [RuleChain.new], ruleChain := none, curAndConstraint := none }

/-! ## Copy constructors -/

/-- The copy constructor `AndConstraint::AndConstraint(const AndConstraint&)`
on a chain: the fields are copied and `next` is copied recursively. -/
def AndConstraint.copy : List AndConstraint → List AndConstraint
  | [] => []
  | other :: next =>
    { op := other.op, opNum := other.opNum, rangeLow := other.rangeLow,
      rangeHigh := other.rangeHigh, notIn := other.notIn } :: AndConstraint.copy next

/-- The copy constructor `OrConstraint::OrConstraint(const OrConstraint&)` on a chain. -/
def OrConstraint.copy : List OrConstraint → List OrConstraint
  | [] => []
  | other :: next =>
    { childNode := AndConstraint.copy other.childNode } :: OrConstraint.copy next

/-- The copy constructor `RuleChain::RuleChain(const RuleChain&)` on a chain. -/
def RuleChain.copy : List RuleChain → List RuleChain
  | [] => []
  | other :: next =>
    { repeatLimit := other.repeatLimit, keyword := other.keyword,
      ruleHeader := OrConstraint.copy other.ruleHeader } :: RuleChain.copy next

/-! ## The locale table -/

/-- Modelled from the spec: the class `Hashtable` of `hash.h` as the repository
uses it (spec section 4.6): a mapping from locale identifier to prototype
chain.  It is created with `ignoreKeyCase = TRUE`, so keys are compared
without case. -/
abbrev Hashtable := List (UnicodeString × List RuleChain)

/-- Modelled from the spec: `Hashtable::get`, the value stored under `key`,
the null pointer (empty chain) when there is none. -/
def Hashtable.get (hash : Hashtable) (key : UnicodeString) : List RuleChain :=
  match hash.find? (fun e => decide (UnicodeString.toLower e.1 = UnicodeString.toLower key)) with
  | some e => e.2
  | none => []

/-- Modelled from the spec: `Hashtable::put`, which stores `value` under `key`
and replaces a value already stored under it. -/
def Hashtable.put (hash : Hashtable) (key : UnicodeString) (value : List RuleChain) :
    Hashtable :=
  hash.filter (fun e => decide (UnicodeString.toLower e.1 ≠ UnicodeString.toLower key))
    ++ [(key, value)]

/-- The table `uCharPluralRules`: `NUMBER_PLURAL_RULES = 13` rows, of which the
initialiser fills twelve; the last row is all zero, the empty string. -/
def uCharPluralRules : List UnicodeString :=
  [ "other: n/ja,ko,tr,vi".toList,
    "one: n is 1/da,de,el,en,eo,es,et,fi,fo,he,hu,it,nb,nl,nn,no,pt,sv".toList,
    "one: n in 0..1/fr,pt_BR".toList,
    "zero: n is 0; one: n mod 10 is 1 and n mod 100 is not 11/lv".toList,
    "one: n is 1; two: n is 2/ga".toList,
    "zero: n is 0; one: n is 1; zero: n mod 100 in 1..19/ro".toList,
    "other: n mod 100 in 11..19; one: n mod 10 is 1; few: n mod 10 in 2..9/lt".toList,
    ("one: n mod 10 is 1 and n mod 100 is not 11; few: n mod 10 in 2..4 " ++
      "and n mod 100 not in 12..14/hr,ru,sr,uk").toList,
    "one: n is 1; few: n in 2..4/cs,sk".toList,
    "one: n is 1; few: n mod 10 in 2..4 and n mod 100 not in 12..14/pl".toList,
    "one: n mod 100 is 1; two: n mod 100 is 2; few: n mod 100 in 3..4/sl".toList,
    "zero: n is 0; one: n is 1; two: n is 2; few: n is 3..10; many: n in 11..99/ar".toList,
    [] ]

/-! ## PluralRules -/

/-- A `PluralRules` object: `mRules` is the chain it owns, the empty list for
`NULL`.  (`mParser` has no state; `fLocaleStringsHash` points to the global
table, which the functions below take and return explicitly.) -/
structure PluralRules where
  mRules : List RuleChain
  deriving DecidableEq, Repr

/-- The method `PluralRules::select`. -/
def PluralRules.select (this : PluralRules) (number : Int) : UnicodeString :=
  if this.mRules = [] then PLURAL_DEFAULT_RULE
  else RuleChain.select this.mRules number

/-- The method `PluralRules::getRepeatLimit`. -/
def PluralRules.getRepeatLimit (this : PluralRules) : Int :=
  if this.mRules ≠ [] then RuleChain.getRepeatLimit this.mRules else 0

/-- The method `PluralRules::isKeyword`. -/
def PluralRules.isKeyword (this : PluralRules) (keyword : UnicodeString) : Bool :=
  if keyword = PLURAL_KEYWORD_OTHER then true
  else if this.mRules = [] then false
  else RuleChain.isKeyword this.mRules keyword

/-- The loop of the constructor of `PluralKeywordEnumeration`: the names added
to `fKeywordNames` and the final value of `addKeywordOther`. -/
def PluralKeywordEnumeration.collect :
    List RuleChain → List UnicodeString → Bool → List UnicodeString × Bool
  | [], names, addKeywordOther => (names, addKeywordOther)
  | node :: next, names, addKeywordOther =>
    PluralKeywordEnumeration.collect next (names ++ [node.keyword])
      (if node.keyword = PLURAL_KEYWORD_OTHER then false else addKeywordOther)

/-- The constructor of `PluralKeywordEnumeration`: the content of `fKeywordNames`. -/
def PluralKeywordEnumeration.new (header : List RuleChain) : List UnicodeString :=
  let r := PluralKeywordEnumeration.collect header [] true
  if r.2 then r.1 ++ [PLURAL_KEYWORD_OTHER] else r.1

/-- The method `PluralRules::getKeywords`: the names the returned enumeration
yields, in order; its `count` is the length of this list. -/
def PluralRules.getKeywords (this : PluralRules) : List UnicodeString :=
  PluralKeywordEnumeration.new this.mRules

/-- The two loops of `operator==` over a keyword enumeration:
`while (sameList && (ptrKeyword=list->snext(status))!=NULL)`. -/
def PluralRules.keywordLoop (isKeyword : UnicodeString → Bool) :
    List UnicodeString → Bool → Bool
  | [], sameList => sameList
  | ptrKeyword :: rest, sameList =>
    if sameList then
      PluralRules.keywordLoop isKeyword rest (if !isKeyword ptrKeyword then false else sameList)
    else sameList

/-- The loop `for (int32_t i=0; i<limit; ++i)` of `operator==` over the values
of `i` still to visit. -/
def PluralRules.compareLoop (this other : PluralRules) : List Nat → Bool
  | [] => true
  | i :: rest =>
    if this.select (Int.ofNat i) ≠ other.select (Int.ofNat i) then false
    else PluralRules.compareLoop this other rest

/-- The part of `operator==` from `if ((limit=this->getRepeatLimit()) != ...` on. -/
def PluralRules.compareSamples (this other : PluralRules) : Bool :=
  let limit := this.getRepeatLimit
  if limit ≠ other.getRepeatLimit then false
  else PluralRules.compareLoop this other (List.range limit.toNat)

/-- The method `PluralRules::operator==`; `sameObject` is the test `this == &other`.
When the two counts differ, `sameList` is set to `FALSE` and never read again. -/
def PluralRules.operatorEq (this other : PluralRules) (sameObject : Bool) : Bool :=
  if sameObject then true
  else
    let myKeywordList := this.getKeywords
    let otherKeywordList := other.getKeywords
    if myKeywordList.length ≠ otherKeywordList.length then
      PluralRules.compareSamples this other
    else
      let sameList := PluralRules.keywordLoop other.isKeyword myKeywordList true
      let sameList := PluralRules.keywordLoop this.isKeyword otherKeywordList sameList
      if !sameList then false
      else PluralRules.compareSamples this other

/-- The method `PluralRules::addRules(localeName, rules, addToHash, status)`:
the object and the global table afterwards. -/
def PluralRules.addRules (this : PluralRules) (hash : Hashtable) (localeName : UnicodeString)
    (rules : List RuleChain) (addToHash : Bool) : PluralRules × Hashtable :=
  let newRule := RuleChain.copy rules
  if addToHash then
    if Hashtable.get hash localeName = [] then
      (this, Hashtable.put hash localeName (RuleChain.setRepeatLimit newRule))
    else (this, hash)
  else ({ mRules := RuleChain.setRepeatLimit newRule }, hash)

/-- The first loop of `PluralRules::getNextLocale`: skip spaces and commas. -/
def PluralRules.skipSeparators : List Char → Nat → Nat
  | [], i => i
  | c :: rest, i =>
    if c ≠ ' ' ∧ c ≠ ',' then i else PluralRules.skipSeparators rest (i + 1)

/-- The second loop of `PluralRules::getNextLocale`: append to `localeName` up
to the next space or comma. -/
def PluralRules.readLocale : List Char → Nat → UnicodeString → Nat × UnicodeString
  | [], i, localeName => (i, localeName)
  | c :: rest, i, localeName =>
    if c = ' ' ∨ c = ',' then (i, localeName)
    else PluralRules.readLocale rest (i + 1) (localeName ++ [c])

/-- The method `PluralRules::getNextLocale`: the values left in `*curIndex` and
`localeName`. -/
def PluralRules.getNextLocale (localeData : UnicodeString) (curIndex : Nat) :
    Nat × UnicodeString :=
  let i := PluralRules.skipSeparators (localeData.drop curIndex) curIndex
  PluralRules.readLocale (localeData.drop i) i []

/-- The inner loop of `PluralRules::getRuleData`,
`while (curIndex < localeData.length() && U_SUCCESS(status))`, run for at most
`fuel` iterations. -/
def PluralRules.localeLoop (this : PluralRules) (localeData : UnicodeString)
    (rules : List RuleChain) : Nat → Nat → Hashtable → Outcome Hashtable
  | fuel, curIndex, hash =>
    if curIndex < localeData.length then
      match fuel with
      | 0 => Outcome.outOfFuel
      | fuel + 1 =>
        let r := PluralRules.getNextLocale localeData curIndex
        PluralRules.localeLoop this localeData rules fuel r.1
          (PluralRules.addRules this hash r.2 rules true).2
    else Outcome.ok hash

/-- The outer loop of `PluralRules::getRuleData` over the rows of the table
still to visit: the global table afterwards and how the run ends. -/
def PluralRules.getRuleDataLoop (this : PluralRules) :
    List UnicodeString → Hashtable → Hashtable × Outcome Unit
  | [], hash => (hash, Outcome.ok ())
  | pluralRuleData :: rows, hash =>
    match pluralRuleData.indexOf? '/' with
    | none => (hash, Outcome.ok ())
    | some slashIndex =>
      let ruleData := UnicodeString.sub pluralRuleData 0 slashIndex
      let localeData := pluralRuleData.drop (slashIndex + 1)
      match PluralRules.parseDescription ruleData with
      | Outcome.ok rules =>
        match PluralRules.localeLoop this localeData rules localeData.length 0 hash with
        | Outcome.ok hash1 => PluralRules.getRuleDataLoop this rows hash1
        | Outcome.failure status => (hash, Outcome.failure status)
        | Outcome.nullDeref => (hash, Outcome.nullDeref)
        | Outcome.outOfFuel => (hash, Outcome.outOfFuel)
      | Outcome.failure status => (hash, Outcome.failure status)
      | Outcome.nullDeref => (hash, Outcome.nullDeref)
      | Outcome.outOfFuel => (hash, Outcome.outOfFuel)

/-- The method `PluralRules::getRuleData`. -/
def PluralRules.getRuleData (this : PluralRules) (hash : Hashtable) :
    Hashtable × Outcome Unit :=
  PluralRules.getRuleDataLoop this uCharPluralRules hash

/-- The constructor `PluralRules::PluralRules(UErrorCode& status)`, entered with
a successful `status` and the global table `hash` (empty when it is created
here): the object, the table afterwards, and how the run ends. -/
def PluralRules.new (hash : Hashtable) : PluralRules × Hashtable × Outcome Unit :=
  let this : PluralRules := { mRules := [] }
  let r := PluralRules.getRuleData this hash
  (this, r.1, r.2)

/-- The function `PluralRules::createRules`, entered with a successful `status`:
the global table afterwards and the returned object (a failure is the `NULL`
result with that `status`). -/
def PluralRules.createRules (hash : Hashtable) (description : UnicodeString) :
    Hashtable × Outcome PluralRules :=
  match PluralRules.new hash with
  | (newRules, hash1, Outcome.ok _) =>
    match PluralRules.parseDescription description with
    | Outcome.ok rules =>
      let r := PluralRules.addRules newRules hash1 [] rules false
      (r.2, Outcome.ok r.1)
    | Outcome.failure status => (hash1, Outcome.failure status)
    | Outcome.nullDeref => (hash1, Outcome.nullDeref)
    | Outcome.outOfFuel => (hash1, Outcome.outOfFuel)
  | (_, hash1, Outcome.failure status) => (hash1, Outcome.failure status)
  | (_, hash1, Outcome.nullDeref) => (hash1, Outcome.nullDeref)
  | (_, hash1, Outcome.outOfFuel) => (hash1, Outcome.outOfFuel)

/-- The function `PluralRules::createDefaultRules`. -/
def PluralRules.createDefaultRules (hash : Hashtable) : Hashtable × Outcome PluralRules :=
  PluralRules.createRules hash PLURAL_DEFAULT_RULE

/-! ## Copying a PluralRules object -/

/-- The method `PluralRules::operator=`: the object `this` afterwards;
`sameObject` is the test `this == &other`. -/
def PluralRules.operatorAssign (this other : PluralRules) (sameObject : Bool) : PluralRules :=
  if sameObject then this
  else if other.mRules = [] then { mRules := [] }
  else { mRules := RuleChain.copy other.mRules }

/-- The copy constructor `PluralRules::PluralRules(const PluralRules&)`: the new
object starts with `mRules(NULL)` and runs `*this=other`. -/
def PluralRules.copyConstruct (other : PluralRules) : PluralRules :=
  PluralRules.operatorAssign { mRules := [] } other false

/-- The method `PluralRules::clone`: `new PluralRules(*this)`. -/
def PluralRules.clone (this : PluralRules) : PluralRules :=
  PluralRules.copyConstruct this

/-! ## The keyword enumeration object -/

/-- A `PluralKeywordEnumeration` object: the vector `fKeywordNames` and the
cursor `pos`. -/
structure PluralKeywordEnumeration where
  fKeywordNames : List UnicodeString
  pos : Nat
  deriving DecidableEq, Repr

/-- The object `PluralRules::getKeywords` returns: the constructor fills
`fKeywordNames` and sets `pos=0`. -/
def PluralRules.getKeywordsObject (this : PluralRules) : PluralKeywordEnumeration :=
  { fKeywordNames := PluralKeywordEnumeration.new this.mRules, pos := 0 }

/-- The method `PluralKeywordEnumeration::snext`: the returned pointer (`none`
for `NULL`) and the object afterwards. -/
def PluralKeywordEnumeration.snext (this : PluralKeywordEnumeration) (status : UErrorCode) :
    Option UnicodeString × PluralKeywordEnumeration :=
  if U_SUCCESS status = true ∧ this.pos < this.fKeywordNames.length then
    (this.fKeywordNames[this.pos]?, { this with pos := this.pos + 1 })
  else (none, this)

/-- The method `PluralKeywordEnumeration::reset`. -/
def PluralKeywordEnumeration.reset (this : PluralKeywordEnumeration) :
    PluralKeywordEnumeration :=
  { this with pos := 0 }

/-- The method `PluralKeywordEnumeration::count`. -/
def PluralKeywordEnumeration.count (this : PluralKeywordEnumeration) : Nat :=
  this.fKeywordNames.length

/-- The object after `k` calls of `snext` with a successful status. -/
def PluralKeywordEnumeration.afterCalls : Nat → PluralKeywordEnumeration →
    PluralKeywordEnumeration
  | 0, e => e
  | k + 1, e => PluralKeywordEnumeration.afterCalls k (e.snext UErrorCode.U_ZERO_ERROR).2

/-! ## PluralRules::forLocale -/

/-- Modelled from the spec: `uloc_getParent` of `unicode/uloc.h` (spec section 6:
"strip trailing region/script/variant subtag, innermost first"), the identifier
up to its last underscore; the empty string, of length 0, when it has none. -/
def uloc_getParent (localeID : UnicodeString) : UnicodeString :=
  ((localeID.reverse.dropWhile (fun c => decide (c ≠ '_'))).drop 1).reverse

/-- The loop `while ((localeNameLen=uloc_getParent(...)) > 0)` of
`PluralRules::forLocale`, run for at most `fuel` iterations: the value of
`locRules` after it. -/
def PluralRules.parentLoop (hash : Hashtable) : Nat → UnicodeString → Outcome (List RuleChain)
  | fuel, parentLocaleName =>
    if (uloc_getParent parentLocaleName).length > 0 then
      match fuel with
      | 0 => Outcome.outOfFuel
      | fuel + 1 =>
        if Hashtable.get hash (uloc_getParent parentLocaleName) ≠ [] then
          Outcome.ok (Hashtable.get hash (uloc_getParent parentLocaleName))
        else PluralRules.parentLoop hash fuel (uloc_getParent parentLocaleName)
    else Outcome.ok []

/-- What `PluralRules::forLocale` does once `locRules` is known: the default
rule set for `NULL`, otherwise `newRules->addRules(*locRules, status)`. -/
def PluralRules.forLocaleFinish (newRules : PluralRules) (hash1 : Hashtable)
    (locRules : List RuleChain) : Hashtable × Outcome PluralRules :=
  if locRules = [] then PluralRules.createRules hash1 PLURAL_DEFAULT_RULE
  else
    let r := PluralRules.addRules newRules hash1 [] locRules false
    (r.2, Outcome.ok r.1)

/-- The function `PluralRules::forLocale`, entered with a successful `status`;
the locale is given by its name (`locale.getName()`, which is also what
`LocaleUtility::initNameFromLocale` stores in `localeName`).  Every parent is
shorter than its child, so the length of the name bounds the iterations of the
parent loop. -/
def PluralRules.forLocale (hash : Hashtable) (locale : UnicodeString) :
    Hashtable × Outcome PluralRules :=
  match PluralRules.new hash with
  | (newRules, hash1, Outcome.ok _) =>
    if Hashtable.get hash1 locale = [] then
      match PluralRules.parentLoop hash1 locale.length locale with
      | Outcome.ok locRules => PluralRules.forLocaleFinish newRules hash1 locRules
      | Outcome.failure status => (hash1, Outcome.failure status)
      | Outcome.nullDeref => (hash1, Outcome.nullDeref)
      | Outcome.outOfFuel => (hash1, Outcome.outOfFuel)
    else PluralRules.forLocaleFinish newRules hash1 (Hashtable.get hash1 locale)
  | (_, hash1, Outcome.failure status) => (hash1, Outcome.failure status)
  | (_, hash1, Outcome.nullDeref) => (hash1, Outcome.nullDeref)
  | (_, hash1, Outcome.outOfFuel) => (hash1, Outcome.outOfFuel)

/-! ## Evaluation with the undefined remainder -/

/-- The smallest value of `int32_t`. -/
def INT32_MIN : Int := -2147483648

/-- Whether the statement `value = value % opNum` of `AndConstraint::isFulfilled`
has a result in C++ when it is reached: the divisor is not 0, and the operands
are not `INT32_MIN` and -1.  Otherwise the behaviour is undefined (the program
traps on the division). -/
def AndConstraint.remainderDefined (c : AndConstraint) (number : Int) : Bool :=
  decide (c.op = RuleOp.MOD → c.opNum ≠ 0 ∧ ¬ (number = INT32_MIN ∧ c.opNum = -1))

/-- The method `AndConstraint::isFulfilled` with the trap: `none` when the
remainder it computes is undefined, otherwise the value it returns. -/
def AndConstraint.isFulfilledChecked (c : AndConstraint) (number : Int) : Option Bool :=
  if c.remainderDefined number then some (c.isFulfilled number) else none

/-- The inner loop of `OrConstraint::isFulfilled` with the trap. -/
def OrConstraint.andLoopChecked (number : Int) : List AndConstraint → Bool → Option Bool
  | [], result => some result
  | andRule :: next, result =>
    if result then
      match andRule.isFulfilledChecked number with
      | none => none
      | some result1 => OrConstraint.andLoopChecked number next result1
    else some result

/-- The outer loop of `OrConstraint::isFulfilled` with the trap. -/
def OrConstraint.orLoopChecked (number : Int) : List OrConstraint → Bool → Option Bool
  | [], result => some result
  | orRule :: next, result =>
    if !result then
      match OrConstraint.andLoopChecked number orRule.childNode true with
      | none => none
      | some result1 => OrConstraint.orLoopChecked number next result1
    else some result

/-- The method `OrConstraint::isFulfilled` with the trap. -/
def OrConstraint.isFulfilledChecked (this : List OrConstraint) (number : Int) : Option Bool :=
  OrConstraint.orLoopChecked number this false

/-- The method `RuleChain::select` with the trap: `none` when a remainder it
reaches is undefined. -/
def RuleChain.selectChecked : List RuleChain → Int → Option UnicodeString
  | [], _ => some PLURAL_KEYWORD_OTHER
  | this :: next, number =>
    if this.ruleHeader ≠ [] then
      match OrConstraint.isFulfilledChecked this.ruleHeader number with
      | none => none
      | some true => some this.keyword
      | some false => RuleChain.selectChecked next number
    else RuleChain.selectChecked next number

/-- The method `PluralRules::select` with the trap. -/
def PluralRules.selectChecked (this : PluralRules) (number : Int) : Option UnicodeString :=
  if this.mRules = [] then some PLURAL_DEFAULT_RULE
  else RuleChain.selectChecked this.mRules number

/-- The loop `for (int32_t i=0; i<limit; ++i)` of `operator==` with the trap:
`this->select(i)` runs first, then `other.select(i)`. -/
def PluralRules.compareLoopChecked (this other : PluralRules) : List Nat → Option Bool
  | [] => some true
  | i :: rest =>
    match this.selectChecked (Int.ofNat i) with
    | none => none
    | some myKeyword =>
      match other.selectChecked (Int.ofNat i) with
      | none => none
      | some otherKeyword =>
        if myKeyword ≠ otherKeyword then some false
        else PluralRules.compareLoopChecked this other rest

/-- The part of `operator==` from `if ((limit=this->getRepeatLimit()) != ...` on,
with the trap. -/
def PluralRules.compareSamplesChecked (this other : PluralRules) : Option Bool :=
  let limit := this.getRepeatLimit
  if limit ≠ other.getRepeatLimit then some false
  else PluralRules.compareLoopChecked this other (List.range limit.toNat)

/-- The method `PluralRules::operator==` with the trap: `none` when a call of
`select` in its sampling loop meets an undefined remainder, otherwise the value
it returns. -/
def PluralRules.operatorEqChecked (this other : PluralRules) (sameObject : Bool) :
    Option Bool :=
  if sameObject then some true
  else
    let myKeywordList := this.getKeywords
    let otherKeywordList := other.getKeywords
    if myKeywordList.length ≠ otherKeywordList.length then
      PluralRules.compareSamplesChecked this other
    else
      let sameList := PluralRules.keywordLoop other.isKeyword myKeywordList true
      let sameList := PluralRules.keywordLoop this.isKeyword otherKeywordList sameList
      if !sameList then some false
      else PluralRules.compareSamplesChecked this other

/-! ## Rule sets used as concrete inputs -/

/-- The chain `parseDescription` builds from "one: n is 1". -/
def chainOneIs1 : List RuleChain :=
  [⟨['o', 'n', 'e'], [⟨[⟨RuleOp.NONE, -1, 1, -1, false⟩]⟩], 0⟩]

/-- The chain `parseDescription` builds from "one: n is 1 and n mod 5 is 1". -/
def chainOneIs1Mod5 : List RuleChain :=
  [⟨['o', 'n', 'e'], [⟨[⟨RuleOp.NONE, -1, 1, -1, false⟩, ⟨RuleOp.MOD, 5, 1, -1, false⟩]⟩], 0⟩]

/-- The chain `parseDescription` builds from "one: n mod 10 is 1". -/
def chainOneMod10 : List RuleChain :=
  [⟨['o', 'n', 'e'], [⟨[⟨RuleOp.MOD, 10, 1, -1, false⟩]⟩], 0⟩]

/-- The chain `parseDescription` builds from "one: n is 1 and n mod 10 is 1". -/
def chainOneIs1Mod10 : List RuleChain :=
  [⟨['o', 'n', 'e'], [⟨[⟨RuleOp.NONE, -1, 1, -1, false⟩, ⟨RuleOp.MOD, 10, 1, -1, false⟩]⟩], 0⟩]

/-- The chain `parseDescription` builds from "two: n is 1". -/
def chainTwoIs1 : List RuleChain :=
  [⟨['t', 'w', 'o'], [⟨[⟨RuleOp.NONE, -1, 1, -1, false⟩]⟩], 0⟩]

/-- The chain `parseDescription` builds from "one: n mod 10 is 1 and n is not 1". -/
def chainOneMod10Not1 : List RuleChain :=
  [⟨['o', 'n', 'e'], [⟨[⟨RuleOp.MOD, 10, 1, -1, false⟩, ⟨RuleOp.NONE, -1, 1, -1, true⟩]⟩], 0⟩]

/-- The chain `parseDescription` builds from "one: n is 0". -/
def chainOneIs0 : List RuleChain :=
  [⟨['o', 'n', 'e'], [⟨[⟨RuleOp.NONE, -1, 0, -1, false⟩]⟩], 0⟩]

/-- The bound a predicate contributes to the repeat limit, as the specification
words it (section 4.5): `opNum` if modulo is used, else `high` if set, else `low`. -/
def AndConstraint.bound (c : AndConstraint) : Int :=
  if c.op = RuleOp.MOD then c.opNum else if c.rangeHigh = -1 then c.rangeLow else c.rangeHigh

/-- The instance `createRules` returns for a chain built by `parseDescription`. -/
def instanceOf (rules : List RuleChain) : PluralRules :=
  { mRules := RuleChain.setRepeatLimit rules }

/-- The chain `parseDescription` builds from "other: n". -/
def chainOther : List RuleChain :=
  [⟨['o', 't', 'h', 'e', 'r'], [⟨[⟨RuleOp.NONE, -1, -1, -1, false⟩]⟩], 0⟩]

/-- The chain `parseDescription` builds from "one: n is 1; other: n". -/
def chainOneOther : List RuleChain :=
  [⟨['o', 'n', 'e'], [⟨[⟨RuleOp.NONE, -1, 1, -1, false⟩]⟩], 0⟩,
   ⟨['o', 't', 'h', 'e', 'r'], [⟨[⟨RuleOp.NONE, -1, -1, -1, false⟩]⟩], 0⟩]

/-- The chain `parseDescription` builds from "one: n is 1; few: n is 2 or n is 3":
the conjunction `n is 3` hangs on the entry "one". -/
def chainOneFewOr : List RuleChain :=
  [⟨['o', 'n', 'e'],
     [⟨[⟨RuleOp.NONE, -1, 1, -1, false⟩]⟩, ⟨[⟨RuleOp.NONE, -1, 3, -1, false⟩]⟩], 0⟩,
   ⟨['f', 'e', 'w'], [⟨[⟨RuleOp.NONE, -1, 2, -1, false⟩]⟩], 0⟩]

/-- The chain `parseDescription` builds from "one: n in 2.#4". -/
def chainOneIn2To4 : List RuleChain :=
  [⟨['o', 'n', 'e'], [⟨[⟨RuleOp.NONE, -1, 2, 4, false⟩]⟩], 0⟩]

/-- The chain `parseDescription` builds from "few: n in 2..". -/
def chainFewPending : List RuleChain :=
  [⟨['f', 'e', 'w'], [⟨[⟨RuleOp.NONE, -1, 2, PLURAL_RANGE_HIGH, false⟩]⟩], 0⟩]

/-- The chain `parseDescription` builds from "one: n in 2.4": the range is left
open at the top. -/
def chainOneFrom2 : List RuleChain :=
  [⟨['o', 'n', 'e'], [⟨[⟨RuleOp.NONE, -1, 2, PLURAL_RANGE_HIGH, false⟩]⟩], 0⟩]

/-- The chain `parseDescription` builds from "one: n is 1 is 2". -/
def chainOneIs1Is2 : List RuleChain :=
  [⟨['o', 'n', 'e'], [⟨[⟨RuleOp.NONE, -1, 1, 2, false⟩]⟩], 0⟩]

/-- The chain `parseDescription` builds from "one: n mod 0 is 1". -/
def chainOneMod0 : List RuleChain :=
  [⟨['o', 'n', 'e'], [⟨[⟨RuleOp.MOD, 0, 1, -1, false⟩]⟩], 0⟩]

/-- The chain `parseDescription` builds from "one: n mod". -/
def chainOneModUnset : List RuleChain :=
  [⟨['o', 'n', 'e'], [⟨[⟨RuleOp.MOD, -1, -1, -1, false⟩]⟩], 0⟩]

/-- The chain `parseDescription` builds from "one: n mod 0 is 1 and n is 5". -/
def chainOneMod0Is5 : List RuleChain :=
  [⟨['o', 'n', 'e'], [⟨[⟨RuleOp.MOD, 0, 1, -1, false⟩, ⟨RuleOp.NONE, -1, 5, -1, false⟩]⟩], 0⟩]

/-- The chain `parseDescription` builds from "one: n mod 2147483648 is 1". -/
def chainOneModOverflow : List RuleChain :=
  [⟨['o', 'n', 'e'], [⟨[⟨RuleOp.MOD, -2147483648, 1, -1, false⟩]⟩], 0⟩]

/-! ## Definitions used to state and prove the lexing lemmas -/

/-- A decimal digit, as `RuleParser::inRange` tests it. -/
def isDigitChar (c : Char) : Bool :=
  decide ('0'.toNat ≤ c.toNat ∧ c.toNat ≤ '9'.toNat)

/-- A lower-case letter, as `RuleParser::inRange` tests it. -/
def isLetterChar (c : Char) : Bool :=
  decide ('a'.toNat ≤ c.toNat ∧ c.toNat ≤ 'z'.toNat)

/-- The number a string of decimal digits denotes. -/
def decimalValue (s : UnicodeString) : Nat :=
  s.foldl (fun acc c => 10 * acc + (c.toNat - '0'.toNat)) 0

/-- A number of a rule description that `getNumberValue` reads as written: one
or more decimal digits, short enough for its buffer `char digits[128]`, with a
value that fits `int32_t`. -/
def int32Number (s : UnicodeString) : Bool :=
  !s.isEmpty && s.all isDigitChar && decide (s.length < 128) &&
    decide (decimalValue s ≤ 2147483647)

/-- The loop of `parseDescription` on a text read from its start, with the
iteration bound `parseDescription` gives it. -/
def PluralRules.parseFrom (ruleData : UnicodeString) (token : UnicodeString)
    (type prevType : tokenType) (st : ParseState) : Outcome (List RuleChain) :=
  PluralRules.parseLoop ruleData ruleData.length 0 token type prevType st

/-- The result of `getNextToken` with its index moved by `k`. -/
def TokenResult.shift (k : Nat) (r : TokenResult) : TokenResult :=
  { r with ruleIndex := r.ruleIndex + k }

/-- What one iteration of the loop of `parseDescription` does with the token
(`token`, `type`) once `getNextToken` has returned it without error, continuing
on the text `rest`. -/
def PluralRules.consume (prev : tokenType) (st : ParseState) (token : UnicodeString)
    (type : tokenType) (rest : List Char) : Outcome (List RuleChain) :=
  if U_FAILURE (RuleParser.checkSyntax prev type UErrorCode.U_ZERO_ERROR) then
    Outcome.failure (RuleParser.checkSyntax prev type UErrorCode.U_ZERO_ERROR)
  else
    match PluralRules.parseToken st type token with
    | none => Outcome.nullDeref
    | some st1 => PluralRules.parseFrom rest token type type st1

/-! ## Token sequences -/

/-- The validation `parseDescription` applies to a sequence of token kinds:
`checkSyntax(prevType, type, status)` on each one in turn, `prevType` being the
kind before it; `true` when no call sets a failure. -/
def RuleParser.passesFrom : tokenType → List tokenType → Bool
  | _, [] => true
  | prevType, type :: rest =>
    if U_FAILURE (RuleParser.checkSyntax prevType type UErrorCode.U_ZERO_ERROR) then false
    else RuleParser.passesFrom type rest

/-- The builder of `parseDescription` on a sequence of tokens (kind and text):
the `switch (type)` on each one in turn; `none` when a null pointer is
dereferenced. -/
def PluralRules.buildFrom : ParseState → List (tokenType × UnicodeString) → Option ParseState
  | st, [] => some st
  | st, t :: rest =>
    match PluralRules.parseToken st t.1 t.2 with
    | none => none
    | some st1 => PluralRules.buildFrom st1 rest

/-- The state `parseDescription` starts from: `RuleChain rules;` and the two
null pointers. -/
def ParseState.initial : ParseState :=
  { rules := [RuleChain.new], ruleChain := none, curAndConstraint := none }

/-- A node whose last `OrConstraint` exists and has a non-empty `AndConstraint`
chain: what a non-null `curAndConstraint` points into. -/
def RuleChain.hasCurrent (node : RuleChain) : Bool :=
  match node.ruleHeader.getLast? with
  | some o => decide (o.childNode ≠ [])
  | none => false

/-- The pointers of the builder are all present: `ruleChain` is set,
`curAndConstraint` points into a node of `rules`, and the head node has a
`ruleHeader`. -/
def ParseState.present (st : ParseState) : Bool :=
  st.ruleChain.isSome &&
  (match st.curAndConstraint with
    | some i =>
      (match st.rules[i]? with
        | some node => node.hasCurrent
        | none => false)
    | none => false) &&
  (match st.rules with
    | head :: _ => decide (head.ruleHeader ≠ [])
    | [] => false)

/-- The state of the builder fits the kind of the previous token: before the
first token it is the initial state, after a token every pointer is present. -/
def ParseState.fits (prevType : tokenType) (st : ParseState) : Prop :=
  (prevType = tokenType.none ∧ st = ParseState.initial) ∨
    (prevType ≠ tokenType.none ∧ st.present = true)

/-- Every `AndConstraint` of a chain satisfies `P`. -/
def RuleChain.allPredicates (P : AndConstraint → Prop) (rules : List RuleChain) : Prop :=
  ∀ node ∈ rules, ∀ o ∈ node.ruleHeader, ∀ c ∈ o.childNode, P c

/-- Every `AndConstraint` of a chain that uses modulo has a positive `opNum`. -/
def RuleChain.divisorsPositive (rules : List RuleChain) : Bool :=
  rules.all (fun node => node.ruleHeader.all (fun o => o.childNode.all
    (fun c => decide (c.op = RuleOp.MOD → 0 < c.opNum))))

/-- The chain `parseDescription` builds from the rule text of a row of
`uCharPluralRules` (the text before the slash), the empty chain when the row
has no slash or the text is rejected. -/
def builtinChain (row : UnicodeString) : List RuleChain :=
  match row.indexOf? '/' with
  | some slashIndex =>
    match PluralRules.parseDescription (UnicodeString.sub row 0 slashIndex) with
    | Outcome.ok rules => rules
    | _ => []
  | none => []

/-- The global table after the constructor `PluralRules::PluralRules(status)`
has seeded it. -/
def seededTable (hash : Hashtable) : Hashtable :=
  (PluralRules.new hash).2.1

/-- Every chain of the table was stored by `addRules`, which sets the repeat
limits before it stores. -/
def Hashtable.limitsSet (hash : Hashtable) : Prop :=
  ∀ e ∈ hash, RuleChain.setRepeatLimit e.2 = e.2

/-- The tokens `parseDescription` reads from `ruleData` (kind and text): the
calls of `getNextToken` of its loop, up to the end of the text or to the first
call that fails. -/
def RuleParser.tokensFrom (ruleData : UnicodeString) :
    Nat → Nat → UnicodeString → tokenType → List (tokenType × UnicodeString)
  | fuel, ruleIndex, token, type =>
    if ruleIndex < ruleData.length then
      match fuel with
      | 0 => []
      | fuel + 1 =>
        let r := RuleParser.getNextToken ruleData ruleIndex token type UErrorCode.U_ZERO_ERROR
        if U_FAILURE r.status then []
        else (r.type, r.token) :: RuleParser.tokensFrom ruleData fuel r.ruleIndex r.token r.type
    else []

/-- The tokens `parseDescription` reads from a description. -/
def RuleParser.tokens (description : UnicodeString) : List (tokenType × UnicodeString) :=
  RuleParser.tokensFrom (UnicodeString.toLower description)
    (UnicodeString.toLower description).length 0 [] tokenType.none

/-- A token text that `getNumberValue` reads within the limits of the code:
shorter than the buffer `char digits[128]`, with leading digits whose value fits
`int32_t`. -/
def PluralRules.representable (token : UnicodeString) : Bool :=
  decide (token.length < 128) && decide (atoi token 0 ≤ 2147483647)

/-- In a sequence of tokens, every number is representable and every `mod` is
directly followed by a number greater than zero. -/
def PluralRules.divisorsWritten : List (tokenType × UnicodeString) → Bool
  | [] => true
  | t :: rest =>
    (if t.1 = tokenType.tNumber then PluralRules.representable t.2 else true) &&
    (if t.1 = tokenType.tMod then
      (match rest with
        | u :: _ => decide (u.1 = tokenType.tNumber ∧ 0 < atoi u.2 0)
        | [] => false)
    else true) &&
    PluralRules.divisorsWritten rest

/-- A predicate whose divisor is in order: -1 as long as modulo is not used,
greater than zero when it is. -/
def AndConstraint.divisorSet (c : AndConstraint) : Prop :=
  (c.op = RuleOp.NONE → c.opNum = -1) ∧ (c.op = RuleOp.MOD → 0 < c.opNum)

/-- The state of the builder fits the kind of the previous token as far as the
divisors go: after `mod` the divisor of the current predicate is still to come,
and storing a number greater than zero sets it; otherwise every divisor is set. -/
def ParseState.divisorsFit (prevType : tokenType) (st : ParseState) : Prop :=
  if prevType = tokenType.tMod then
    ∀ (v : Int) (st1 : ParseState), 0 < v →
      st.assign (PluralRules.storeNumber v) = some st1 →
      RuleChain.allPredicates AndConstraint.divisorSet st1.rules
  else RuleChain.allPredicates AndConstraint.divisorSet st.rules

/-- No predicate of the chain uses modulo with the divisor 0. -/
def RuleChain.divisorsNonzero (rules : List RuleChain) : Bool :=
  rules.all (fun node => node.ruleHeader.all (fun o => o.childNode.all
    (fun c => decide (c.op = RuleOp.MOD → c.opNum ≠ 0))))

/-! ## Specification-side definitions -/

/-- The evaluation of a predicate as the specification words it (section 4.4):
`value` is `number mod opNum` when modulo is used, the result is "lower bound
unset or `value == low`" without an upper bound and `low ≤ value ≤ high` with
one, negated when `notIn` is set.  `-1` is the stored form of "unset". -/
def AndConstraint.evaluateSpec (c : AndConstraint) (number : Int) : Bool :=
  let value := if c.op = RuleOp.MOD then number % c.opNum else number
  let r : Bool :=
    if c.rangeHigh = -1 then decide (c.rangeLow = -1 ∨ value = c.rangeLow)
    else decide (c.rangeLow ≤ value ∧ value ≤ c.rangeHigh)
  if c.notIn then !r else r

/-- A disjunction as the specification words it (section 3): satisfied iff at
least one conjunction has all of its predicates fulfilled. -/
def OrConstraint.satisfiedSpec (header : List OrConstraint) (number : Int) : Bool :=
  header.any (fun o => o.childNode.all (fun c => c.isFulfilled number))

/-- The selection as the specification words it (section 4.4): the keyword of
the first entry, in declaration order, whose disjunction is satisfied, and
"other" when there is none. -/
def RuleChain.selectSpec (chain : List RuleChain) (number : Int) : UnicodeString :=
  match chain.find? (fun e => OrConstraint.satisfiedSpec e.ruleHeader number) with
  | some e => e.keyword
  | none => PLURAL_KEYWORD_OTHER

/-- Forget the value of an outcome. -/
def Outcome.void {α : Type} : Outcome α → Outcome Unit
  | Outcome.ok _ => Outcome.ok ()
  | Outcome.failure status => Outcome.failure status
  | Outcome.nullDeref => Outcome.nullDeref
  | Outcome.outOfFuel => Outcome.outOfFuel

/-- The transition table as the specification words it (section 4.2): which
current token kind may follow which previous kind. -/
def RuleParser.allowedSpec (prev cur : tokenType) : Bool :=
  match prev with
  | tokenType.none | tokenType.tSemiColon => decide (cur = tokenType.tKeyword)
  | tokenType.tKeyword => decide (cur = tokenType.tColon)
  | tokenType.tColon => decide (cur = tokenType.tVariableN)
  | tokenType.tVariableN =>
    decide (cur = tokenType.tIs ∨ cur = tokenType.tMod ∨ cur = tokenType.tIn ∨
      cur = tokenType.tNot)
  | tokenType.tIs => decide (cur = tokenType.tNumber ∨ cur = tokenType.tNot)
  | tokenType.tNot => decide (cur = tokenType.tNumber ∨ cur = tokenType.tIn)
  | tokenType.tMod | tokenType.tDot | tokenType.tIn | tokenType.tAnd | tokenType.tOr =>
    decide (cur = tokenType.tNumber ∨ cur = tokenType.tVariableN)
  | tokenType.tNumber =>
    decide (cur = tokenType.tDot ∨ cur = tokenType.tSemiColon ∨ cur = tokenType.tIs ∨
      cur = tokenType.tNot ∨ cur = tokenType.tIn ∨ cur = tokenType.tAnd ∨
      cur = tokenType.tOr)
  | _ => false

/-- The six category kinds of `tokenType` that `getKeyType` never assigns. -/
def RuleParser.isCategoryKind (t : tokenType) : Bool :=
  decide (t = tokenType.tZero ∨ t = tokenType.tOne ∨ t = tokenType.tTwo ∨
    t = tokenType.tFew ∨ t = tokenType.tMany ∨ t = tokenType.tOther)

/-- The keywords of the entries of a chain, in declaration order, followed by
"other" when no entry has it: the enumeration as the specification words it
(section 4.6). -/
def RuleChain.keywordsSpec (chain : List RuleChain) : List UnicodeString :=
  chain.map (fun e => e.keyword) ++
    (if ∀ e ∈ chain, e.keyword ≠ PLURAL_KEYWORD_OTHER then [PLURAL_KEYWORD_OTHER] else [])

/-- One relation `n [mod N] (is [not] N | [not] in N..N)` of the grammar of the
specification (section 6), by its three choices. -/
structure RelationShape where
  hasMod : Bool
  isRange : Bool
  negated : Bool
  deriving DecidableEq, Repr

/-- The token kinds of a relation. -/
def RelationShape.tokens (r : RelationShape) : List tokenType :=
  tokenType.tVariableN ::
    ((if r.hasMod then [tokenType.tMod, tokenType.tNumber] else []) ++
      (if r.isRange then
        (if r.negated then [tokenType.tNot] else []) ++
          [tokenType.tIn, tokenType.tNumber, tokenType.tDot, tokenType.tNumber]
      else
        tokenType.tIs :: ((if r.negated then [tokenType.tNot] else []) ++ [tokenType.tNumber])))

/-- The token kinds of `((and|or) relation)*`; `true` stands for `and`. -/
def RelationShape.moreTokens : List (Bool × RelationShape) → List tokenType
  | [] => []
  | p :: rest =>
    (if p.1 then tokenType.tAnd else tokenType.tOr) ::
      (p.2.tokens ++ RelationShape.moreTokens rest)

/-- One rule `keyword : relation ((and|or) relation)*` of the grammar. -/
structure RuleShape where
  first : RelationShape
  more : List (Bool × RelationShape)
  deriving DecidableEq, Repr

/-- The token kinds of a rule. -/
def RuleShape.tokens (r : RuleShape) : List tokenType :=
  tokenType.tKeyword :: tokenType.tColon :: (r.first.tokens ++ RelationShape.moreTokens r.more)

/-- The token kinds of a sequence of rules separated by semicolons. -/
def RuleShape.sequenceTokens : List RuleShape → List tokenType
  | [] => []
  | [r] => r.tokens
  | r :: s :: rest => r.tokens ++ tokenType.tSemiColon :: RuleShape.sequenceTokens (s :: rest)

/-- The parent chain of a locale identifier, nearest ancestor first, as the
specification words it: strip the trailing subtag until nothing is left. -/
def localeParentsFrom : Nat → UnicodeString → List UnicodeString
  | 0, _ => []
  | fuel + 1, localeID =>
    if (uloc_getParent localeID).length > 0 then
      uloc_getParent localeID :: localeParentsFrom fuel (uloc_getParent localeID)
    else []

/-- The parent chain of a locale identifier, nearest ancestor first. -/
def localeParents (localeID : UnicodeString) : List UnicodeString :=
  localeParentsFrom localeID.length localeID

/-! ## Evaluation lemmas -/

theorem andLoop_eq_all (number : Int) (l : List AndConstraint) (result : Bool) :
    OrConstraint.andLoop number l result
      = (result && l.all (fun c => c.isFulfilled number)) := by
  induction l generalizing result with
  | nil => simp [OrConstraint.andLoop]
  | cons c l ih =>
    cases result
    · simp [OrConstraint.andLoop]
    · simp [OrConstraint.andLoop, ih]

theorem orLoop_eq_any (number : Int) (l : List OrConstraint) (result : Bool) :
    OrConstraint.orLoop number l result
      = (result || OrConstraint.satisfiedSpec l number) := by
  induction l generalizing result with
  | nil => simp [OrConstraint.orLoop, OrConstraint.satisfiedSpec]
  | cons o l ih =>
    cases result
    · simp [OrConstraint.orLoop, ih, andLoop_eq_all, OrConstraint.satisfiedSpec]
    · simp [OrConstraint.orLoop]

theorem orConstraint_isFulfilled_eq (l : List OrConstraint) (number : Int) :
    OrConstraint.isFulfilled l number = OrConstraint.satisfiedSpec l number := by
  simp [OrConstraint.isFulfilled, orLoop_eq_any]

theorem ruleChain_select_cons (this : RuleChain) (next : List RuleChain) (number : Int) :
    RuleChain.select (this :: next) number
      = if OrConstraint.satisfiedSpec this.ruleHeader number = true then this.keyword
        else RuleChain.select next number := by
  rw [RuleChain.select, orConstraint_isFulfilled_eq]
  by_cases h : this.ruleHeader = []
  · simp [h, OrConstraint.satisfiedSpec]
  · simp [h]

theorem ruleChain_select_nil (number : Int) :
    RuleChain.select [] number = PLURAL_KEYWORD_OTHER := rfl

theorem andConstraint_copy_eq (l : List AndConstraint) : AndConstraint.copy l = l := by
  induction l with
  | nil => rfl
  | cons c l ih => simp [AndConstraint.copy, ih]

theorem orConstraint_copy_eq (l : List OrConstraint) : OrConstraint.copy l = l := by
  induction l with
  | nil => rfl
  | cons c l ih => simp [OrConstraint.copy, ih, andConstraint_copy_eq]

theorem ruleChain_copy_eq (l : List RuleChain) : RuleChain.copy l = l := by
  induction l with
  | nil => rfl
  | cons c l ih => simp [RuleChain.copy, ih, orConstraint_copy_eq]

theorem select_setRepeatLimit (l : List RuleChain) (number : Int) :
    RuleChain.select (RuleChain.setRepeatLimit l) number = RuleChain.select l number := by
  induction l with
  | nil => rfl
  | cons c l ih => simp [RuleChain.setRepeatLimit, RuleChain.select, ih]

theorem setRepeatLimit_eq_nil (l : List RuleChain) :
    RuleChain.setRepeatLimit l = [] ↔ l = [] := by
  cases l <;> simp [RuleChain.setRepeatLimit]

/-! ## The constructor never fails -/

theorem localeLoop_void (this : PluralRules) (localeData : UnicodeString)
    (rules : List RuleChain) (fuel curIndex : Nat) (h1 h2 : Hashtable) :
    (PluralRules.localeLoop this localeData rules fuel curIndex h1).void
      = (PluralRules.localeLoop this localeData rules fuel curIndex h2).void := by
  induction fuel generalizing curIndex h1 h2 with
  | zero =>
    unfold PluralRules.localeLoop
    split <;> rfl
  | succ fuel ih =>
    unfold PluralRules.localeLoop
    split
    · exact ih _ _ _
    · rfl

theorem getRuleDataLoop_status (this : PluralRules) (rows : List UnicodeString)
    (h1 h2 : Hashtable) :
    (PluralRules.getRuleDataLoop this rows h1).2
      = (PluralRules.getRuleDataLoop this rows h2).2 := by
  induction rows generalizing h1 h2 with
  | nil => rfl
  | cons row rows ih =>
    unfold PluralRules.getRuleDataLoop
    cases hs : row.indexOf? '/' with
    | none => rfl
    | some slashIndex =>
      simp only []
      cases hp : PluralRules.parseDescription (UnicodeString.sub row 0 slashIndex) with
      | ok rules =>
        simp only []
        have hv := localeLoop_void this (row.drop (slashIndex + 1)) rules
          (row.drop (slashIndex + 1)).length 0 h1 h2
        cases hl1 : PluralRules.localeLoop this (row.drop (slashIndex + 1)) rules
            (row.drop (slashIndex + 1)).length 0 h1 <;>
          cases hl2 : PluralRules.localeLoop this (row.drop (slashIndex + 1)) rules
            (row.drop (slashIndex + 1)).length 0 h2 <;>
          rw [hl1, hl2] at hv <;> simp [Outcome.void] at hv ⊢
        · exact ih _ _
        · exact hv
      | failure status => rfl
      | nullDeref => rfl
      | outOfFuel => rfl

theorem getRuleData_status (hash : Hashtable) :
    (PluralRules.getRuleData { mRules := [] } hash).2 = Outcome.ok () := by
  have h : (PluralRules.getRuleData { mRules := [] } []).2 = Outcome.ok () := by decide!
  rw [← h]
  exact getRuleDataLoop_status _ _ _ _

theorem createRules_of_parse (hash : Hashtable) (description : UnicodeString)
    (rules : List RuleChain)
    (h : PluralRules.parseDescription description = Outcome.ok rules) :
    (PluralRules.createRules hash description).2
      = Outcome.ok { mRules := RuleChain.setRepeatLimit rules } := by
  have hs := getRuleData_status hash
  simp only [PluralRules.createRules, PluralRules.new]
  generalize PluralRules.getRuleData { mRules := [] } hash = r at hs
  obtain ⟨r1, r2⟩ := r
  simp only at hs
  subst hs
  simp [h, PluralRules.addRules, ruleChain_copy_eq]

/-! ## Equality by sampling -/

theorem keywordLoop_eq_all (isKeyword : UnicodeString → Bool) (l : List UnicodeString)
    (sameList : Bool) :
    PluralRules.keywordLoop isKeyword l sameList = (sameList && l.all isKeyword) := by
  induction l generalizing sameList with
  | nil => simp [PluralRules.keywordLoop]
  | cons kw l ih =>
    cases sameList
    · simp [PluralRules.keywordLoop]
    · cases hk : isKeyword kw <;> simp [PluralRules.keywordLoop, ih, hk]

theorem compareLoop_eq_true (a b : PluralRules) (l : List Nat) :
    PluralRules.compareLoop a b l = true
      ↔ ∀ i ∈ l, a.select ((i : Nat) : Int) = b.select ((i : Nat) : Int) := by
  induction l with
  | nil => simp [PluralRules.compareLoop]
  | cons i l ih =>
    by_cases h : a.select ((i : Nat) : Int) = b.select ((i : Nat) : Int)
    · simp [PluralRules.compareLoop, h, ih]
    · simp [PluralRules.compareLoop, h]

theorem compareSamples_eq_true (a b : PluralRules) :
    PluralRules.compareSamples a b = true
      ↔ a.getRepeatLimit = b.getRepeatLimit ∧
        ∀ i : Int, 0 ≤ i → i < a.getRepeatLimit → a.select i = b.select i := by
  unfold PluralRules.compareSamples
  by_cases hl : a.getRepeatLimit = b.getRepeatLimit
  · simp only [hl, ne_eq, not_true_eq_false, if_false, true_and, compareLoop_eq_true,
      List.mem_range]
    constructor
    · intro h i hi0 hi
      have := h i.toNat (by omega)
      rwa [Int.toNat_of_nonneg hi0] at this
    · intro h i hi
      exact h (i : Int) (Int.ofNat_nonneg i) (by omega)
  · simp [hl]

theorem collect_eq (l : List RuleChain) (names : List UnicodeString) (flag : Bool) :
    PluralKeywordEnumeration.collect l names flag
      = (names ++ l.map (fun e => e.keyword),
          flag && l.all (fun e => decide (e.keyword ≠ PLURAL_KEYWORD_OTHER))) := by
  induction l generalizing names flag with
  | nil => simp [PluralKeywordEnumeration.collect]
  | cons e l ih =>
    by_cases h : e.keyword = PLURAL_KEYWORD_OTHER
    · simp [PluralKeywordEnumeration.collect, ih, h]
    · simp [PluralKeywordEnumeration.collect, ih, h]

theorem ruleChain_isKeyword_eq_true (l : List RuleChain) (kw : UnicodeString) :
    RuleChain.isKeyword l kw = true ↔ kw ∈ l.map (fun e => e.keyword) := by
  induction l with
  | nil => simp [RuleChain.isKeyword]
  | cons e l ih =>
    by_cases h : e.keyword = kw
    · simp [RuleChain.isKeyword, h]
    · have h2 : ¬ kw = e.keyword := fun h3 => h h3.symm
      simp [RuleChain.isKeyword, h, h2, ih]

theorem mem_getKeywords_iff (R : PluralRules) (kw : UnicodeString) :
    kw ∈ R.getKeywords ↔ R.isKeyword kw = true := by
  unfold PluralRules.getKeywords PluralKeywordEnumeration.new PluralRules.isKeyword
  rw [collect_eq]
  simp only [List.nil_append, Bool.true_and, List.all_eq_true, decide_eq_true_eq, ne_eq]
  by_cases hall : ∀ x ∈ R.mRules, ¬ x.keyword = PLURAL_KEYWORD_OTHER
  · rw [if_pos hall]
    simp only [List.mem_append, List.mem_singleton]
    by_cases hk : kw = PLURAL_KEYWORD_OTHER
    · simp [hk]
    · by_cases hnil : R.mRules = []
      · simp [hnil, hk]
      · simp [hnil, hk, ruleChain_isKeyword_eq_true]
  · rw [if_neg hall]
    simp only [not_forall, not_not] at hall
    obtain ⟨e, he, hke⟩ := hall
    by_cases hk : kw = PLURAL_KEYWORD_OTHER
    · subst hk
      simp only [if_true, iff_true, List.mem_map]
      exact ⟨e, he, hke⟩
    · have hnil : R.mRules ≠ [] := by
        intro h0
        rw [h0] at he
        exact absurd he (List.not_mem_nil e)
      simp [hnil, hk, ruleChain_isKeyword_eq_true]

theorem operatorEq_of_count_eq (a b : PluralRules)
    (hcount : a.getKeywords.length = b.getKeywords.length) :
    PluralRules.operatorEq a b false
      = ((a.getKeywords.all b.isKeyword && b.getKeywords.all a.isKeyword)
          && PluralRules.compareSamples a b) := by
  unfold PluralRules.operatorEq
  simp only [Bool.false_eq_true, if_false, hcount, ne_eq, not_true_eq_false,
    keywordLoop_eq_all, Bool.true_and]
  cases h : (a.getKeywords.all b.isKeyword && b.getKeywords.all a.isKeyword) <;> simp

theorem operatorEq_imp_compareSamples (a b : PluralRules)
    (h : PluralRules.operatorEq a b false = true) : PluralRules.compareSamples a b = true := by
  unfold PluralRules.operatorEq at h
  simp only [Bool.false_eq_true, if_false] at h
  split at h
  · exact h
  · split at h
    · exact absurd h (by simp)
    · exact h

/-! ## The repeat limit -/

theorem updateRepeatLimit_eq_max (c : AndConstraint) (m : Int) :
    c.updateRepeatLimit m = max c.bound m := by
  unfold AndConstraint.updateRepeatLimit AndConstraint.bound uprv_max
  split
  · split <;> omega
  · split
    · split <;> omega
    · split <;> omega

theorem limitAndLoop_ge (l : List AndConstraint) (x : Int) :
    x ≤ RuleChain.limitAndLoop l x ∧ ∀ c ∈ l, c.bound ≤ RuleChain.limitAndLoop l x := by
  induction l generalizing x with
  | nil => simp [RuleChain.limitAndLoop]
  | cons c l ih =>
    have h := ih (c.updateRepeatLimit x)
    rw [updateRepeatLimit_eq_max] at h
    simp only [RuleChain.limitAndLoop, List.mem_cons, forall_eq_or_imp,
      updateRepeatLimit_eq_max]
    refine ⟨by omega, by omega, h.2⟩

theorem limitOrLoop_ge (l : List OrConstraint) (x : Int) :
    x ≤ RuleChain.limitOrLoop l x ∧
      ∀ o ∈ l, ∀ c ∈ o.childNode, c.bound ≤ RuleChain.limitOrLoop l x := by
  induction l generalizing x with
  | nil => simp [RuleChain.limitOrLoop]
  | cons o l ih =>
    have h := ih (RuleChain.limitAndLoop o.childNode x)
    have h1 := limitAndLoop_ge o.childNode x
    simp only [RuleChain.limitOrLoop, List.mem_cons, forall_eq_or_imp]
    refine ⟨by omega, fun c hc => ?_, h.2⟩
    have := h1.2 c hc
    omega

theorem getRepeatLimit_setRepeatLimit_cons (this : RuleChain) (next : List RuleChain) :
    RuleChain.getRepeatLimit (RuleChain.setRepeatLimit (this :: next))
      = RuleChain.limitOrLoop this.ruleHeader
          (RuleChain.getRepeatLimit (RuleChain.setRepeatLimit next)) := by
  cases h : RuleChain.setRepeatLimit next <;>
    simp [RuleChain.setRepeatLimit, RuleChain.getRepeatLimit, h]

theorem setRepeatLimit_bounds (l : List RuleChain) :
    0 ≤ RuleChain.getRepeatLimit (RuleChain.setRepeatLimit l) ∧
      ∀ node ∈ RuleChain.setRepeatLimit l, ∀ o ∈ node.ruleHeader, ∀ c ∈ o.childNode,
        c.bound ≤ RuleChain.getRepeatLimit (RuleChain.setRepeatLimit l) := by
  induction l with
  | nil => simp [RuleChain.setRepeatLimit, RuleChain.getRepeatLimit]
  | cons this next ih =>
    rw [getRepeatLimit_setRepeatLimit_cons]
    have h := limitOrLoop_ge this.ruleHeader
      (RuleChain.getRepeatLimit (RuleChain.setRepeatLimit next))
    refine ⟨by omega, ?_⟩
    intro node hnode o ho c hc
    simp only [RuleChain.setRepeatLimit, List.mem_cons] at hnode
    rcases hnode with hnode | hnode
    · subst hnode
      exact h.2 o ho c hc
    · have := ih.2 node hnode o ho c hc
      omega

theorem isFulfilled_above_bound (c : AndConstraint) (L m : Int) (hop : c.op = RuleOp.NONE)
    (hb : c.bound ≤ L) (hm : L < m) : c.isFulfilled m = c.isFulfilled (L + 1) := by
  unfold AndConstraint.bound at hb
  unfold AndConstraint.isFulfilled
  simp only [hop, reduceCtorEq, if_false] at hb ⊢
  by_cases h1 : c.rangeHigh = -1
  · simp only [h1, if_true] at hb ⊢
    by_cases h2 : c.rangeLow = -1
    · simp [h2]
    · have e1 : ¬ m = c.rangeLow := by omega
      have e2 : ¬ L + 1 = c.rangeLow := by omega
      simp [h2, e1, e2]
  · simp only [h1, if_false] at hb ⊢
    have e1 : ¬ (c.rangeLow ≤ m ∧ m ≤ c.rangeHigh) := by omega
    have e2 : ¬ (c.rangeLow ≤ L + 1 ∧ L + 1 ≤ c.rangeHigh) := by omega
    simp [e1, e2]

theorem all_isFulfilled_congr (l : List AndConstraint) (m k : Int)
    (h : ∀ c ∈ l, c.isFulfilled m = c.isFulfilled k) :
    l.all (fun c => c.isFulfilled m) = l.all (fun c => c.isFulfilled k) := by
  induction l with
  | nil => rfl
  | cons c l ih =>
    simp only [List.all_cons, h c (List.mem_cons_self _ _),
      ih (fun c hc => h c (List.mem_cons_of_mem _ hc))]

theorem satisfiedSpec_congr (l : List OrConstraint) (m k : Int)
    (h : ∀ o ∈ l, ∀ c ∈ o.childNode, c.isFulfilled m = c.isFulfilled k) :
    OrConstraint.satisfiedSpec l m = OrConstraint.satisfiedSpec l k := by
  induction l with
  | nil => rfl
  | cons o l ih =>
    have ih2 := ih (fun o ho => h o (List.mem_cons_of_mem _ ho))
    unfold OrConstraint.satisfiedSpec at ih2 ⊢
    simp only [List.any_cons, all_isFulfilled_congr o.childNode m k
      (h o (List.mem_cons_self _ _)), ih2]

theorem select_above_limit (l : List RuleChain) (L m : Int)
    (h : ∀ node ∈ l, ∀ o ∈ node.ruleHeader, ∀ c ∈ o.childNode,
      c.op = RuleOp.NONE ∧ c.bound ≤ L)
    (hm : L < m) : RuleChain.select l m = RuleChain.select l (L + 1) := by
  induction l with
  | nil => rfl
  | cons this next ih =>
    have hs : OrConstraint.satisfiedSpec this.ruleHeader m
        = OrConstraint.satisfiedSpec this.ruleHeader (L + 1) := by
      apply satisfiedSpec_congr
      intro o ho c hc
      have hc2 := h this (List.mem_cons_self _ _) o ho c hc
      exact isFulfilled_above_bound c L m hc2.1 hc2.2 hm
    rw [ruleChain_select_cons, ruleChain_select_cons, hs,
      ih (fun node hn => h node (List.mem_cons_of_mem _ hn))]

theorem createRules_inv (hash : Hashtable) (description : UnicodeString) (R : PluralRules)
    (hR : (PluralRules.createRules hash description).2 = Outcome.ok R) :
    ∃ rules, PluralRules.parseDescription description = Outcome.ok rules ∧
      R = { mRules := RuleChain.setRepeatLimit rules } := by
  cases hp : PluralRules.parseDescription description with
  | ok rules =>
    rw [createRules_of_parse hash description rules hp] at hR
    exact ⟨rules, rfl, (Outcome.ok.inj hR).symm⟩
  | failure status =>
    exfalso
    have hs := getRuleData_status hash
    simp only [PluralRules.createRules, PluralRules.new] at hR
    generalize PluralRules.getRuleData { mRules := [] } hash = r at hs hR
    obtain ⟨r1, r2⟩ := r
    simp only at hs
    subst hs
    simp [hp] at hR
  | nullDeref =>
    exfalso
    have hs := getRuleData_status hash
    simp only [PluralRules.createRules, PluralRules.new] at hR
    generalize PluralRules.getRuleData { mRules := [] } hash = r at hs hR
    obtain ⟨r1, r2⟩ := r
    simp only at hs
    subst hs
    simp [hp] at hR
  | outOfFuel =>
    exfalso
    have hs := getRuleData_status hash
    simp only [PluralRules.createRules, PluralRules.new] at hR
    generalize PluralRules.getRuleData { mRules := [] } hash = r at hs hR
    obtain ⟨r1, r2⟩ := r
    simp only at hs
    subst hs
    simp [hp] at hR

/-! ## Lexing and parsing, token by token -/

theorem sub_append_shift (pre suf : List Char) (idx n : Nat) :
    UnicodeString.sub (pre ++ suf) (idx + pre.length) n = UnicodeString.sub suf idx n := by
  unfold UnicodeString.sub
  rw [show idx + pre.length = pre.length + idx by omega, ← List.drop_drop]
  simp

theorem flushToken_shift (pre suf : List Char) (cur idx : Nat) (prev : tokenType)
    (st : UErrorCode) :
    RuleParser.flushToken (pre ++ suf) (cur + pre.length) (idx + pre.length) prev st
      = (RuleParser.flushToken suf cur idx prev st).shift pre.length := by
  simp [RuleParser.flushToken, TokenResult.shift, sub_append_shift,
    Nat.add_sub_add_right]

theorem dotSeen_shift (pre suf : List Char) (cur idx : Nat) (prev : tokenType)
    (tok : UnicodeString) (st : UErrorCode) :
    RuleParser.dotSeen (pre ++ suf) (cur + pre.length) (idx + pre.length) prev tok st
      = (RuleParser.dotSeen suf cur idx prev tok st).shift pre.length := by
  unfold RuleParser.dotSeen
  by_cases h : idx = cur
  · subst h
    simp [TokenResult.shift]
    omega
  · have h2 : ¬ idx + pre.length = cur + pre.length := by omega
    simp [h, h2, flushToken_shift]

theorem getNextTokenLoop_shift (pre suf rest : List Char) (cur idx : Nat) (prev : tokenType)
    (tok : UnicodeString) (ty : tokenType) (st : UErrorCode) :
    RuleParser.getNextTokenLoop (pre ++ suf) rest (cur + pre.length) (idx + pre.length)
        prev tok ty st
      = (RuleParser.getNextTokenLoop suf rest cur idx prev tok ty st).shift pre.length := by
  induction rest generalizing cur idx prev tok ty st with
  | nil =>
    unfold RuleParser.getNextTokenLoop
    split
    · simp [TokenResult.shift, sub_append_shift, Nat.add_sub_add_right]
      omega
    · simp [TokenResult.shift]
      omega
  | cons ch rest ih =>
    have e1 : cur + pre.length + 1 = (cur + 1) + pre.length := by omega
    have e2 : idx + pre.length + 1 = (idx + 1) + pre.length := by omega
    have hne : (idx + pre.length ≠ cur + pre.length) ↔ idx ≠ cur := by omega
    unfold RuleParser.getNextTokenLoop
    rcases hr : RuleParser.inRange ch ty with ⟨b, t⟩
    cases b
    · simp [TokenResult.shift]
    · cases t <;>
        simp only [Bool.true_eq_false, if_false, hne, flushToken_shift, dotSeen_shift, e1, e2,
          ih] <;>
        (try split) <;> simp [TokenResult.shift]

theorem getNextToken_shift (data : List Char) (idx : Nat) (hidx : idx ≤ data.length)
    (tok : UnicodeString) (ty : tokenType) (st : UErrorCode) :
    RuleParser.getNextToken data idx tok ty st
      = (RuleParser.getNextToken (data.drop idx) 0 tok ty st).shift idx := by
  have h := getNextTokenLoop_shift (data.take idx) (data.drop idx) (data.drop idx) 0 0
    tokenType.none tok ty st
  rw [List.take_append_drop, List.length_take, Nat.min_eq_left hidx, Nat.zero_add] at h
  unfold RuleParser.getNextToken
  rw [h, List.drop_zero]

theorem getNextTokenLoop_advance (data rest : List Char) (cur idx : Nat) (prev : tokenType)
    (tok : UnicodeString) (ty : tokenType) (st : UErrorCode) (r : TokenResult)
    (hidx : idx ≤ cur) (hlen : cur + rest.length = data.length)
    (hr : RuleParser.getNextTokenLoop data rest cur idx prev tok ty st = r)
    (hok : r.status = UErrorCode.U_ZERO_ERROR) :
    cur ≤ r.ruleIndex ∧ (rest ≠ [] → idx < r.ruleIndex) := by
  induction rest generalizing cur idx prev tok ty st with
  | nil =>
    unfold RuleParser.getNextTokenLoop at hr
    simp only [List.length_nil, Nat.add_zero] at hlen
    split at hr <;> subst hr <;> simp <;> omega
  | cons ch rest ih =>
    simp only [List.length_cons] at hlen
    have hflush : ∀ p s, (RuleParser.flushToken data cur idx p s).ruleIndex = cur := by
      intro p s; rfl
    have hdot : ∀ p, idx < (RuleParser.dotSeen data cur idx p tok st).ruleIndex ∧
        cur ≤ (RuleParser.dotSeen data cur idx p tok st).ruleIndex := by
      intro p
      unfold RuleParser.dotSeen
      split
      · rw [hflush]; omega
      · simp only; omega
    unfold RuleParser.getNextTokenLoop at hr
    rcases hi : RuleParser.inRange ch ty with ⟨b, t⟩
    rw [hi] at hr
    cases b
    · simp only [if_true] at hr
      subst hr
      simp at hok
    · simp only [Bool.true_eq_false, if_false] at hr
      cases t <;> simp only at hr
      all_goals first
        | (subst hr; simp at hok; done)
        | (split at hr
           · first
             | (subst hr; rw [hflush]; simp; omega)
             | (have hih := (ih _ _ _ _ _ _ (by omega) (by omega) hr).1; simp; omega)
             | (have hd := hdot tokenType.tDot; subst hr; simp; omega)
           · first
             | (subst hr; simp; omega)
             | (have hih := (ih _ _ _ _ _ _ (by omega) (by omega) hr).1; simp; omega)
             | (have hd := hdot prev; subst hr; simp; omega))

theorem getNextToken_advance (data : List Char) (idx : Nat) (hidx : idx < data.length)
    (tok : UnicodeString) (ty : tokenType) (st : UErrorCode)
    (hok : (RuleParser.getNextToken data idx tok ty st).status = UErrorCode.U_ZERO_ERROR) :
    idx < (RuleParser.getNextToken data idx tok ty st).ruleIndex := by
  have h := getNextTokenLoop_advance data (data.drop idx) idx idx tokenType.none tok ty st _
    (le_refl idx) (by rw [List.length_drop]; omega) rfl hok
  apply h.2
  intro h0
  have := congrArg List.length h0
  rw [List.length_drop] at this
  simp at this
  omega

theorem shift_fields (k : Nat) (r : TokenResult) :
    (r.shift k).ruleIndex = r.ruleIndex + k ∧ (r.shift k).token = r.token ∧
      (r.shift k).type = r.type ∧ (r.shift k).status = r.status :=
  ⟨rfl, rfl, rfl, rfl⟩

theorem parseLoop_drop (n : Nat) :
    ∀ (data : List Char) (idx fuel1 fuel2 : Nat) (tok : UnicodeString) (ty prev : tokenType)
      (st : ParseState),
      data.length - idx ≤ n → data.length - idx ≤ fuel1 → data.length - idx ≤ fuel2 →
      PluralRules.parseLoop data fuel1 idx tok ty prev st
        = PluralRules.parseLoop (data.drop idx) fuel2 0 tok ty prev st := by
  induction n with
  | zero =>
    intro data idx fuel1 fuel2 tok ty prev st hn _ _
    have h1 : ¬ idx < data.length := by omega
    have h2 : ¬ 0 < (data.drop idx).length := by rw [List.length_drop]; omega
    unfold PluralRules.parseLoop
    rw [if_neg h1, if_neg h2]
  | succ n ih =>
    intro data idx fuel1 fuel2 tok ty prev st hn hf1 hf2
    by_cases h1 : idx < data.length
    · have h2 : 0 < (data.drop idx).length := by rw [List.length_drop]; omega
      obtain ⟨f1, rfl⟩ : ∃ f1, fuel1 = f1 + 1 := ⟨fuel1 - 1, by omega⟩
      obtain ⟨f2, rfl⟩ : ∃ f2, fuel2 = f2 + 1 := ⟨fuel2 - 1, by omega⟩
      have hs := getNextToken_shift data idx (le_of_lt h1) tok ty UErrorCode.U_ZERO_ERROR
      have hadv := getNextToken_advance (data.drop idx) 0 h2 tok ty UErrorCode.U_ZERO_ERROR
      unfold PluralRules.parseLoop
      rw [if_pos h1, if_pos h2]
      simp only [hs, shift_fields]
      generalize RuleParser.getNextToken (data.drop idx) 0 tok ty UErrorCode.U_ZERO_ERROR = r
        at hadv
      by_cases hst : r.status = UErrorCode.U_ZERO_ERROR
      · have hr := hadv hst
        split
        · rfl
        · split
          · rfl
          · split
            · rfl
            · rename_i st1 _
              have hlen : (data.drop idx).length = data.length - idx := List.length_drop _ _
              rw [ih data (r.ruleIndex + idx) f1 (data.length - (r.ruleIndex + idx)) _ _ _ _
                  (by omega) (by omega) (le_refl _),
                ih (data.drop idx) r.ruleIndex f2 (data.length - (r.ruleIndex + idx)) _ _ _ _
                  (by omega) (by omega) (by omega),
                List.drop_drop, Nat.add_comm idx r.ruleIndex]
      · have hf : U_FAILURE r.status = true := by simp [U_FAILURE, hst]
        simp [hf]
    · have h2 : ¬ 0 < (data.drop idx).length := by rw [List.length_drop]; omega
      unfold PluralRules.parseLoop
      rw [if_neg h1, if_neg h2]

theorem parseFrom_nil (tok : UnicodeString) (ty prev : tokenType) (st : ParseState) :
    PluralRules.parseFrom [] tok ty prev st = Outcome.ok st.rules := by
  simp [PluralRules.parseFrom, PluralRules.parseLoop]

theorem parseFrom_step (data : List Char) (hne : data ≠ []) (tok : UnicodeString)
    (ty prev : tokenType) (st : ParseState) :
    PluralRules.parseFrom data tok ty prev st
      = (if U_FAILURE (RuleParser.getNextToken data 0 tok ty UErrorCode.U_ZERO_ERROR).status
          then Outcome.failure
            (RuleParser.getNextToken data 0 tok ty UErrorCode.U_ZERO_ERROR).status
        else if U_FAILURE (RuleParser.checkSyntax prev
            (RuleParser.getNextToken data 0 tok ty UErrorCode.U_ZERO_ERROR).type
            (RuleParser.getNextToken data 0 tok ty UErrorCode.U_ZERO_ERROR).status)
          then Outcome.failure (RuleParser.checkSyntax prev
            (RuleParser.getNextToken data 0 tok ty UErrorCode.U_ZERO_ERROR).type
            (RuleParser.getNextToken data 0 tok ty UErrorCode.U_ZERO_ERROR).status)
        else
          match PluralRules.parseToken st
            (RuleParser.getNextToken data 0 tok ty UErrorCode.U_ZERO_ERROR).type
            (RuleParser.getNextToken data 0 tok ty UErrorCode.U_ZERO_ERROR).token with
          | none => Outcome.nullDeref
          | some st1 =>
            PluralRules.parseFrom
              (data.drop (RuleParser.getNextToken data 0 tok ty UErrorCode.U_ZERO_ERROR).ruleIndex)
              (RuleParser.getNextToken data 0 tok ty UErrorCode.U_ZERO_ERROR).token
              (RuleParser.getNextToken data 0 tok ty UErrorCode.U_ZERO_ERROR).type
              (RuleParser.getNextToken data 0 tok ty UErrorCode.U_ZERO_ERROR).type st1) := by
  have hpos : 0 < data.length := List.length_pos.2 hne
  obtain ⟨k, hk⟩ : ∃ k, data.length = k + 1 := ⟨data.length - 1, by omega⟩
  have hadv := getNextToken_advance data 0 hpos tok ty UErrorCode.U_ZERO_ERROR
  unfold PluralRules.parseFrom
  rw [hk]
  rw [PluralRules.parseLoop]
  rw [if_pos (by omega)]
  simp only []
  generalize RuleParser.getNextToken data 0 tok ty UErrorCode.U_ZERO_ERROR = r at hadv
  by_cases hst : r.status = UErrorCode.U_ZERO_ERROR
  · have hr := hadv hst
    split
    · rfl
    · split
      · rfl
      · split
        · rfl
        · rw [parseLoop_drop (data.length) data r.ruleIndex k (data.drop r.ruleIndex).length
            _ _ _ _ (by omega) (by omega) (by rw [List.length_drop])]
  · have hf : U_FAILURE r.status = true := by simp [U_FAILURE, hst]
    simp [hf]

theorem inRange_digit (c : Char) (ty : tokenType) (h : isDigitChar c = true) :
    RuleParser.inRange c ty = (true, tokenType.tNumber) := by
  have hA : 'A'.toNat = 65 := rfl
  have hZ : 'Z'.toNat = 90 := rfl
  have ha : 'a'.toNat = 97 := rfl
  have hz : 'z'.toNat = 122 := rfl
  have h0 : '0'.toNat = 48 := rfl
  have h9 : '9'.toNat = 57 := rfl
  simp only [isDigitChar, decide_eq_true_eq, h0, h9] at h
  unfold RuleParser.inRange
  rw [hA, hZ, ha, hz, h0, h9, if_neg (by omega), if_neg (by omega), if_pos h]

theorem inRange_letter (c : Char) (ty : tokenType) (h : isLetterChar c = true) :
    RuleParser.inRange c ty = (true, tokenType.tLetter) := by
  have hA : 'A'.toNat = 65 := rfl
  have hZ : 'Z'.toNat = 90 := rfl
  have ha : 'a'.toNat = 97 := rfl
  have hz : 'z'.toNat = 122 := rfl
  simp only [isLetterChar, decide_eq_true_eq, ha, hz] at h
  unfold RuleParser.inRange
  rw [hA, hZ, ha, hz, if_neg (by omega), if_pos h]

theorem inRange_space (ty : tokenType) :
    RuleParser.inRange ' ' ty = (true, tokenType.tSpace) := rfl

theorem inRange_colon (ty : tokenType) :
    RuleParser.inRange ':' ty = (true, tokenType.tColon) := rfl

theorem inRange_dot (ty : tokenType) :
    RuleParser.inRange '.' ty = (true, tokenType.tDot) := rfl

theorem loop_digits (data ds rest : List Char) (hds : ∀ c ∈ ds, isDigitChar c = true)
    (hne : ds ≠ []) (cur idx : Nat) (prev : tokenType)
    (hprev : prev = tokenType.none ∨ prev = tokenType.tNumber)
    (tok : UnicodeString) (ty : tokenType) (st : UErrorCode) :
    RuleParser.getNextTokenLoop data (ds ++ rest) cur idx prev tok ty st
      = RuleParser.getNextTokenLoop data rest (cur + ds.length) idx tokenType.tNumber tok
          tokenType.tNumber st := by
  induction ds generalizing cur prev ty with
  | nil => exact absurd rfl hne
  | cons c ds ih =>
    have hc := inRange_digit c ty (hds c (List.mem_cons_self _ _))
    have hp : tokenType.tNumber = prev ∨ prev = tokenType.none := by
      rcases hprev with h | h <;> simp [h]
    rw [List.cons_append, RuleParser.getNextTokenLoop]
    simp only [hc, Bool.true_eq_false, if_false, hp, if_true]
    by_cases hds0 : ds = []
    · subst hds0
      simp
    · rw [ih (fun c hc => hds c (List.mem_cons_of_mem _ hc)) hds0 _ _ (Or.inr rfl)]
      simp only [List.length_cons]
      rw [show cur + 1 + ds.length = cur + (ds.length + 1) by omega]

theorem loop_letters (data w rest : List Char) (hw : ∀ c ∈ w, isLetterChar c = true)
    (hne : w ≠ []) (cur idx : Nat) (prev : tokenType)
    (hprev : prev = tokenType.none ∨ prev = tokenType.tLetter)
    (tok : UnicodeString) (ty : tokenType) (st : UErrorCode) :
    RuleParser.getNextTokenLoop data (w ++ rest) cur idx prev tok ty st
      = RuleParser.getNextTokenLoop data rest (cur + w.length) idx tokenType.tLetter tok
          tokenType.tLetter st := by
  induction w generalizing cur prev ty with
  | nil => exact absurd rfl hne
  | cons c w ih =>
    have hc := inRange_letter c ty (hw c (List.mem_cons_self _ _))
    have hp : tokenType.tLetter = prev ∨ prev = tokenType.none := by
      rcases hprev with h | h <;> simp [h]
    rw [List.cons_append, RuleParser.getNextTokenLoop]
    simp only [hc, Bool.true_eq_false, if_false, hp, if_true]
    by_cases hw0 : w = []
    · subst hw0
      simp
    · rw [ih (fun c hc => hw c (List.mem_cons_of_mem _ hc)) hw0 _ _ (Or.inr rfl)]
      simp only [List.length_cons]
      rw [show cur + 1 + w.length = cur + (w.length + 1) by omega]

theorem sub_append_left (w rest : List Char) :
    UnicodeString.sub (w ++ rest) 0 w.length = w := by
  simp [UnicodeString.sub]

theorem getNextToken_number (ds post : List Char) (c : Char)
    (hds : ∀ x ∈ ds, isDigitChar x = true) (hne : ds ≠ []) (hc : c = ' ' ∨ c = '.')
    (tok : UnicodeString) (ty : tokenType) (st : UErrorCode) :
    RuleParser.getNextToken (ds ++ c :: post) 0 tok ty st
      = { ruleIndex := ds.length, token := ds, type := tokenType.tNumber, status := st } := by
  have hlen : ¬ 0 = ds.length := by
    intro h
    exact hne (List.length_eq_zero.1 h.symm)
  unfold RuleParser.getNextToken
  rw [List.drop_zero, loop_digits _ ds _ hds hne 0 0 _ (Or.inl rfl), Nat.zero_add,
    RuleParser.getNextTokenLoop]
  rcases hc with rfl | rfl
  · simp [inRange_space, hlen, RuleParser.flushToken, sub_append_left,
      RuleParser.getKeyType]
  · simp [inRange_dot, hlen, RuleParser.dotSeen, RuleParser.flushToken, sub_append_left,
      RuleParser.getKeyType]

theorem getNextToken_number_end (ds : List Char)
    (hds : ∀ x ∈ ds, isDigitChar x = true) (hne : ds ≠ [])
    (tok : UnicodeString) (ty : tokenType) (st : UErrorCode) :
    RuleParser.getNextToken ds 0 tok ty st
      = { ruleIndex := ds.length, token := ds, type := tokenType.tNumber, status := st } := by
  have h := loop_digits ds ds [] hds hne 0 0 _ (Or.inl rfl) tok ty st
  rw [List.append_nil] at h
  unfold RuleParser.getNextToken
  rw [List.drop_zero, h, Nat.zero_add, RuleParser.getNextTokenLoop]
  have hs := sub_append_left ds []
  rw [List.append_nil] at hs
  simp [hs, RuleParser.getKeyType]

theorem getNextToken_word (w post : List Char) (c : Char)
    (hw : ∀ x ∈ w, isLetterChar x = true) (hne : w ≠ []) (hc : c = ' ' ∨ c = ':')
    (tok : UnicodeString) (ty : tokenType) (st : UErrorCode) :
    RuleParser.getNextToken (w ++ c :: post) 0 tok ty st
      = { ruleIndex := w.length, token := w,
          type := (RuleParser.getKeyType w tokenType.tLetter st).1,
          status := (RuleParser.getKeyType w tokenType.tLetter st).2 } := by
  have hlen : ¬ 0 = w.length := by
    intro h
    exact hne (List.length_eq_zero.1 h.symm)
  unfold RuleParser.getNextToken
  rw [List.drop_zero, loop_letters _ w _ hw hne 0 0 _ (Or.inl rfl), Nat.zero_add,
    RuleParser.getNextTokenLoop]
  rcases hc with rfl | rfl
  · simp [inRange_space, hlen, RuleParser.flushToken, sub_append_left]
  · simp [inRange_colon, hlen, RuleParser.flushToken, sub_append_left]

theorem getNextToken_colon (post : List Char) (tok : UnicodeString) (ty : tokenType)
    (st : UErrorCode) :
    RuleParser.getNextToken (':' :: post) 0 tok ty st
      = { ruleIndex := 1, token := tok, type := tokenType.tColon, status := st } := by
  unfold RuleParser.getNextToken
  rw [List.drop_zero, RuleParser.getNextTokenLoop]
  simp [inRange_colon]

theorem getNextToken_dot (post : List Char) (tok : UnicodeString) (ty : tokenType)
    (st : UErrorCode) :
    RuleParser.getNextToken ('.' :: post) 0 tok ty st
      = { ruleIndex := 2, token := tok, type := tokenType.tDot, status := st } := by
  unfold RuleParser.getNextToken
  rw [List.drop_zero, RuleParser.getNextTokenLoop]
  simp [inRange_dot, RuleParser.dotSeen]

theorem getNextToken_space (data : List Char) (tok : UnicodeString) (ty : tokenType)
    (st : UErrorCode) :
    RuleParser.getNextToken (' ' :: data) 0 tok ty st
      = (RuleParser.getNextToken data 0 tok tokenType.tSpace st).shift 1 := by
  have h := getNextTokenLoop_shift [' '] data data 0 0 tokenType.none tok tokenType.tSpace st
  simp only [List.singleton_append, List.length_singleton, Nat.zero_add] at h
  unfold RuleParser.getNextToken
  rw [List.drop_zero, List.drop_zero, RuleParser.getNextTokenLoop]
  simp [inRange_space, h]

theorem parseFrom_space (data : List Char) (hne : data ≠ []) (tok : UnicodeString)
    (ty prev : tokenType) (st : ParseState) :
    PluralRules.parseFrom (' ' :: data) tok ty prev st
      = PluralRules.parseFrom data tok tokenType.tSpace prev st := by
  rw [parseFrom_step (' ' :: data) (by simp), parseFrom_step data hne, getNextToken_space]
  simp only [shift_fields, List.drop_succ_cons]

theorem toLower_eq_self (s : List Char) (h : ∀ c ∈ s, isDigitChar c = true ∨ isLetterChar c = true ∨
    c = ' ' ∨ c = ':' ∨ c = '.' ∨ c = ';') : UnicodeString.toLower s = s := by
  unfold UnicodeString.toLower
  induction s with
  | nil => rfl
  | cons c s ih =>
    have hc : Char.toLower c = c := by
      have hA : 'A'.toNat = 65 := rfl
      have hZ : 'Z'.toNat = 90 := rfl
      have hcase := h c (List.mem_cons_self _ _)
      have hnot : ¬ (c.toNat ≥ 65 ∧ c.toNat ≤ 90) := by
        intro hcon
        have h1 : 65 ≤ c.toNat := hcon.1
        have h2 : c.toNat ≤ 90 := hcon.2
        rcases hcase with h | h | h | h | h | h
        · simp only [isDigitChar, decide_eq_true_eq] at h
          have h9 : '9'.toNat = 57 := rfl
          omega
        · simp only [isLetterChar, decide_eq_true_eq] at h
          have ha : 'a'.toNat = 97 := rfl
          omega
        all_goals (subst h; revert h1; decide)
      simp [Char.toLower, hnot]
    rw [List.map_cons, hc, ih (fun c hc => h c (List.mem_cons_of_mem _ hc))]

theorem atoi_eq_foldl (ds : List Char) (acc : Nat) (hds : ∀ c ∈ ds, isDigitChar c = true) :
    atoi ds acc = ds.foldl (fun acc c => 10 * acc + (c.toNat - '0'.toNat)) acc := by
  induction ds generalizing acc with
  | nil => rfl
  | cons c ds ih =>
    have hc := hds c (List.mem_cons_self _ _)
    simp only [isDigitChar, decide_eq_true_eq] at hc
    rw [atoi, if_pos hc, List.foldl_cons, ih _ (fun c hc => hds c (List.mem_cons_of_mem _ hc))]

theorem toInt32_of_le (n : Nat) (h : n ≤ 2147483647) : toInt32 n = (n : Int) := by
  unfold toInt32
  omega

theorem getNumberValue_eq (ds : List Char) (h : int32Number ds = true) :
    PluralRules.getNumberValue ds = (decimalValue ds : Int) := by
  simp only [int32Number, Bool.and_eq_true, Bool.not_eq_true', List.isEmpty_eq_false,
    List.all_eq_true, decide_eq_true_eq] at h
  have hv : atoi ds 0 = decimalValue ds := by
    unfold decimalValue
    exact atoi_eq_foldl ds 0 h.1.1.2
  unfold PluralRules.getNumberValue
  rw [hv, toInt32_of_le _ h.2]

theorem parseDescription_eq_parseFrom (data : List Char) :
    PluralRules.parseDescription data
      = PluralRules.parseFrom (UnicodeString.toLower data) [] tokenType.none tokenType.none
          { rules := [RuleChain.new], ruleChain := none, curAndConstraint := none } := rfl

theorem int32Number_digits (s : UnicodeString) (h : int32Number s = true) :
    (∀ c ∈ s, isDigitChar c = true) ∧ s ≠ [] := by
  simp only [int32Number, Bool.and_eq_true, Bool.not_eq_true', List.isEmpty_eq_false,
    List.all_eq_true, decide_eq_true_eq] at h
  exact ⟨h.1.1.2, h.1.1.1⟩

theorem getNumberValue_ne (tok : List Char) (h : int32Number tok = true) :
    ¬ PluralRules.getNumberValue tok = -1 := by
  rw [getNumberValue_eq tok h]
  omega

theorem getKeyType_one : RuleParser.getKeyType ['o', 'n', 'e'] tokenType.tLetter
    UErrorCode.U_ZERO_ERROR = (tokenType.tKeyword, UErrorCode.U_ZERO_ERROR) := by decide

theorem getKeyType_few : RuleParser.getKeyType ['f', 'e', 'w'] tokenType.tLetter
    UErrorCode.U_ZERO_ERROR = (tokenType.tKeyword, UErrorCode.U_ZERO_ERROR) := by decide

theorem getKeyType_n : RuleParser.getKeyType ['n'] tokenType.tLetter
    UErrorCode.U_ZERO_ERROR = (tokenType.tVariableN, UErrorCode.U_ZERO_ERROR) := by decide

theorem getKeyType_mod : RuleParser.getKeyType ['m', 'o', 'd'] tokenType.tLetter
    UErrorCode.U_ZERO_ERROR = (tokenType.tMod, UErrorCode.U_ZERO_ERROR) := by decide

theorem getKeyType_is : RuleParser.getKeyType ['i', 's'] tokenType.tLetter
    UErrorCode.U_ZERO_ERROR = (tokenType.tIs, UErrorCode.U_ZERO_ERROR) := by decide

theorem getKeyType_in : RuleParser.getKeyType ['i', 'n'] tokenType.tLetter
    UErrorCode.U_ZERO_ERROR = (tokenType.tIn, UErrorCode.U_ZERO_ERROR) := by decide

theorem getKeyType_not : RuleParser.getKeyType ['n', 'o', 't'] tokenType.tLetter
    UErrorCode.U_ZERO_ERROR = (tokenType.tNot, UErrorCode.U_ZERO_ERROR) := by decide

theorem getKeyType_and : RuleParser.getKeyType ['a', 'n', 'd'] tokenType.tLetter
    UErrorCode.U_ZERO_ERROR = (tokenType.tAnd, UErrorCode.U_ZERO_ERROR) := by decide

theorem parseFrom_word (w post : List Char) (c : Char)
    (hw : ∀ x ∈ w, isLetterChar x = true) (hne : w ≠ []) (hc : c = ' ' ∨ c = ':')
    (ty1 : tokenType)
    (hk : RuleParser.getKeyType w tokenType.tLetter UErrorCode.U_ZERO_ERROR
      = (ty1, UErrorCode.U_ZERO_ERROR))
    (tok : UnicodeString) (ty prev : tokenType) (st : ParseState) :
    PluralRules.parseFrom (w ++ c :: post) tok ty prev st
      = PluralRules.consume prev st w ty1 (c :: post) := by
  rw [parseFrom_step _ (by simp), getNextToken_word w post c hw hne hc, hk]
  simp [PluralRules.consume, U_FAILURE]

theorem parseFrom_word1 (a c : Char) (post : List Char) (ha : isLetterChar a = true)
    (hc : c = ' ' ∨ c = ':') (ty1 : tokenType)
    (hk : RuleParser.getKeyType [a] tokenType.tLetter UErrorCode.U_ZERO_ERROR
      = (ty1, UErrorCode.U_ZERO_ERROR))
    (tok : UnicodeString) (ty prev : tokenType) (st : ParseState) :
    PluralRules.parseFrom (a :: c :: post) tok ty prev st
      = PluralRules.consume prev st [a] ty1 (c :: post) :=
  parseFrom_word [a] post c (by simpa using ha) (by simp) hc ty1 hk tok ty prev st

theorem parseFrom_word2 (a b c : Char) (post : List Char) (ha : isLetterChar a = true)
    (hb : isLetterChar b = true) (hc : c = ' ' ∨ c = ':') (ty1 : tokenType)
    (hk : RuleParser.getKeyType [a, b] tokenType.tLetter UErrorCode.U_ZERO_ERROR
      = (ty1, UErrorCode.U_ZERO_ERROR))
    (tok : UnicodeString) (ty prev : tokenType) (st : ParseState) :
    PluralRules.parseFrom (a :: b :: c :: post) tok ty prev st
      = PluralRules.consume prev st [a, b] ty1 (c :: post) :=
  parseFrom_word [a, b] post c (by simp [ha, hb]) (by simp) hc ty1 hk tok ty prev st

theorem parseFrom_word3 (a b d c : Char) (post : List Char) (ha : isLetterChar a = true)
    (hb : isLetterChar b = true) (hd : isLetterChar d = true) (hc : c = ' ' ∨ c = ':')
    (ty1 : tokenType)
    (hk : RuleParser.getKeyType [a, b, d] tokenType.tLetter UErrorCode.U_ZERO_ERROR
      = (ty1, UErrorCode.U_ZERO_ERROR))
    (tok : UnicodeString) (ty prev : tokenType) (st : ParseState) :
    PluralRules.parseFrom (a :: b :: d :: c :: post) tok ty prev st
      = PluralRules.consume prev st [a, b, d] ty1 (c :: post) :=
  parseFrom_word [a, b, d] post c (by simp [ha, hb, hd]) (by simp) hc ty1 hk tok ty prev st

theorem parseFrom_number (ds post : List Char) (c : Char)
    (hds : ∀ x ∈ ds, isDigitChar x = true) (hne : ds ≠ []) (hc : c = ' ' ∨ c = '.')
    (tok : UnicodeString) (ty prev : tokenType) (st : ParseState) :
    PluralRules.parseFrom (ds ++ c :: post) tok ty prev st
      = PluralRules.consume prev st ds tokenType.tNumber (c :: post) := by
  rw [parseFrom_step _ (by simp), getNextToken_number ds post c hds hne hc]
  simp [PluralRules.consume, U_FAILURE]

theorem parseFrom_number_end (ds : List Char)
    (hds : ∀ x ∈ ds, isDigitChar x = true) (hne : ds ≠ [])
    (tok : UnicodeString) (ty prev : tokenType) (st : ParseState) :
    PluralRules.parseFrom ds tok ty prev st
      = PluralRules.consume prev st ds tokenType.tNumber [] := by
  rw [parseFrom_step _ hne, getNextToken_number_end ds hds hne]
  simp [PluralRules.consume, U_FAILURE]

theorem parseFrom_colon (post : List Char)
    (tok : UnicodeString) (ty prev : tokenType) (st : ParseState) :
    PluralRules.parseFrom (':' :: post) tok ty prev st
      = PluralRules.consume prev st tok tokenType.tColon post := by
  rw [parseFrom_step _ (by simp), getNextToken_colon]
  simp [PluralRules.consume, U_FAILURE]

theorem parseFrom_dot (x : Char) (post : List Char)
    (tok : UnicodeString) (ty prev : tokenType) (st : ParseState) :
    PluralRules.parseFrom ('.' :: x :: post) tok ty prev st
      = PluralRules.consume prev st tok tokenType.tDot post := by
  rw [parseFrom_step _ (by simp), getNextToken_dot]
  simp [PluralRules.consume, U_FAILURE]

theorem toLower_digits (ds : List Char) (hds : ∀ c ∈ ds, isDigitChar c = true) :
    List.map Char.toLower ds = ds :=
  toLower_eq_self ds (fun c hc => Or.inl (hds c hc))

theorem isFulfilled_eq_evaluateSpec_of_nonneg (c : AndConstraint) (number : Int)
    (hn : 0 ≤ number) (hop : c.op = RuleOp.MOD → 0 < c.opNum) :
    c.isFulfilled number = c.evaluateSpec number := by
  have hmod : c.op = RuleOp.MOD → Int.tmod number c.opNum = number % c.opNum := by
    intro h
    exact Int.tmod_eq_emod hn (le_of_lt (hop h))
  unfold AndConstraint.isFulfilled AndConstraint.evaluateSpec
  by_cases h : c.op = RuleOp.MOD
  · simp only [h, if_true, hmod h]
    by_cases h1 : c.rangeHigh = -1 <;> by_cases h2 : c.rangeLow = -1 <;>
      cases hnot : c.notIn <;> simp [h1, h2]
  · simp only [h, if_false]
    by_cases h1 : c.rangeHigh = -1 <;> by_cases h2 : c.rangeLow = -1 <;>
      cases hnot : c.notIn <;> simp [h1, h2]

theorem isFulfilled_mod_is (a b n : Int) (neg : Bool) (ha : 0 < a) (hb : 0 ≤ b) (hn : 0 ≤ n) :
    AndConstraint.isFulfilled ⟨RuleOp.MOD, a, b, -1, neg⟩ n
      = (if neg then !decide (n % a = b) else decide (n % a = b)) := by
  rw [isFulfilled_eq_evaluateSpec_of_nonneg _ _ hn (fun _ => ha)]
  have hb1 : ¬ b = -1 := by omega
  cases neg <;> simp [AndConstraint.evaluateSpec, hb1]

theorem isFulfilled_mod_in (a b c n : Int) (neg : Bool) (ha : 0 < a) (hc : 0 ≤ c)
    (hn : 0 ≤ n) :
    AndConstraint.isFulfilled ⟨RuleOp.MOD, a, b, c, neg⟩ n
      = (if neg then !decide (b ≤ n % a ∧ n % a ≤ c) else decide (b ≤ n % a ∧ n % a ≤ c)) := by
  rw [isFulfilled_eq_evaluateSpec_of_nonneg _ _ hn (fun _ => ha)]
  have hc1 : ¬ c = -1 := by omega
  cases neg <;> simp [AndConstraint.evaluateSpec, hc1]

theorem select_instanceOf_single (node : RuleChain) (n : Int) :
    PluralRules.select { mRules := RuleChain.setRepeatLimit [node] } n
      = if OrConstraint.satisfiedSpec node.ruleHeader n = true then node.keyword
        else PLURAL_KEYWORD_OTHER := by
  have hne : RuleChain.setRepeatLimit [node] ≠ [] := by simp [RuleChain.setRepeatLimit]
  simp only [PluralRules.select, hne, if_false, select_setRepeatLimit, ruleChain_select_cons,
    ruleChain_select_nil]

theorem parse_modulo_is (A B C D : List Char) (hA : int32Number A = true)
    (hB : int32Number B = true) (hC : int32Number C = true) (hD : int32Number D = true) :
    PluralRules.parseDescription ("one: n mod ".toList ++ A ++ " is ".toList ++ B ++
        " and n mod ".toList ++ C ++ " is not ".toList ++ D)
      = Outcome.ok [⟨['o', 'n', 'e'],
          [⟨[⟨RuleOp.MOD, decimalValue A, decimalValue B, -1, false⟩,
             ⟨RuleOp.MOD, decimalValue C, decimalValue D, -1, true⟩]⟩], 0⟩] := by
  have nA := getNumberValue_ne A hA
  have nB := getNumberValue_ne B hB
  have nC := getNumberValue_ne C hC
  have nD := getNumberValue_ne D hD
  obtain ⟨hAd, hAn⟩ := int32Number_digits A hA
  obtain ⟨hBd, hBn⟩ := int32Number_digits B hB
  obtain ⟨hCd, hCn⟩ := int32Number_digits C hC
  obtain ⟨hDd, hDn⟩ := int32Number_digits D hD
  have l1 : List.map Char.toLower "one: n mod ".toList = "one: n mod ".toList := by decide
  have l2 : List.map Char.toLower " is ".toList = " is ".toList := by decide
  have l3 : List.map Char.toLower " and n mod ".toList = " and n mod ".toList := by decide
  have l4 : List.map Char.toLower " is not ".toList = " is not ".toList := by decide
  have t1 : "one: n mod ".toList
      = ['o', 'n', 'e', ':', ' ', 'n', ' ', 'm', 'o', 'd', ' '] := by decide
  have t2 : " is ".toList = [' ', 'i', 's', ' '] := by decide
  have t3 : " and n mod ".toList
      = [' ', 'a', 'n', 'd', ' ', 'n', ' ', 'm', 'o', 'd', ' '] := by decide
  have t4 : " is not ".toList = [' ', 'i', 's', ' ', 'n', 'o', 't', ' '] := by decide
  rw [parseDescription_eq_parseFrom]
  simp only [UnicodeString.toLower, List.map_append, l1, l2, l3, l4, toLower_digits A hAd,
    toLower_digits B hBd, toLower_digits C hCd, toLower_digits D hDd]
  simp only [t1, t2, t3, t4, List.append_assoc, List.cons_append, List.nil_append]
  rw [parseFrom_word3 'o' 'n' 'e' ':' _ (by decide) (by decide) (by decide) (Or.inr rfl) _ getKeyType_one]
  simp only [PluralRules.consume, U_FAILURE, RuleParser.checkSyntax, PluralRules.parseToken,
    ParseState.assign, modifyAt, modifyLast, RuleChain.onLastOr, PluralRules.storeNumber,
    AndConstraint.new, RuleChain.new, nA, nB, nC, nD, ne_eq, not_true_eq_false,
    not_false_eq_true, decide_True, decide_False, decide_not, Bool.not_true, Bool.not_false,
    Bool.false_eq_true, if_false, if_true, reduceCtorEq, and_self, and_true, true_and,
    and_false, false_and, List.length_nil, List.cons_append, List.nil_append]
  rw [parseFrom_colon]
  simp only [PluralRules.consume, U_FAILURE, RuleParser.checkSyntax, PluralRules.parseToken,
    ParseState.assign, modifyAt, modifyLast, RuleChain.onLastOr, PluralRules.storeNumber,
    AndConstraint.new, RuleChain.new, nA, nB, nC, nD, ne_eq, not_true_eq_false,
    not_false_eq_true, decide_True, decide_False, decide_not, Bool.not_true, Bool.not_false,
    Bool.false_eq_true, if_false, if_true, reduceCtorEq, and_self, and_true, true_and,
    and_false, false_and, List.length_nil, List.cons_append, List.nil_append]
  rw [parseFrom_space _ (by simp [*])]
  rw [parseFrom_word1 'n' ' ' _ (by decide) (Or.inl rfl) _ getKeyType_n]
  simp only [PluralRules.consume, U_FAILURE, RuleParser.checkSyntax, PluralRules.parseToken,
    ParseState.assign, modifyAt, modifyLast, RuleChain.onLastOr, PluralRules.storeNumber,
    AndConstraint.new, RuleChain.new, nA, nB, nC, nD, ne_eq, not_true_eq_false,
    not_false_eq_true, decide_True, decide_False, decide_not, Bool.not_true, Bool.not_false,
    Bool.false_eq_true, if_false, if_true, reduceCtorEq, and_self, and_true, true_and,
    and_false, false_and, List.length_nil, List.cons_append, List.nil_append]
  rw [parseFrom_space _ (by simp [*])]
  rw [parseFrom_word3 'm' 'o' 'd' ' ' _ (by decide) (by decide) (by decide) (Or.inl rfl) _ getKeyType_mod]
  simp only [PluralRules.consume, U_FAILURE, RuleParser.checkSyntax, PluralRules.parseToken,
    ParseState.assign, modifyAt, modifyLast, RuleChain.onLastOr, PluralRules.storeNumber,
    AndConstraint.new, RuleChain.new, nA, nB, nC, nD, ne_eq, not_true_eq_false,
    not_false_eq_true, decide_True, decide_False, decide_not, Bool.not_true, Bool.not_false,
    Bool.false_eq_true, if_false, if_true, reduceCtorEq, and_self, and_true, true_and,
    and_false, false_and, List.length_nil, List.cons_append, List.nil_append]
  rw [parseFrom_space _ (by simp [*])]
  rw [parseFrom_number A _ ' ' hAd hAn (Or.inl rfl)]
  simp only [PluralRules.consume, U_FAILURE, RuleParser.checkSyntax, PluralRules.parseToken,
    ParseState.assign, modifyAt, modifyLast, RuleChain.onLastOr, PluralRules.storeNumber,
    AndConstraint.new, RuleChain.new, nA, nB, nC, nD, ne_eq, not_true_eq_false,
    not_false_eq_true, decide_True, decide_False, decide_not, Bool.not_true, Bool.not_false,
    Bool.false_eq_true, if_false, if_true, reduceCtorEq, and_self, and_true, true_and,
    and_false, false_and, List.length_nil, List.cons_append, List.nil_append]
  rw [parseFrom_space _ (by simp [*])]
  rw [parseFrom_word2 'i' 's' ' ' _ (by decide) (by decide) (Or.inl rfl) _ getKeyType_is]
  simp only [PluralRules.consume, U_FAILURE, RuleParser.checkSyntax, PluralRules.parseToken,
    ParseState.assign, modifyAt, modifyLast, RuleChain.onLastOr, PluralRules.storeNumber,
    AndConstraint.new, RuleChain.new, nA, nB, nC, nD, ne_eq, not_true_eq_false,
    not_false_eq_true, decide_True, decide_False, decide_not, Bool.not_true, Bool.not_false,
    Bool.false_eq_true, if_false, if_true, reduceCtorEq, and_self, and_true, true_and,
    and_false, false_and, List.length_nil, List.cons_append, List.nil_append]
  rw [parseFrom_space _ (by simp [*])]
  rw [parseFrom_number B _ ' ' hBd hBn (Or.inl rfl)]
  simp only [PluralRules.consume, U_FAILURE, RuleParser.checkSyntax, PluralRules.parseToken,
    ParseState.assign, modifyAt, modifyLast, RuleChain.onLastOr, PluralRules.storeNumber,
    AndConstraint.new, RuleChain.new, nA, nB, nC, nD, ne_eq, not_true_eq_false,
    not_false_eq_true, decide_True, decide_False, decide_not, Bool.not_true, Bool.not_false,
    Bool.false_eq_true, if_false, if_true, reduceCtorEq, and_self, and_true, true_and,
    and_false, false_and, List.length_nil, List.cons_append, List.nil_append]
  rw [parseFrom_space _ (by simp [*])]
  rw [parseFrom_word3 'a' 'n' 'd' ' ' _ (by decide) (by decide) (by decide) (Or.inl rfl) _ getKeyType_and]
  simp only [PluralRules.consume, U_FAILURE, RuleParser.checkSyntax, PluralRules.parseToken,
    ParseState.assign, modifyAt, modifyLast, RuleChain.onLastOr, PluralRules.storeNumber,
    AndConstraint.new, RuleChain.new, nA, nB, nC, nD, ne_eq, not_true_eq_false,
    not_false_eq_true, decide_True, decide_False, decide_not, Bool.not_true, Bool.not_false,
    Bool.false_eq_true, if_false, if_true, reduceCtorEq, and_self, and_true, true_and,
    and_false, false_and, List.length_nil, List.cons_append, List.nil_append]
  rw [parseFrom_space _ (by simp [*])]
  rw [parseFrom_word1 'n' ' ' _ (by decide) (Or.inl rfl) _ getKeyType_n]
  simp only [PluralRules.consume, U_FAILURE, RuleParser.checkSyntax, PluralRules.parseToken,
    ParseState.assign, modifyAt, modifyLast, RuleChain.onLastOr, PluralRules.storeNumber,
    AndConstraint.new, RuleChain.new, nA, nB, nC, nD, ne_eq, not_true_eq_false,
    not_false_eq_true, decide_True, decide_False, decide_not, Bool.not_true, Bool.not_false,
    Bool.false_eq_true, if_false, if_true, reduceCtorEq, and_self, and_true, true_and,
    and_false, false_and, List.length_nil, List.cons_append, List.nil_append]
  rw [parseFrom_space _ (by simp [*])]
  rw [parseFrom_word3 'm' 'o' 'd' ' ' _ (by decide) (by decide) (by decide) (Or.inl rfl) _ getKeyType_mod]
  simp only [PluralRules.consume, U_FAILURE, RuleParser.checkSyntax, PluralRules.parseToken,
    ParseState.assign, modifyAt, modifyLast, RuleChain.onLastOr, PluralRules.storeNumber,
    AndConstraint.new, RuleChain.new, nA, nB, nC, nD, ne_eq, not_true_eq_false,
    not_false_eq_true, decide_True, decide_False, decide_not, Bool.not_true, Bool.not_false,
    Bool.false_eq_true, if_false, if_true, reduceCtorEq, and_self, and_true, true_and,
    and_false, false_and, List.length_nil, List.cons_append, List.nil_append]
  rw [parseFrom_space _ (by simp [*])]
  rw [parseFrom_number C _ ' ' hCd hCn (Or.inl rfl)]
  simp only [PluralRules.consume, U_FAILURE, RuleParser.checkSyntax, PluralRules.parseToken,
    ParseState.assign, modifyAt, modifyLast, RuleChain.onLastOr, PluralRules.storeNumber,
    AndConstraint.new, RuleChain.new, nA, nB, nC, nD, ne_eq, not_true_eq_false,
    not_false_eq_true, decide_True, decide_False, decide_not, Bool.not_true, Bool.not_false,
    Bool.false_eq_true, if_false, if_true, reduceCtorEq, and_self, and_true, true_and,
    and_false, false_and, List.length_nil, List.cons_append, List.nil_append]
  rw [parseFrom_space _ (by simp [*])]
  rw [parseFrom_word2 'i' 's' ' ' _ (by decide) (by decide) (Or.inl rfl) _ getKeyType_is]
  simp only [PluralRules.consume, U_FAILURE, RuleParser.checkSyntax, PluralRules.parseToken,
    ParseState.assign, modifyAt, modifyLast, RuleChain.onLastOr, PluralRules.storeNumber,
    AndConstraint.new, RuleChain.new, nA, nB, nC, nD, ne_eq, not_true_eq_false,
    not_false_eq_true, decide_True, decide_False, decide_not, Bool.not_true, Bool.not_false,
    Bool.false_eq_true, if_false, if_true, reduceCtorEq, and_self, and_true, true_and,
    and_false, false_and, List.length_nil, List.cons_append, List.nil_append]
  rw [parseFrom_space _ (by simp [*])]
  rw [parseFrom_word3 'n' 'o' 't' ' ' _ (by decide) (by decide) (by decide) (Or.inl rfl) _ getKeyType_not]
  simp only [PluralRules.consume, U_FAILURE, RuleParser.checkSyntax, PluralRules.parseToken,
    ParseState.assign, modifyAt, modifyLast, RuleChain.onLastOr, PluralRules.storeNumber,
    AndConstraint.new, RuleChain.new, nA, nB, nC, nD, ne_eq, not_true_eq_false,
    not_false_eq_true, decide_True, decide_False, decide_not, Bool.not_true, Bool.not_false,
    Bool.false_eq_true, if_false, if_true, reduceCtorEq, and_self, and_true, true_and,
    and_false, false_and, List.length_nil, List.cons_append, List.nil_append]
  rw [parseFrom_space _ (by simp [*])]
  rw [parseFrom_number_end D hDd hDn]
  simp only [PluralRules.consume, U_FAILURE, RuleParser.checkSyntax, PluralRules.parseToken,
    ParseState.assign, modifyAt, modifyLast, RuleChain.onLastOr, PluralRules.storeNumber,
    AndConstraint.new, RuleChain.new, nA, nB, nC, nD, ne_eq, not_true_eq_false,
    not_false_eq_true, decide_True, decide_False, decide_not, Bool.not_true, Bool.not_false,
    Bool.false_eq_true, if_false, if_true, reduceCtorEq, and_self, and_true, true_and,
    and_false, false_and, List.length_nil, List.cons_append, List.nil_append]
  rw [parseFrom_nil]
  simp only [getNumberValue_eq A hA, getNumberValue_eq B hB, getNumberValue_eq C hC,
    getNumberValue_eq D hD]

theorem parse_modulo_in (A B C D E F : List Char) (hA : int32Number A = true)
    (hB : int32Number B = true) (hC : int32Number C = true) (hD : int32Number D = true)
    (hE : int32Number E = true) (hF : int32Number F = true) :
    PluralRules.parseDescription ("few: n mod ".toList ++ A ++ " in ".toList ++ B ++
        "..".toList ++ C ++ " and n mod ".toList ++ D ++ " not in ".toList ++ E ++
        "..".toList ++ F)
      = Outcome.ok [⟨['f', 'e', 'w'],
          [⟨[⟨RuleOp.MOD, decimalValue A, decimalValue B, decimalValue C, false⟩,
             ⟨RuleOp.MOD, decimalValue D, decimalValue E, decimalValue F, true⟩]⟩], 0⟩] := by
  have nA := getNumberValue_ne A hA
  have nB := getNumberValue_ne B hB
  have nC := getNumberValue_ne C hC
  have nD := getNumberValue_ne D hD
  have nE := getNumberValue_ne E hE
  have nF := getNumberValue_ne F hF
  obtain ⟨hAd, hAn⟩ := int32Number_digits A hA
  obtain ⟨hBd, hBn⟩ := int32Number_digits B hB
  obtain ⟨hCd, hCn⟩ := int32Number_digits C hC
  obtain ⟨hDd, hDn⟩ := int32Number_digits D hD
  obtain ⟨hEd, hEn⟩ := int32Number_digits E hE
  obtain ⟨hFd, hFn⟩ := int32Number_digits F hF
  have l1 : List.map Char.toLower "few: n mod ".toList = "few: n mod ".toList := by decide
  have l2 : List.map Char.toLower " in ".toList = " in ".toList := by decide
  have l3 : List.map Char.toLower "..".toList = "..".toList := by decide
  have l4 : List.map Char.toLower " and n mod ".toList = " and n mod ".toList := by decide
  have l5 : List.map Char.toLower " not in ".toList = " not in ".toList := by decide
  have t1 : "few: n mod ".toList
      = ['f', 'e', 'w', ':', ' ', 'n', ' ', 'm', 'o', 'd', ' '] := by decide
  have t2 : " in ".toList = [' ', 'i', 'n', ' '] := by decide
  have t3 : "..".toList = ['.', '.'] := by decide
  have t4 : " and n mod ".toList
      = [' ', 'a', 'n', 'd', ' ', 'n', ' ', 'm', 'o', 'd', ' '] := by decide
  have t5 : " not in ".toList = [' ', 'n', 'o', 't', ' ', 'i', 'n', ' '] := by decide
  rw [parseDescription_eq_parseFrom]
  simp only [UnicodeString.toLower, List.map_append, l1, l2, l3, l4, l5, toLower_digits A hAd,
    toLower_digits B hBd, toLower_digits C hCd, toLower_digits D hDd, toLower_digits E hEd,
    toLower_digits F hFd]
  simp only [t1, t2, t3, t4, t5, List.append_assoc, List.cons_append, List.nil_append]
  rw [parseFrom_word3 'f' 'e' 'w' ':' _ (by decide) (by decide) (by decide) (Or.inr rfl) _ getKeyType_few]
  simp only [PluralRules.consume, U_FAILURE, RuleParser.checkSyntax, PluralRules.parseToken,
    ParseState.assign, modifyAt, modifyLast, RuleChain.onLastOr, PluralRules.storeNumber,
    AndConstraint.new, RuleChain.new, nA, nB, nC, nD, nE, nF, ne_eq, not_true_eq_false,
    not_false_eq_true, decide_True, decide_False, decide_not, Bool.not_true, Bool.not_false,
    Bool.false_eq_true, if_false, if_true, reduceCtorEq, and_self, and_true, true_and,
    and_false, false_and, List.length_nil, List.cons_append, List.nil_append]
  rw [parseFrom_colon]
  simp only [PluralRules.consume, U_FAILURE, RuleParser.checkSyntax, PluralRules.parseToken,
    ParseState.assign, modifyAt, modifyLast, RuleChain.onLastOr, PluralRules.storeNumber,
    AndConstraint.new, RuleChain.new, nA, nB, nC, nD, nE, nF, ne_eq, not_true_eq_false,
    not_false_eq_true, decide_True, decide_False, decide_not, Bool.not_true, Bool.not_false,
    Bool.false_eq_true, if_false, if_true, reduceCtorEq, and_self, and_true, true_and,
    and_false, false_and, List.length_nil, List.cons_append, List.nil_append]
  rw [parseFrom_space _ (by simp [*])]
  rw [parseFrom_word1 'n' ' ' _ (by decide) (Or.inl rfl) _ getKeyType_n]
  simp only [PluralRules.consume, U_FAILURE, RuleParser.checkSyntax, PluralRules.parseToken,
    ParseState.assign, modifyAt, modifyLast, RuleChain.onLastOr, PluralRules.storeNumber,
    AndConstraint.new, RuleChain.new, nA, nB, nC, nD, nE, nF, ne_eq, not_true_eq_false,
    not_false_eq_true, decide_True, decide_False, decide_not, Bool.not_true, Bool.not_false,
    Bool.false_eq_true, if_false, if_true, reduceCtorEq, and_self, and_true, true_and,
    and_false, false_and, List.length_nil, List.cons_append, List.nil_append]
  rw [parseFrom_space _ (by simp [*])]
  rw [parseFrom_word3 'm' 'o' 'd' ' ' _ (by decide) (by decide) (by decide) (Or.inl rfl) _ getKeyType_mod]
  simp only [PluralRules.consume, U_FAILURE, RuleParser.checkSyntax, PluralRules.parseToken,
    ParseState.assign, modifyAt, modifyLast, RuleChain.onLastOr, PluralRules.storeNumber,
    AndConstraint.new, RuleChain.new, nA, nB, nC, nD, nE, nF, ne_eq, not_true_eq_false,
    not_false_eq_true, decide_True, decide_False, decide_not, Bool.not_true, Bool.not_false,
    Bool.false_eq_true, if_false, if_true, reduceCtorEq, and_self, and_true, true_and,
    and_false, false_and, List.length_nil, List.cons_append, List.nil_append]
  rw [parseFrom_space _ (by simp [*])]
  rw [parseFrom_number A _ ' ' hAd hAn (Or.inl rfl)]
  simp only [PluralRules.consume, U_FAILURE, RuleParser.checkSyntax, PluralRules.parseToken,
    ParseState.assign, modifyAt, modifyLast, RuleChain.onLastOr, PluralRules.storeNumber,
    AndConstraint.new, RuleChain.new, nA, nB, nC, nD, nE, nF, ne_eq, not_true_eq_false,
    not_false_eq_true, decide_True, decide_False, decide_not, Bool.not_true, Bool.not_false,
    Bool.false_eq_true, if_false, if_true, reduceCtorEq, and_self, and_true, true_and,
    and_false, false_and, List.length_nil, List.cons_append, List.nil_append]
  rw [parseFrom_space _ (by simp [*])]
  rw [parseFrom_word2 'i' 'n' ' ' _ (by decide) (by decide) (Or.inl rfl) _ getKeyType_in]
  simp only [PluralRules.consume, U_FAILURE, RuleParser.checkSyntax, PluralRules.parseToken,
    ParseState.assign, modifyAt, modifyLast, RuleChain.onLastOr, PluralRules.storeNumber,
    AndConstraint.new, RuleChain.new, nA, nB, nC, nD, nE, nF, ne_eq, not_true_eq_false,
    not_false_eq_true, decide_True, decide_False, decide_not, Bool.not_true, Bool.not_false,
    Bool.false_eq_true, if_false, if_true, reduceCtorEq, and_self, and_true, true_and,
    and_false, false_and, List.length_nil, List.cons_append, List.nil_append]
  rw [parseFrom_space _ (by simp [*])]
  rw [parseFrom_number B _ '.' hBd hBn (Or.inr rfl)]
  simp only [PluralRules.consume, U_FAILURE, RuleParser.checkSyntax, PluralRules.parseToken,
    ParseState.assign, modifyAt, modifyLast, RuleChain.onLastOr, PluralRules.storeNumber,
    AndConstraint.new, RuleChain.new, nA, nB, nC, nD, nE, nF, ne_eq, not_true_eq_false,
    not_false_eq_true, decide_True, decide_False, decide_not, Bool.not_true, Bool.not_false,
    Bool.false_eq_true, if_false, if_true, reduceCtorEq, and_self, and_true, true_and,
    and_false, false_and, List.length_nil, List.cons_append, List.nil_append]
  rw [parseFrom_dot]
  simp only [PluralRules.consume, U_FAILURE, RuleParser.checkSyntax, PluralRules.parseToken,
    ParseState.assign, modifyAt, modifyLast, RuleChain.onLastOr, PluralRules.storeNumber,
    AndConstraint.new, RuleChain.new, nA, nB, nC, nD, nE, nF, ne_eq, not_true_eq_false,
    not_false_eq_true, decide_True, decide_False, decide_not, Bool.not_true, Bool.not_false,
    Bool.false_eq_true, if_false, if_true, reduceCtorEq, and_self, and_true, true_and,
    and_false, false_and, List.length_nil, List.cons_append, List.nil_append]
  rw [parseFrom_number C _ ' ' hCd hCn (Or.inl rfl)]
  simp only [PluralRules.consume, U_FAILURE, RuleParser.checkSyntax, PluralRules.parseToken,
    ParseState.assign, modifyAt, modifyLast, RuleChain.onLastOr, PluralRules.storeNumber,
    AndConstraint.new, RuleChain.new, nA, nB, nC, nD, nE, nF, ne_eq, not_true_eq_false,
    not_false_eq_true, decide_True, decide_False, decide_not, Bool.not_true, Bool.not_false,
    Bool.false_eq_true, if_false, if_true, reduceCtorEq, and_self, and_true, true_and,
    and_false, false_and, List.length_nil, List.cons_append, List.nil_append]
  rw [parseFrom_space _ (by simp [*])]
  rw [parseFrom_word3 'a' 'n' 'd' ' ' _ (by decide) (by decide) (by decide) (Or.inl rfl) _ getKeyType_and]
  simp only [PluralRules.consume, U_FAILURE, RuleParser.checkSyntax, PluralRules.parseToken,
    ParseState.assign, modifyAt, modifyLast, RuleChain.onLastOr, PluralRules.storeNumber,
    AndConstraint.new, RuleChain.new, nA, nB, nC, nD, nE, nF, ne_eq, not_true_eq_false,
    not_false_eq_true, decide_True, decide_False, decide_not, Bool.not_true, Bool.not_false,
    Bool.false_eq_true, if_false, if_true, reduceCtorEq, and_self, and_true, true_and,
    and_false, false_and, List.length_nil, List.cons_append, List.nil_append]
  rw [parseFrom_space _ (by simp [*])]
  rw [parseFrom_word1 'n' ' ' _ (by decide) (Or.inl rfl) _ getKeyType_n]
  simp only [PluralRules.consume, U_FAILURE, RuleParser.checkSyntax, PluralRules.parseToken,
    ParseState.assign, modifyAt, modifyLast, RuleChain.onLastOr, PluralRules.storeNumber,
    AndConstraint.new, RuleChain.new, nA, nB, nC, nD, nE, nF, ne_eq, not_true_eq_false,
    not_false_eq_true, decide_True, decide_False, decide_not, Bool.not_true, Bool.not_false,
    Bool.false_eq_true, if_false, if_true, reduceCtorEq, and_self, and_true, true_and,
    and_false, false_and, List.length_nil, List.cons_append, List.nil_append]
  rw [parseFrom_space _ (by simp [*])]
  rw [parseFrom_word3 'm' 'o' 'd' ' ' _ (by decide) (by decide) (by decide) (Or.inl rfl) _ getKeyType_mod]
  simp only [PluralRules.consume, U_FAILURE, RuleParser.checkSyntax, PluralRules.parseToken,
    ParseState.assign, modifyAt, modifyLast, RuleChain.onLastOr, PluralRules.storeNumber,
    AndConstraint.new, RuleChain.new, nA, nB, nC, nD, nE, nF, ne_eq, not_true_eq_false,
    not_false_eq_true, decide_True, decide_False, decide_not, Bool.not_true, Bool.not_false,
    Bool.false_eq_true, if_false, if_true, reduceCtorEq, and_self, and_true, true_and,
    and_false, false_and, List.length_nil, List.cons_append, List.nil_append]
  rw [parseFrom_space _ (by simp [*])]
  rw [parseFrom_number D _ ' ' hDd hDn (Or.inl rfl)]
  simp only [PluralRules.consume, U_FAILURE, RuleParser.checkSyntax, PluralRules.parseToken,
    ParseState.assign, modifyAt, modifyLast, RuleChain.onLastOr, PluralRules.storeNumber,
    AndConstraint.new, RuleChain.new, nA, nB, nC, nD, nE, nF, ne_eq, not_true_eq_false,
    not_false_eq_true, decide_True, decide_False, decide_not, Bool.not_true, Bool.not_false,
    Bool.false_eq_true, if_false, if_true, reduceCtorEq, and_self, and_true, true_and,
    and_false, false_and, List.length_nil, List.cons_append, List.nil_append]
  rw [parseFrom_space _ (by simp [*])]
  rw [parseFrom_word3 'n' 'o' 't' ' ' _ (by decide) (by decide) (by decide) (Or.inl rfl) _ getKeyType_not]
  simp only [PluralRules.consume, U_FAILURE, RuleParser.checkSyntax, PluralRules.parseToken,
    ParseState.assign, modifyAt, modifyLast, RuleChain.onLastOr, PluralRules.storeNumber,
    AndConstraint.new, RuleChain.new, nA, nB, nC, nD, nE, nF, ne_eq, not_true_eq_false,
    not_false_eq_true, decide_True, decide_False, decide_not, Bool.not_true, Bool.not_false,
    Bool.false_eq_true, if_false, if_true, reduceCtorEq, and_self, and_true, true_and,
    and_false, false_and, List.length_nil, List.cons_append, List.nil_append]
  rw [parseFrom_space _ (by simp [*])]
  rw [parseFrom_word2 'i' 'n' ' ' _ (by decide) (by decide) (Or.inl rfl) _ getKeyType_in]
  simp only [PluralRules.consume, U_FAILURE, RuleParser.checkSyntax, PluralRules.parseToken,
    ParseState.assign, modifyAt, modifyLast, RuleChain.onLastOr, PluralRules.storeNumber,
    AndConstraint.new, RuleChain.new, nA, nB, nC, nD, nE, nF, ne_eq, not_true_eq_false,
    not_false_eq_true, decide_True, decide_False, decide_not, Bool.not_true, Bool.not_false,
    Bool.false_eq_true, if_false, if_true, reduceCtorEq, and_self, and_true, true_and,
    and_false, false_and, List.length_nil, List.cons_append, List.nil_append]
  rw [parseFrom_space _ (by simp [*])]
  rw [parseFrom_number E _ '.' hEd hEn (Or.inr rfl)]
  simp only [PluralRules.consume, U_FAILURE, RuleParser.checkSyntax, PluralRules.parseToken,
    ParseState.assign, modifyAt, modifyLast, RuleChain.onLastOr, PluralRules.storeNumber,
    AndConstraint.new, RuleChain.new, nA, nB, nC, nD, nE, nF, ne_eq, not_true_eq_false,
    not_false_eq_true, decide_True, decide_False, decide_not, Bool.not_true, Bool.not_false,
    Bool.false_eq_true, if_false, if_true, reduceCtorEq, and_self, and_true, true_and,
    and_false, false_and, List.length_nil, List.cons_append, List.nil_append]
  rw [parseFrom_dot]
  simp only [PluralRules.consume, U_FAILURE, RuleParser.checkSyntax, PluralRules.parseToken,
    ParseState.assign, modifyAt, modifyLast, RuleChain.onLastOr, PluralRules.storeNumber,
    AndConstraint.new, RuleChain.new, nA, nB, nC, nD, nE, nF, ne_eq, not_true_eq_false,
    not_false_eq_true, decide_True, decide_False, decide_not, Bool.not_true, Bool.not_false,
    Bool.false_eq_true, if_false, if_true, reduceCtorEq, and_self, and_true, true_and,
    and_false, false_and, List.length_nil, List.cons_append, List.nil_append]
  rw [parseFrom_number_end F hFd hFn]
  simp only [PluralRules.consume, U_FAILURE, RuleParser.checkSyntax, PluralRules.parseToken,
    ParseState.assign, modifyAt, modifyLast, RuleChain.onLastOr, PluralRules.storeNumber,
    AndConstraint.new, RuleChain.new, nA, nB, nC, nD, nE, nF, ne_eq, not_true_eq_false,
    not_false_eq_true, decide_True, decide_False, decide_not, Bool.not_true, Bool.not_false,
    Bool.false_eq_true, if_false, if_true, reduceCtorEq, and_self, and_true, true_and,
    and_false, false_and, List.length_nil, List.cons_append, List.nil_append]
  rw [parseFrom_nil]
  simp only [getNumberValue_eq A hA, getNumberValue_eq B hB, getNumberValue_eq C hC,
    getNumberValue_eq D hD, getNumberValue_eq E hE, getNumberValue_eq F hF]

/-! ## Lemmas for the repeat limit, copies, rejection and the keyword enumeration -/

theorem setRepeatLimit_drop (l : List RuleChain) (i : Nat) :
    (RuleChain.setRepeatLimit l).drop i = RuleChain.setRepeatLimit (l.drop i) := by
  induction l generalizing i with
  | nil => simp [RuleChain.setRepeatLimit]
  | cons this next ih =>
    cases i with
    | zero => rfl
    | succ i => simp [RuleChain.setRepeatLimit, ih]

theorem limitAndLoop_attained (l : List AndConstraint) (x : Int) :
    RuleChain.limitAndLoop l x = x ∨ ∃ c ∈ l, c.bound = RuleChain.limitAndLoop l x := by
  induction l generalizing x with
  | nil => exact Or.inl rfl
  | cons c l ih =>
    simp only [RuleChain.limitAndLoop, List.mem_cons, exists_eq_or_imp]
    rcases ih (c.updateRepeatLimit x) with h | ⟨d, hd, hb⟩
    · rw [h, updateRepeatLimit_eq_max]
      rcases max_cases c.bound x with ⟨hm, _⟩ | ⟨hm, _⟩
      · exact Or.inr (Or.inl hm.symm)
      · exact Or.inl hm
    · exact Or.inr (Or.inr ⟨d, hd, hb⟩)

theorem limitOrLoop_attained (l : List OrConstraint) (x : Int) :
    RuleChain.limitOrLoop l x = x ∨
      ∃ o ∈ l, ∃ c ∈ o.childNode, c.bound = RuleChain.limitOrLoop l x := by
  induction l generalizing x with
  | nil => exact Or.inl rfl
  | cons o l ih =>
    simp only [RuleChain.limitOrLoop, List.mem_cons, exists_eq_or_imp]
    rcases ih (RuleChain.limitAndLoop o.childNode x) with h | ⟨p, hp, c, hc, hb⟩
    · rw [h]
      rcases limitAndLoop_attained o.childNode x with h2 | ⟨c, hc, hb⟩
      · exact Or.inl h2
      · exact Or.inr (Or.inl ⟨c, hc, hb⟩)
    · exact Or.inr (Or.inr ⟨p, hp, c, hc, hb⟩)

theorem setRepeatLimit_head_is_maximum (l : List RuleChain) :
    0 ≤ RuleChain.getRepeatLimit (RuleChain.setRepeatLimit l) ∧
    (∀ node ∈ l, ∀ o ∈ node.ruleHeader, ∀ c ∈ o.childNode,
      c.bound ≤ RuleChain.getRepeatLimit (RuleChain.setRepeatLimit l)) ∧
    (RuleChain.getRepeatLimit (RuleChain.setRepeatLimit l) = 0 ∨
      ∃ node ∈ l, ∃ o ∈ node.ruleHeader, ∃ c ∈ o.childNode,
        c.bound = RuleChain.getRepeatLimit (RuleChain.setRepeatLimit l)) := by
  induction l with
  | nil => simp [RuleChain.setRepeatLimit, RuleChain.getRepeatLimit]
  | cons this next ih =>
    rw [getRepeatLimit_setRepeatLimit_cons]
    have h := limitOrLoop_ge this.ruleHeader
      (RuleChain.getRepeatLimit (RuleChain.setRepeatLimit next))
    refine ⟨by omega, ?_, ?_⟩
    · intro node hnode o ho c hc
      rcases List.mem_cons.1 hnode with hnode | hnode
      · subst hnode
        exact h.2 o ho c hc
      · have := ih.2.1 node hnode o ho c hc
        omega
    · rcases limitOrLoop_attained this.ruleHeader
          (RuleChain.getRepeatLimit (RuleChain.setRepeatLimit next)) with h2 | ⟨o, ho, c, hc, hb⟩
      · rw [h2]
        rcases ih.2.2 with h3 | ⟨node, hnode, o, ho, c, hc, hb⟩
        · exact Or.inl h3
        · exact Or.inr ⟨node, List.mem_cons_of_mem _ hnode, o, ho, c, hc, hb⟩
      · exact Or.inr ⟨this, List.mem_cons_self _ _, o, ho, c, hc, hb⟩

theorem setRepeatLimit_getElem (l : List RuleChain) (i : Nat) (e : RuleChain)
    (he : (RuleChain.setRepeatLimit l)[i]? = some e) :
    e.repeatLimit = RuleChain.getRepeatLimit (RuleChain.setRepeatLimit (l.drop i)) := by
  rw [← setRepeatLimit_drop]
  have h : ((RuleChain.setRepeatLimit l).drop i)[0]? = some e := by
    rw [List.getElem?_drop]
    simpa using he
  cases hd : (RuleChain.setRepeatLimit l).drop i with
  | nil => rw [hd] at h; simp at h
  | cons a rest =>
    rw [hd] at h
    simp only [List.getElem?_cons_zero, Option.some.injEq] at h
    subst h
    rfl

theorem operatorAssign_mRules (this other : PluralRules) :
    (PluralRules.operatorAssign this other false).mRules = other.mRules := by
  unfold PluralRules.operatorAssign
  by_cases h : other.mRules = []
  · simp [h]
  · simp [h, ruleChain_copy_eq]

theorem compareSamples_self (R : PluralRules) : PluralRules.compareSamples R R = true := by
  rw [compareSamples_eq_true]
  exact ⟨rfl, fun _ _ _ => rfl⟩

theorem operatorEq_self_value (R : PluralRules) :
    PluralRules.operatorEq R R false = true := by
  rw [operatorEq_of_count_eq R R rfl, compareSamples_self, Bool.and_true, Bool.and_self,
    List.all_eq_true]
  intro kw hkw
  exact (mem_getKeywords_iff R kw).1 hkw

theorem createRules_of_failure (hash : Hashtable) (description : UnicodeString)
    (status : UErrorCode)
    (h : PluralRules.parseDescription description = Outcome.failure status) :
    (PluralRules.createRules hash description).2 = Outcome.failure status := by
  have hs := getRuleData_status hash
  simp only [PluralRules.createRules, PluralRules.new]
  generalize PluralRules.getRuleData { mRules := [] } hash = r at hs
  obtain ⟨r1, r2⟩ := r
  simp only at hs
  subst hs
  simp [h]

theorem checkSyntax_after_keyword (t : tokenType) (ht : t ≠ tokenType.tColon) :
    RuleParser.checkSyntax tokenType.tKeyword t UErrorCode.U_ZERO_ERROR
      = UErrorCode.U_UNEXPECTED_TOKEN := by
  cases t <;> first | (exact absurd rfl ht) | rfl

theorem parseDescription_keyword_without_colon (description : UnicodeString)
    (h1s : (RuleParser.getNextToken (UnicodeString.toLower description) 0 [] tokenType.none
      UErrorCode.U_ZERO_ERROR).status = UErrorCode.U_ZERO_ERROR)
    (h1t : (RuleParser.getNextToken (UnicodeString.toLower description) 0 [] tokenType.none
      UErrorCode.U_ZERO_ERROR).type = tokenType.tKeyword)
    (hmore : (RuleParser.getNextToken (UnicodeString.toLower description) 0 [] tokenType.none
      UErrorCode.U_ZERO_ERROR).ruleIndex < (UnicodeString.toLower description).length)
    (h2s : (RuleParser.getNextToken (UnicodeString.toLower description)
      (RuleParser.getNextToken (UnicodeString.toLower description) 0 [] tokenType.none
        UErrorCode.U_ZERO_ERROR).ruleIndex
      (RuleParser.getNextToken (UnicodeString.toLower description) 0 [] tokenType.none
        UErrorCode.U_ZERO_ERROR).token
      tokenType.tKeyword UErrorCode.U_ZERO_ERROR).status = UErrorCode.U_ZERO_ERROR)
    (h2t : (RuleParser.getNextToken (UnicodeString.toLower description)
      (RuleParser.getNextToken (UnicodeString.toLower description) 0 [] tokenType.none
        UErrorCode.U_ZERO_ERROR).ruleIndex
      (RuleParser.getNextToken (UnicodeString.toLower description) 0 [] tokenType.none
        UErrorCode.U_ZERO_ERROR).token
      tokenType.tKeyword UErrorCode.U_ZERO_ERROR).type ≠ tokenType.tColon) :
    PluralRules.parseDescription description
      = Outcome.failure UErrorCode.U_UNEXPECTED_TOKEN := by
  unfold PluralRules.parseDescription
  simp only []
  generalize UnicodeString.toLower description = d at h1s h1t hmore h2s h2t
  have hpos : 0 < d.length := by omega
  have hadv := getNextToken_advance d 0 hpos [] tokenType.none UErrorCode.U_ZERO_ERROR h1s
  obtain ⟨k, hk⟩ : ∃ k, d.length = k + 2 := ⟨d.length - 2, by omega⟩
  rw [hk, PluralRules.parseLoop, if_pos (by omega)]
  simp only [h1s, h1t, U_FAILURE, ne_eq, not_true_eq_false, decide_False, Bool.false_eq_true,
    if_false]
  have hc0 : RuleParser.checkSyntax tokenType.none tokenType.tKeyword UErrorCode.U_ZERO_ERROR
      = UErrorCode.U_ZERO_ERROR := by decide
  rw [hc0]
  simp only [PluralRules.parseToken, RuleChain.new, not_true_eq_false, decide_False,
    Bool.false_eq_true, if_false]
  rw [PluralRules.parseLoop, if_pos (by omega)]
  simp only [h2s, U_FAILURE, ne_eq, not_true_eq_false, decide_False, Bool.false_eq_true,
    if_false, checkSyntax_after_keyword _ h2t]
  simp

theorem parse_starting_with_in (post : List Char) :
    PluralRules.parseDescription ("in ".toList ++ post)
      = Outcome.failure UErrorCode.U_UNEXPECTED_TOKEN := by
  have l1 : List.map Char.toLower "in ".toList = "in ".toList := by decide
  have t1 : "in ".toList = ['i', 'n', ' '] := by decide
  rw [parseDescription_eq_parseFrom]
  simp only [UnicodeString.toLower, List.map_append, l1]
  simp only [t1, List.cons_append, List.nil_append]
  rw [parseFrom_word2 'i' 'n' ' ' _ (by decide) (by decide) (Or.inl rfl) _ getKeyType_in]
  simp [PluralRules.consume, U_FAILURE, RuleParser.checkSyntax]

theorem parse_unterminated_range (B : List Char) (hB : int32Number B = true) :
    PluralRules.parseDescription ("few: n in ".toList ++ B ++ "..".toList)
      = Outcome.ok [⟨['f', 'e', 'w'],
          [⟨[⟨RuleOp.NONE, -1, decimalValue B, PLURAL_RANGE_HIGH, false⟩]⟩], 0⟩] := by
  have nB := getNumberValue_ne B hB
  obtain ⟨hBd, hBn⟩ := int32Number_digits B hB
  have l1 : List.map Char.toLower "few: n in ".toList = "few: n in ".toList := by decide
  have l2 : List.map Char.toLower "..".toList = "..".toList := by decide
  have t1 : "few: n in ".toList
      = ['f', 'e', 'w', ':', ' ', 'n', ' ', 'i', 'n', ' '] := by decide
  have t2 : "..".toList = ['.', '.'] := by decide
  rw [parseDescription_eq_parseFrom]
  simp only [UnicodeString.toLower, List.map_append, l1, l2, toLower_digits B hBd]
  simp only [t1, t2, List.append_assoc, List.cons_append, List.nil_append]
  rw [parseFrom_word3 'f' 'e' 'w' ':' _ (by decide) (by decide) (by decide) (Or.inr rfl) _ getKeyType_few]
  simp only [PluralRules.consume, U_FAILURE, RuleParser.checkSyntax, PluralRules.parseToken,
    ParseState.assign, modifyAt, modifyLast, RuleChain.onLastOr, PluralRules.storeNumber,
    AndConstraint.new, RuleChain.new, nB, ne_eq, not_true_eq_false,
    not_false_eq_true, decide_True, decide_False, decide_not, Bool.not_true, Bool.not_false,
    Bool.false_eq_true, if_false, if_true, reduceCtorEq, and_self, and_true, true_and,
    and_false, false_and, List.length_nil, List.cons_append, List.nil_append]
  rw [parseFrom_colon]
  simp only [PluralRules.consume, U_FAILURE, RuleParser.checkSyntax, PluralRules.parseToken,
    ParseState.assign, modifyAt, modifyLast, RuleChain.onLastOr, PluralRules.storeNumber,
    AndConstraint.new, RuleChain.new, nB, ne_eq, not_true_eq_false,
    not_false_eq_true, decide_True, decide_False, decide_not, Bool.not_true, Bool.not_false,
    Bool.false_eq_true, if_false, if_true, reduceCtorEq, and_self, and_true, true_and,
    and_false, false_and, List.length_nil, List.cons_append, List.nil_append]
  rw [parseFrom_space _ (by simp [*])]
  rw [parseFrom_word1 'n' ' ' _ (by decide) (Or.inl rfl) _ getKeyType_n]
  simp only [PluralRules.consume, U_FAILURE, RuleParser.checkSyntax, PluralRules.parseToken,
    ParseState.assign, modifyAt, modifyLast, RuleChain.onLastOr, PluralRules.storeNumber,
    AndConstraint.new, RuleChain.new, nB, ne_eq, not_true_eq_false,
    not_false_eq_true, decide_True, decide_False, decide_not, Bool.not_true, Bool.not_false,
    Bool.false_eq_true, if_false, if_true, reduceCtorEq, and_self, and_true, true_and,
    and_false, false_and, List.length_nil, List.cons_append, List.nil_append]
  rw [parseFrom_space _ (by simp [*])]
  rw [parseFrom_word2 'i' 'n' ' ' _ (by decide) (by decide) (Or.inl rfl) _ getKeyType_in]
  simp only [PluralRules.consume, U_FAILURE, RuleParser.checkSyntax, PluralRules.parseToken,
    ParseState.assign, modifyAt, modifyLast, RuleChain.onLastOr, PluralRules.storeNumber,
    AndConstraint.new, RuleChain.new, nB, ne_eq, not_true_eq_false,
    not_false_eq_true, decide_True, decide_False, decide_not, Bool.not_true, Bool.not_false,
    Bool.false_eq_true, if_false, if_true, reduceCtorEq, and_self, and_true, true_and,
    and_false, false_and, List.length_nil, List.cons_append, List.nil_append]
  rw [parseFrom_space _ (by simp [*])]
  rw [parseFrom_number B _ '.' hBd hBn (Or.inr rfl)]
  simp only [PluralRules.consume, U_FAILURE, RuleParser.checkSyntax, PluralRules.parseToken,
    ParseState.assign, modifyAt, modifyLast, RuleChain.onLastOr, PluralRules.storeNumber,
    AndConstraint.new, RuleChain.new, nB, ne_eq, not_true_eq_false,
    not_false_eq_true, decide_True, decide_False, decide_not, Bool.not_true, Bool.not_false,
    Bool.false_eq_true, if_false, if_true, reduceCtorEq, and_self, and_true, true_and,
    and_false, false_and, List.length_nil, List.cons_append, List.nil_append]
  rw [parseFrom_dot]
  simp only [PluralRules.consume, U_FAILURE, RuleParser.checkSyntax, PluralRules.parseToken,
    ParseState.assign, modifyAt, modifyLast, RuleChain.onLastOr, PluralRules.storeNumber,
    AndConstraint.new, RuleChain.new, nB, ne_eq, not_true_eq_false,
    not_false_eq_true, decide_True, decide_False, decide_not, Bool.not_true, Bool.not_false,
    Bool.false_eq_true, if_false, if_true, reduceCtorEq, and_self, and_true, true_and,
    and_false, false_and, List.length_nil, List.cons_append, List.nil_append]
  rw [parseFrom_nil]
  simp only [getNumberValue_eq B hB]

theorem getKeywords_eq_keywordsSpec (R : PluralRules) :
    R.getKeywords = RuleChain.keywordsSpec R.mRules := by
  unfold PluralRules.getKeywords PluralKeywordEnumeration.new RuleChain.keywordsSpec
  rw [collect_eq]
  simp only [List.nil_append, Bool.true_and, List.all_eq_true, decide_eq_true_eq, ne_eq]
  split <;> simp

theorem afterCalls_pos (k : Nat) (e : PluralKeywordEnumeration) :
    (PluralKeywordEnumeration.afterCalls k e).fKeywordNames = e.fKeywordNames ∧
    (PluralKeywordEnumeration.afterCalls k e).pos
      = min (e.pos + k) (max e.pos e.fKeywordNames.length) := by
  induction k generalizing e with
  | zero =>
    simp only [PluralKeywordEnumeration.afterCalls, Nat.add_zero, true_and]
    omega
  | succ k ih =>
    rw [PluralKeywordEnumeration.afterCalls]
    have h := ih (e.snext UErrorCode.U_ZERO_ERROR).2
    unfold PluralKeywordEnumeration.snext at h ⊢
    by_cases hp : e.pos < e.fKeywordNames.length
    · simp only [U_SUCCESS, decide_True, true_and, hp, if_true] at h ⊢
      refine ⟨h.1, ?_⟩
      rw [h.2]
      omega
    · simp only [U_SUCCESS, decide_True, true_and, hp, if_false] at h ⊢
      refine ⟨h.1, ?_⟩
      rw [h.2]
      omega

theorem keyword_enumeration_nth (R : PluralRules) (k : Nat) :
    ((PluralKeywordEnumeration.afterCalls k R.getKeywordsObject.reset).snext
        UErrorCode.U_ZERO_ERROR).1 = (RuleChain.keywordsSpec R.mRules)[k]? ∧
    R.getKeywordsObject.count = (RuleChain.keywordsSpec R.mRules).length ∧
    R.getKeywords = RuleChain.keywordsSpec R.mRules := by
  have hk := getKeywords_eq_keywordsSpec R
  unfold PluralRules.getKeywords at hk
  have h := afterCalls_pos k R.getKeywordsObject.reset
  simp only [PluralRules.getKeywordsObject, PluralKeywordEnumeration.reset, hk,
    Nat.zero_add, Nat.zero_max] at h
  refine ⟨?_, by simp [PluralKeywordEnumeration.count, PluralRules.getKeywordsObject, hk],
    getKeywords_eq_keywordsSpec R⟩
  unfold PluralKeywordEnumeration.snext
  simp only [PluralRules.getKeywordsObject, PluralKeywordEnumeration.reset, hk] at h ⊢
  rw [h.1, h.2]
  by_cases hlt : k < (RuleChain.keywordsSpec R.mRules).length
  · have hmin : min k (RuleChain.keywordsSpec R.mRules).length = k := by omega
    simp [U_SUCCESS, hmin, hlt]
  · have hmin : min k (RuleChain.keywordsSpec R.mRules).length
        = (RuleChain.keywordsSpec R.mRules).length := by omega
    have hnone : (RuleChain.keywordsSpec R.mRules)[k]? = none := by
      rw [List.getElem?_eq_none_iff]
      omega
    simp [U_SUCCESS, hmin, hnone]

/-! ## Lemmas for the locale lookup -/

theorem uloc_getParent_length (s : UnicodeString) :
    (uloc_getParent s).length ≤ s.length - 1 := by
  unfold uloc_getParent
  have h := (List.dropWhile_suffix (fun c => decide (c ≠ '_')) (l := s.reverse)).length_le
  simp only [List.length_reverse, List.length_drop] at h ⊢
  omega

theorem parentLoop_eq_find (hash : Hashtable) (fuel : Nat) :
    ∀ s : UnicodeString, s.length ≤ fuel →
      PluralRules.parentLoop hash fuel s
        = Outcome.ok
            (match (localeParentsFrom fuel s).find?
                (fun p => decide (Hashtable.get hash p ≠ [])) with
              | some a => Hashtable.get hash a
              | none => []) := by
  induction fuel with
  | zero =>
    intro s hs
    have hlen := uloc_getParent_length s
    have h0 : ¬ (uloc_getParent s).length > 0 := by omega
    unfold PluralRules.parentLoop
    simp [h0, localeParentsFrom]
  | succ fuel ih =>
    intro s hs
    have hlen := uloc_getParent_length s
    unfold PluralRules.parentLoop
    by_cases h0 : (uloc_getParent s).length > 0
    · simp only [h0, if_true, localeParentsFrom]
      by_cases hg : Hashtable.get hash (uloc_getParent s) = []
      · rw [ih _ (by omega)]
        simp [hg, List.find?_cons]
      · simp [hg, List.find?_cons]
    · simp [h0, localeParentsFrom]

theorem setRepeatLimit_idem (l : List RuleChain) :
    RuleChain.setRepeatLimit (RuleChain.setRepeatLimit l) = RuleChain.setRepeatLimit l := by
  induction l with
  | nil => rfl
  | cons this next ih =>
    simp only [RuleChain.setRepeatLimit]
    rw [ih]

theorem get_mem (hash : Hashtable) (key : UnicodeString)
    (h : Hashtable.get hash key ≠ []) : ∃ e ∈ hash, e.2 = Hashtable.get hash key := by
  unfold Hashtable.get at h ⊢
  cases hf : hash.find? (fun e => decide (UnicodeString.toLower e.1 = UnicodeString.toLower key)) with
  | none => rw [hf] at h; exact absurd rfl h
  | some e => exact ⟨e, List.mem_of_find?_eq_some hf, rfl⟩

theorem addRules_limitsSet (this : PluralRules) (hash : Hashtable) (name : UnicodeString)
    (rules : List RuleChain) (h : Hashtable.limitsSet hash) :
    Hashtable.limitsSet (PluralRules.addRules this hash name rules true).2 := by
  unfold PluralRules.addRules
  simp only [if_true]
  split
  · intro e he
    simp only [Hashtable.put, List.mem_append, List.mem_filter, List.mem_singleton] at he
    rcases he with he | he
    · exact h e he.1
    · subst he
      exact setRepeatLimit_idem _
  · exact h

theorem localeLoop_limitsSet (this : PluralRules) (localeData : UnicodeString)
    (rules : List RuleChain) (fuel : Nat) :
    ∀ (curIndex : Nat) (hash hash1 : Hashtable), Hashtable.limitsSet hash →
      PluralRules.localeLoop this localeData rules fuel curIndex hash = Outcome.ok hash1 →
      Hashtable.limitsSet hash1 := by
  induction fuel with
  | zero =>
    intro curIndex hash hash1 h heq
    unfold PluralRules.localeLoop at heq
    split at heq
    · cases heq
    · cases heq; exact h
  | succ fuel ih =>
    intro curIndex hash hash1 h heq
    unfold PluralRules.localeLoop at heq
    split at heq
    · exact ih _ _ _ (addRules_limitsSet _ _ _ _ h) heq
    · cases heq; exact h

theorem getRuleDataLoop_limitsSet (this : PluralRules) (rows : List UnicodeString) :
    ∀ hash : Hashtable, Hashtable.limitsSet hash →
      Hashtable.limitsSet (PluralRules.getRuleDataLoop this rows hash).1 := by
  induction rows with
  | nil => intro hash h; exact h
  | cons row rows ih =>
    intro hash h
    unfold PluralRules.getRuleDataLoop
    cases hs : row.indexOf? '/' with
    | none => exact h
    | some slashIndex =>
      simp only []
      cases hp : PluralRules.parseDescription (UnicodeString.sub row 0 slashIndex) with
      | ok rules =>
        simp only []
        cases hl : PluralRules.localeLoop this (row.drop (slashIndex + 1)) rules
            (row.drop (slashIndex + 1)).length 0 hash with
        | ok hash1 => exact ih _ (localeLoop_limitsSet _ _ _ _ _ _ _ h hl)
        | failure status => exact h
        | nullDeref => exact h
        | outOfFuel => exact h
      | failure status => exact h
      | nullDeref => exact h
      | outOfFuel => exact h

theorem seededTable_limitsSet (hash : Hashtable) (h : Hashtable.limitsSet hash) :
    Hashtable.limitsSet (seededTable hash) := by
  simp only [seededTable, PluralRules.new, PluralRules.getRuleData]
  exact getRuleDataLoop_limitsSet { mRules := [] } uCharPluralRules hash h

theorem new_eq (hash : Hashtable) :
    PluralRules.new hash = ({ mRules := [] }, seededTable hash, Outcome.ok ()) := by
  have hs := getRuleData_status hash
  simp only [PluralRules.new, seededTable]
  rw [hs]

theorem forLocale_of_registered (hash : Hashtable) (L : UnicodeString)
    (h : Hashtable.get (seededTable hash) L ≠ []) :
    (PluralRules.forLocale hash L).2
      = Outcome.ok { mRules := RuleChain.setRepeatLimit (Hashtable.get (seededTable hash) L) } := by
  unfold PluralRules.forLocale
  rw [new_eq]
  simp [h, PluralRules.forLocaleFinish, PluralRules.addRules, ruleChain_copy_eq]

theorem forLocale_of_ancestor (hash : Hashtable) (L A : UnicodeString)
    (hmiss : Hashtable.get (seededTable hash) L = [])
    (hA : (localeParents L).find?
        (fun p => decide (Hashtable.get (seededTable hash) p ≠ [])) = some A) :
    (PluralRules.forLocale hash L).2
      = Outcome.ok { mRules := RuleChain.setRepeatLimit (Hashtable.get (seededTable hash) A) } := by
  have hne : Hashtable.get (seededTable hash) A ≠ [] := by
    have := List.find?_some hA
    simpa using this
  unfold PluralRules.forLocale
  rw [new_eq]
  simp only [hmiss, if_true]
  rw [parentLoop_eq_find _ _ _ (le_refl _)]
  unfold localeParents at hA
  rw [hA]
  simp [hne, PluralRules.forLocaleFinish, PluralRules.addRules, ruleChain_copy_eq]

theorem forLocale_of_unregistered (hash : Hashtable) (L : UnicodeString)
    (hmiss : Hashtable.get (seededTable hash) L = [])
    (hnone : ∀ p ∈ localeParents L, Hashtable.get (seededTable hash) p = []) :
    (PluralRules.forLocale hash L).2
      = (PluralRules.createRules (seededTable hash) PLURAL_DEFAULT_RULE).2 := by
  have hf : (localeParents L).find?
      (fun p => decide (Hashtable.get (seededTable hash) p ≠ [])) = none := by
    rw [List.find?_eq_none]
    intro p hp
    simp [hnone p hp]
  unfold PluralRules.forLocale
  rw [new_eq]
  simp only [hmiss, if_true]
  rw [parentLoop_eq_find _ _ _ (le_refl _)]
  unfold localeParents at hf
  rw [hf]
  simp [PluralRules.forLocaleFinish]

theorem keywordsSpec_setRepeatLimit (l : List RuleChain) :
    RuleChain.keywordsSpec (RuleChain.setRepeatLimit l) = RuleChain.keywordsSpec l := by
  have hmap : ∀ l : List RuleChain,
      (RuleChain.setRepeatLimit l).map (fun e => e.keyword) = l.map (fun e => e.keyword) := by
    intro l
    induction l with
    | nil => rfl
    | cons this next ih => simp [RuleChain.setRepeatLimit, ih]
  have hall : ∀ l : List RuleChain, (∀ e ∈ l, e.keyword ≠ PLURAL_KEYWORD_OTHER) ↔
      ∀ k ∈ l.map (fun e => e.keyword), k ≠ PLURAL_KEYWORD_OTHER := by
    intro l
    simp
  unfold RuleChain.keywordsSpec
  rw [hmap]
  simp only [hall, hmap]

/-! ## Lemmas for the validator and the grammar -/

theorem passesFrom_relation (r : RelationShape) (prev : tokenType) (rest : List tokenType)
    (hprev : prev = tokenType.tColon ∨ prev = tokenType.tAnd ∨ prev = tokenType.tOr) :
    RuleParser.passesFrom prev (r.tokens ++ rest)
      = RuleParser.passesFrom tokenType.tNumber rest := by
  obtain ⟨m, g, n⟩ := r
  rcases hprev with rfl | rfl | rfl <;> cases m <;> cases g <;> cases n <;>
    simp [RelationShape.tokens, RuleParser.passesFrom, RuleParser.checkSyntax, U_FAILURE]

theorem passesFrom_more (more : List (Bool × RelationShape)) (rest : List tokenType) :
    RuleParser.passesFrom tokenType.tNumber (RelationShape.moreTokens more ++ rest)
      = RuleParser.passesFrom tokenType.tNumber rest := by
  induction more with
  | nil => rfl
  | cons p more ih =>
    obtain ⟨c, r⟩ := p
    cases c
    · simp only [RelationShape.moreTokens, List.cons_append, List.append_assoc]
      rw [RuleParser.passesFrom]
      simp only [RuleParser.checkSyntax, U_FAILURE]
      simp only [Bool.false_eq_true, if_false]
      rw [passesFrom_relation r _ _ (Or.inr (Or.inr rfl)), ih]
      simp
    · simp only [RelationShape.moreTokens, List.cons_append, List.append_assoc]
      rw [RuleParser.passesFrom]
      simp only [RuleParser.checkSyntax, U_FAILURE]
      simp only [if_true]
      rw [passesFrom_relation r _ _ (Or.inr (Or.inl rfl)), ih]
      simp

theorem passesFrom_rule (r : RuleShape) (prev : tokenType) (rest : List tokenType)
    (hprev : prev = tokenType.none ∨ prev = tokenType.tSemiColon) :
    RuleParser.passesFrom prev (r.tokens ++ rest)
      = RuleParser.passesFrom tokenType.tNumber rest := by
  have h1 : RuleParser.passesFrom prev (r.tokens ++ rest)
      = RuleParser.passesFrom tokenType.tColon
          (r.first.tokens ++ (RelationShape.moreTokens r.more ++ rest)) := by
    rcases hprev with rfl | rfl <;>
      simp [RuleShape.tokens, RuleParser.passesFrom, RuleParser.checkSyntax, U_FAILURE]
  rw [h1, passesFrom_relation _ _ _ (Or.inl rfl), passesFrom_more]

theorem passesFrom_sequence (rules : List RuleShape) (prev : tokenType)
    (hprev : prev = tokenType.none ∨ prev = tokenType.tSemiColon) :
    RuleParser.passesFrom prev (RuleShape.sequenceTokens rules) = true := by
  induction rules generalizing prev with
  | nil => rfl
  | cons r rules ih =>
    cases rules with
    | nil =>
      have h := passesFrom_rule r prev [] hprev
      rw [List.append_nil] at h
      rw [RuleShape.sequenceTokens, h]
      rfl
    | cons s rules =>
      rw [RuleShape.sequenceTokens, passesFrom_rule r prev _ hprev, RuleParser.passesFrom]
      simp only [RuleParser.checkSyntax, U_FAILURE]
      simpa using ih tokenType.tSemiColon (Or.inr rfl)

theorem count_relation (r : RelationShape) :
    r.tokens.count tokenType.tVariableN = 1 ∧
      r.tokens.count tokenType.tIs + r.tokens.count tokenType.tIn = 1 := by
  obtain ⟨m, g, n⟩ := r
  cases m <;> cases g <;> cases n <;> decide

theorem count_more (more : List (Bool × RelationShape)) :
    (RelationShape.moreTokens more).count tokenType.tVariableN
      = (RelationShape.moreTokens more).count tokenType.tIs
        + (RelationShape.moreTokens more).count tokenType.tIn := by
  induction more with
  | nil => rfl
  | cons p more ih =>
    obtain ⟨c, r⟩ := p
    have h := count_relation r
    cases c <;>
      simp only [RelationShape.moreTokens, List.count_cons, List.count_append, ih] <;>
      simp <;> omega

theorem count_rule (r : RuleShape) :
    r.tokens.count tokenType.tVariableN
      = r.tokens.count tokenType.tIs + r.tokens.count tokenType.tIn := by
  have h := count_relation r.first
  have h2 := count_more r.more
  simp only [RuleShape.tokens, List.count_cons, List.count_append]
  simp
  omega

theorem count_sequence (rules : List RuleShape) :
    (RuleShape.sequenceTokens rules).count tokenType.tVariableN
      = (RuleShape.sequenceTokens rules).count tokenType.tIs
        + (RuleShape.sequenceTokens rules).count tokenType.tIn := by
  induction rules with
  | nil => rfl
  | cons r rules ih =>
    cases rules with
    | nil => exact count_rule r
    | cons s rules =>
      have h := count_rule r
      simp only [RuleShape.sequenceTokens, List.count_cons, List.count_append] at ih ⊢
      simp
      omega

/-! ## Lemmas for the builder: no null pointer, no endless loop -/

theorem modifyLast_eq_nil {α : Type} (f : α → α) (l : List α) :
    modifyLast f l = [] ↔ l = [] := by
  induction l with
  | nil => simp [modifyLast]
  | cons a l ih =>
    cases l with
    | nil => simp [modifyLast]
    | cons b l => simp [modifyLast]

theorem getLast?_modifyLast {α : Type} (f : α → α) (l : List α) :
    (modifyLast f l).getLast? = l.getLast?.map f := by
  induction l with
  | nil => simp [modifyLast]
  | cons a l ih =>
    cases l with
    | nil => simp [modifyLast]
    | cons b l =>
      have hne : modifyLast f (b :: l) ≠ [] := by
        intro h
        exact absurd ((modifyLast_eq_nil f (b :: l)).1 h) (by simp)
      rw [modifyLast, List.getLast?_cons_cons, ← ih]
      cases hm : modifyLast f (b :: l) with
      | nil => exact absurd hm hne
      | cons c m => rw [List.getLast?_cons_cons]

theorem getElem?_modifyAt {α : Type} (f : α → α) (i : Nat) (l : List α) (j : Nat) :
    (modifyAt f i l)[j]? = if j = i then l[j]?.map f else l[j]? := by
  induction l generalizing i j with
  | nil => cases i <;> simp [modifyAt]
  | cons a l ih =>
    cases i with
    | zero =>
      cases j with
      | zero => simp [modifyAt]
      | succ j => simp [modifyAt]
    | succ i =>
      cases j with
      | zero => simp [modifyAt]
      | succ j => simp [modifyAt, ih]

theorem hasCurrent_onLastOr (g : List AndConstraint → List AndConstraint)
    (hg : ∀ l, l ≠ [] → g l ≠ []) (node : RuleChain) (h : node.hasCurrent = true) :
    (RuleChain.onLastOr g node).hasCurrent = true := by
  unfold RuleChain.hasCurrent at h ⊢
  simp only [RuleChain.onLastOr, getLast?_modifyLast]
  cases hl : node.ruleHeader.getLast? with
  | none => rw [hl] at h; cases h
  | some o =>
    rw [hl] at h
    simp only [decide_eq_true_eq] at h
    simpa using hg _ h

theorem ruleHeader_onLastOr (g : List AndConstraint → List AndConstraint) (node : RuleChain)
    (h : node.ruleHeader ≠ []) : (RuleChain.onLastOr g node).ruleHeader ≠ [] := by
  simp only [RuleChain.onLastOr]
  intro h0
  exact h ((modifyLast_eq_nil _ _).1 h0)

theorem hasCurrent_ruleHeader (node : RuleChain) (h : node.hasCurrent = true) :
    node.ruleHeader ≠ [] := by
  intro h0
  simp [RuleChain.hasCurrent, h0] at h

theorem present_iff (st : ParseState) :
    st.present = true ↔
      st.ruleChain.isSome = true ∧
      (∃ i node, st.curAndConstraint = some i ∧ st.rules[i]? = some node ∧
        node.hasCurrent = true) ∧
      (∃ head next, st.rules = head :: next ∧ head.ruleHeader ≠ []) := by
  obtain ⟨rules, rc, cur⟩ := st
  simp only [ParseState.present, Bool.and_eq_true]
  constructor
  · rintro ⟨⟨h1, h2⟩, h3⟩
    refine ⟨h1, ?_, ?_⟩
    · cases cur with
      | none => cases h2
      | some i =>
        cases hn : rules[i]? with
        | none => simp [hn] at h2
        | some node =>
          simp only [hn] at h2
          exact ⟨i, node, rfl, hn, h2⟩
    · cases rules with
      | nil => cases h3
      | cons head next =>
        simp only [decide_eq_true_eq] at h3
        exact ⟨head, next, rfl, h3⟩
  · rintro ⟨h1, ⟨i, node, hc, hn, hh⟩, ⟨head, next, hr, hne⟩⟩
    subst hc
    subst hr
    refine ⟨⟨h1, ?_⟩, ?_⟩
    · simp only [hn]
      exact hh
    · simpa using hne

theorem present_modify (st : ParseState) (g : List AndConstraint → List AndConstraint)
    (hg : ∀ l, l ≠ [] → g l ≠ []) (i : Nat) (hi : st.curAndConstraint = some i)
    (h : st.present = true) :
    ParseState.present { st with rules := modifyAt (RuleChain.onLastOr g) i st.rules } = true := by
  rw [present_iff] at h ⊢
  obtain ⟨h1, ⟨i1, node, hc, hn, hh⟩, ⟨head, next, hr, hne⟩⟩ := h
  rw [hi] at hc
  cases hc
  refine ⟨h1, ⟨i, RuleChain.onLastOr g node, hi, ?_, hasCurrent_onLastOr g hg node hh⟩, ?_⟩
  · simp only [getElem?_modifyAt, if_true, hn, Option.map_some']
  · simp only [hr]
    cases i with
    | zero => exact ⟨_, next, rfl, ruleHeader_onLastOr g head hne⟩
    | succ i => exact ⟨head, _, rfl, hne⟩

theorem present_assign (st : ParseState) (f : AndConstraint → AndConstraint)
    (h : st.present = true) :
    ∃ st1, st.assign f = some st1 ∧ st1.present = true := by
  have h0 := (present_iff st).1 h
  obtain ⟨_, ⟨i, node, hc, _, _⟩, _⟩ := h0
  refine ⟨⟨modifyAt (RuleChain.onLastOr (modifyLast f)) i st.rules, st.ruleChain,
    st.curAndConstraint⟩, by simp only [ParseState.assign, hc], ?_⟩
  exact present_modify st (modifyLast f) (fun l hl h0 => hl ((modifyLast_eq_nil f l).1 h0)) i hc h

theorem parseToken_present (st : ParseState) (type : tokenType) (token : UnicodeString)
    (h : st.present = true) :
    ∃ st1, PluralRules.parseToken st type token = some st1 ∧ st1.present = true := by
  have h0 := (present_iff st).1 h
  obtain ⟨hrc, ⟨i, node, hc, hn, hh⟩, ⟨head, next, hr, hne⟩⟩ := h0
  cases type
  case tAnd =>
    refine ⟨⟨modifyAt (RuleChain.onLastOr (fun l => l ++ [AndConstraint.new])) i st.rules,
      st.ruleChain, st.curAndConstraint⟩, by simp only [PluralRules.parseToken, hc], ?_⟩
    exact present_modify st (fun l => l ++ [AndConstraint.new]) (fun l _ => by simp) i hc h
  case tOr =>
    refine ⟨⟨⟨head.keyword, head.ruleHeader ++ [⟨[AndConstraint.new]⟩], head.repeatLimit⟩ :: next,
      st.ruleChain, some 0⟩, by simp only [PluralRules.parseToken, hr, hne, if_false], ?_⟩
    rw [present_iff]
    refine ⟨hrc, ⟨0, ⟨head.keyword, head.ruleHeader ++ [OrConstraint.mk [AndConstraint.new]],
      head.repeatLimit⟩, rfl, by simp, ?_⟩, ⟨_, next, rfl, by simp⟩⟩
    simp [RuleChain.hasCurrent]
  case tKeyword =>
    obtain ⟨k, hk⟩ := Option.isSome_iff_exists.1 hrc
    refine ⟨⟨st.rules ++ [⟨token, [⟨[AndConstraint.new]⟩], 0⟩], some st.rules.length,
      some st.rules.length⟩, by simp only [PluralRules.parseToken, hk], ?_⟩
    rw [present_iff]
    refine ⟨rfl, ⟨st.rules.length, ⟨token, [OrConstraint.mk [AndConstraint.new]], 0⟩, rfl, ?_,
      ?_⟩, ⟨head, next ++ [⟨token, [OrConstraint.mk [AndConstraint.new]], 0⟩], ?_, hne⟩⟩
    · simp
    · simp [RuleChain.hasCurrent]
    · simp [hr]
  case tIs => exact present_assign st _ h
  case tNot => exact present_assign st _ h
  case tIn => exact present_assign st _ h
  case tNumber => exact present_assign st _ h
  case tMod => exact present_assign st _ h
  all_goals exact ⟨st, rfl, h⟩

theorem parseToken_fits (prev cur : tokenType) (st : ParseState) (token : UnicodeString)
    (hfit : ParseState.fits prev st)
    (hsyn : RuleParser.checkSyntax prev cur UErrorCode.U_ZERO_ERROR = UErrorCode.U_ZERO_ERROR) :
    ∃ st1, PluralRules.parseToken st cur token = some st1 ∧ st1.present = true ∧
      cur ≠ tokenType.none := by
  have hcur : cur ≠ tokenType.none := by
    intro h
    subst h
    cases prev <;> simp [RuleParser.checkSyntax, U_FAILURE] at hsyn
  rcases hfit with ⟨hp, hst⟩ | ⟨_, hpres⟩
  · subst hp
    subst hst
    have hk : cur = tokenType.tKeyword := by
      cases cur <;> simp [RuleParser.checkSyntax, U_FAILURE] at hsyn ⊢
    subst hk
    exact ⟨_, rfl, rfl, hcur⟩
  · obtain ⟨st1, h1, h2⟩ := parseToken_present st cur token hpres
    exact ⟨st1, h1, h2, hcur⟩

theorem buildFrom_fits (toks : List (tokenType × UnicodeString)) :
    ∀ (prev : tokenType) (st : ParseState), ParseState.fits prev st →
      RuleParser.passesFrom prev (toks.map (fun t => t.1)) = true →
      ∃ st1, PluralRules.buildFrom st toks = some st1 ∧ (toks ≠ [] → st1.present = true) := by
  induction toks with
  | nil =>
    intro prev st _ _
    exact ⟨st, rfl, fun h => absurd rfl h⟩
  | cons t toks ih =>
    intro prev st hfit hpass
    simp only [List.map_cons, RuleParser.passesFrom] at hpass
    by_cases hs : RuleParser.checkSyntax prev t.1 UErrorCode.U_ZERO_ERROR
        = UErrorCode.U_ZERO_ERROR
    · simp only [hs, U_FAILURE, ne_eq, not_true_eq_false, decide_False, Bool.false_eq_true,
        if_false] at hpass
      obtain ⟨st1, h1, h2, h3⟩ := parseToken_fits prev t.1 st t.2 hfit hs
      obtain ⟨st2, h4, h5⟩ := ih t.1 st1 (Or.inr ⟨h3, h2⟩) hpass
      refine ⟨st2, by simp only [PluralRules.buildFrom, h1, h4], ?_⟩
      intro _
      cases toks with
      | nil =>
        simp only [PluralRules.buildFrom] at h4
        cases h4
        exact h2
      | cons u toks => exact h5 (by simp)
    · simp [U_FAILURE, hs] at hpass

theorem parseLoop_ne_nullDeref (data : UnicodeString) (fuel : Nat) :
    ∀ (idx : Nat) (tok : UnicodeString) (ty prev : tokenType) (st : ParseState),
      ParseState.fits prev st →
      PluralRules.parseLoop data fuel idx tok ty prev st ≠ Outcome.nullDeref := by
  induction fuel with
  | zero =>
    intro idx tok ty prev st _
    unfold PluralRules.parseLoop
    split <;> simp
  | succ fuel ih =>
    intro idx tok ty prev st hfit
    unfold PluralRules.parseLoop
    split
    · simp only []
      generalize RuleParser.getNextToken data idx tok ty UErrorCode.U_ZERO_ERROR = r
      by_cases hst : r.status = UErrorCode.U_ZERO_ERROR
      · by_cases hs : RuleParser.checkSyntax prev r.type UErrorCode.U_ZERO_ERROR
            = UErrorCode.U_ZERO_ERROR
        · obtain ⟨st1, h1, h2, h3⟩ := parseToken_fits prev r.type st r.token hfit hs
          simp only [hst, hs, U_FAILURE, ne_eq, not_true_eq_false, decide_False,
            Bool.false_eq_true, if_false, h1]
          exact ih _ _ _ _ _ (Or.inr ⟨h3, h2⟩)
        · simp [hst, U_FAILURE, hs]
      · simp [U_FAILURE, hst]
    · simp

theorem parseLoop_ne_outOfFuel (data : UnicodeString) (fuel : Nat) :
    ∀ (idx : Nat) (tok : UnicodeString) (ty prev : tokenType) (st : ParseState),
      data.length - idx ≤ fuel →
      PluralRules.parseLoop data fuel idx tok ty prev st ≠ Outcome.outOfFuel := by
  induction fuel with
  | zero =>
    intro idx tok ty prev st hf
    unfold PluralRules.parseLoop
    rw [if_neg (by omega)]
    simp
  | succ fuel ih =>
    intro idx tok ty prev st hf
    unfold PluralRules.parseLoop
    split
    · rename_i hidx
      simp only []
      have hadv := getNextToken_advance data idx hidx tok ty UErrorCode.U_ZERO_ERROR
      generalize RuleParser.getNextToken data idx tok ty UErrorCode.U_ZERO_ERROR = r at hadv
      by_cases hst : r.status = UErrorCode.U_ZERO_ERROR
      · have hr := hadv hst
        split
        · simp
        · split
          · simp
          · split
            · simp
            · exact ih _ _ _ _ _ (by omega)
      · simp [U_FAILURE, hst]
    · simp

/-! ## Lemmas for the divisor of a predicate -/

theorem mem_modifyLast {α : Type} (f : α → α) (l : List α) (x : α)
    (h : x ∈ modifyLast f l) : x ∈ l ∨ ∃ y ∈ l, x = f y := by
  induction l with
  | nil => simp [modifyLast] at h
  | cons a l ih =>
    cases l with
    | nil =>
      simp only [modifyLast, List.mem_singleton] at h
      exact Or.inr ⟨a, List.mem_cons_self _ _, h⟩
    | cons b l =>
      simp only [modifyLast, List.mem_cons] at h
      rcases h with h | h
      · exact Or.inl (h ▸ List.mem_cons_self _ _)
      · rcases ih (by simpa [List.mem_cons] using h) with h1 | ⟨y, hy, hxy⟩
        · exact Or.inl (List.mem_cons_of_mem _ h1)
        · exact Or.inr ⟨y, List.mem_cons_of_mem _ hy, hxy⟩

theorem mem_modifyAt {α : Type} (f : α → α) (i : Nat) (l : List α) (x : α)
    (h : x ∈ modifyAt f i l) : x ∈ l ∨ ∃ y ∈ l, x = f y := by
  induction l generalizing i with
  | nil => cases i <;> simp [modifyAt] at h
  | cons a l ih =>
    cases i with
    | zero =>
      simp only [modifyAt, List.mem_cons] at h
      rcases h with h | h
      · exact Or.inr ⟨a, List.mem_cons_self _ _, h⟩
      · exact Or.inl (List.mem_cons_of_mem _ h)
    | succ i =>
      simp only [modifyAt, List.mem_cons] at h
      rcases h with h | h
      · exact Or.inl (h ▸ List.mem_cons_self _ _)
      · rcases ih i h with h1 | ⟨y, hy, hxy⟩
        · exact Or.inl (List.mem_cons_of_mem _ h1)
        · exact Or.inr ⟨y, List.mem_cons_of_mem _ hy, hxy⟩

theorem allPredicates_modify (P : AndConstraint → Prop)
    (g : List AndConstraint → List AndConstraint)
    (hg : ∀ l, (∀ c ∈ l, P c) → ∀ c ∈ g l, P c) (i : Nat) (rules : List RuleChain)
    (h : RuleChain.allPredicates P rules) :
    RuleChain.allPredicates P (modifyAt (RuleChain.onLastOr g) i rules) := by
  intro node hnode o ho c hc
  rcases mem_modifyAt _ _ _ _ hnode with h1 | ⟨node0, hn0, rfl⟩
  · exact h node h1 o ho c hc
  · simp only [RuleChain.onLastOr] at ho
    rcases mem_modifyLast _ _ _ ho with h2 | ⟨o0, ho0, rfl⟩
    · exact h node0 hn0 o h2 c hc
    · exact hg _ (h node0 hn0 o0 ho0) c hc

theorem allPredicates_assign (P : AndConstraint → Prop) (f : AndConstraint → AndConstraint)
    (hf : ∀ c, P c → P (f c)) (st st1 : ParseState)
    (h : RuleChain.allPredicates P st.rules) (heq : st.assign f = some st1) :
    RuleChain.allPredicates P st1.rules := by
  unfold ParseState.assign at heq
  cases hc : st.curAndConstraint with
  | none => rw [hc] at heq; cases heq
  | some i =>
    rw [hc] at heq
    simp only [Option.some.injEq] at heq
    subst heq
    apply allPredicates_modify P _ _ i st.rules h
    intro l hl c hcl
    rcases mem_modifyLast _ _ _ hcl with h1 | ⟨y, hy, rfl⟩
    · exact hl c h1
    · exact hf y (hl y hy)

theorem modifyLast_modifyLast {α : Type} (f g : α → α) (l : List α) :
    modifyLast g (modifyLast f l) = modifyLast (fun x => g (f x)) l := by
  induction l with
  | nil => rfl
  | cons a l ih =>
    cases l with
    | nil => rfl
    | cons b l =>
      have hne : modifyLast f (b :: l) ≠ [] := by
        intro h
        exact absurd ((modifyLast_eq_nil f (b :: l)).1 h) (by simp)
      rw [modifyLast, modifyLast, ← ih]
      cases hm : modifyLast f (b :: l) with
      | nil => exact absurd hm hne
      | cons c m => rw [modifyLast]

theorem modifyAt_modifyAt {α : Type} (f g : α → α) (i : Nat) (l : List α) :
    modifyAt g i (modifyAt f i l) = modifyAt (fun x => g (f x)) i l := by
  induction l generalizing i with
  | nil => cases i <;> rfl
  | cons a l ih =>
    cases i with
    | zero => rfl
    | succ i => simp [modifyAt, ih]

theorem onLastOr_onLastOr (f g : List AndConstraint → List AndConstraint) (node : RuleChain) :
    RuleChain.onLastOr g (RuleChain.onLastOr f node)
      = RuleChain.onLastOr (fun l => g (f l)) node := by
  simp [RuleChain.onLastOr, modifyLast_modifyLast]

theorem assign_assign (st st1 st2 : ParseState) (f g : AndConstraint → AndConstraint)
    (h1 : st.assign f = some st1) (h2 : st1.assign g = some st2) :
    st.assign (fun c => g (f c)) = some st2 := by
  unfold ParseState.assign at h1 h2 ⊢
  cases hc : st.curAndConstraint with
  | none => rw [hc] at h1; cases h1
  | some i =>
    rw [hc] at h1
    simp only [Option.some.injEq] at h1
    subst h1
    simp only [hc, Option.some.injEq] at h2
    subst h2
    simp only [modifyAt_modifyAt, onLastOr_onLastOr, modifyLast_modifyLast]

theorem divisorSet_new : AndConstraint.divisorSet AndConstraint.new := by
  constructor
  · intro _; rfl
  · intro h; cases h

theorem divisorSet_storeNumber (v : Int) (c : AndConstraint) (h : c.divisorSet) :
    (PluralRules.storeNumber v c).divisorSet := by
  unfold PluralRules.storeNumber
  split
  · rename_i hc
    have := h.2 hc.1
    omega
  · split <;> exact h

theorem divisorSet_storeNumber_mod (v : Int) (hv : 0 < v) (c : AndConstraint)
    (h : c.divisorSet) :
    (PluralRules.storeNumber v { c with op := RuleOp.MOD }).divisorSet := by
  unfold PluralRules.storeNumber
  simp only [true_and]
  split
  · exact And.intro (fun ho => by cases ho) (fun _ => hv)
  · rename_i hne
    have hop : c.op = RuleOp.MOD := by
      cases ho : c.op with
      | NONE => exact absurd (h.1 ho) hne
      | MOD => rfl
    have hpos := h.2 hop
    split
    · exact And.intro (fun ho => by cases ho) (fun _ => hpos)
    · exact And.intro (fun ho => by cases ho) (fun _ => hpos)

theorem parseToken_divisorsFit_plain (type : tokenType) (st st1 : ParseState)
    (token : UnicodeString)
    (hfit : RuleChain.allPredicates AndConstraint.divisorSet st.rules)
    (heq : PluralRules.parseToken st type token = some st1) :
    ParseState.divisorsFit type st1 := by
  cases type
  case tMod =>
    simp only [ParseState.divisorsFit, if_true]
    intro v st2 hv h2
    simp only [PluralRules.parseToken] at heq
    have h3 := assign_assign st st1 st2 _ _ heq h2
    refine allPredicates_assign _ _ ?_ st st2 hfit h3
    intro c hc
    exact divisorSet_storeNumber_mod v hv c hc
  case tNumber =>
    simp only [ParseState.divisorsFit, reduceCtorEq, if_false]
    simp only [PluralRules.parseToken] at heq
    refine allPredicates_assign _ _ ?_ st st1 hfit heq
    intro c hc
    exact divisorSet_storeNumber _ c hc
  case tAnd =>
    simp only [ParseState.divisorsFit, reduceCtorEq, if_false]
    simp only [PluralRules.parseToken] at heq
    cases hc : st.curAndConstraint with
    | none => rw [hc] at heq; cases heq
    | some i =>
      rw [hc] at heq
      simp only [Option.some.injEq] at heq
      subst heq
      apply allPredicates_modify _ _ _ i st.rules hfit
      intro l hl c hcl
      simp only [List.mem_append, List.mem_singleton] at hcl
      rcases hcl with h1 | rfl
      · exact hl c h1
      · exact divisorSet_new
  case tOr =>
    simp only [ParseState.divisorsFit, reduceCtorEq, if_false]
    simp only [PluralRules.parseToken] at heq
    cases hr : st.rules with
    | nil => rw [hr] at heq; cases heq
    | cons head next =>
      rw [hr] at heq hfit
      by_cases hne : head.ruleHeader = []
      · simp [hne] at heq
      · simp only [hne, if_false, Option.some.injEq] at heq
        subst heq
        intro node hnode o ho c hc
        simp only [List.mem_cons] at hnode
        rcases hnode with rfl | hnode
        · simp only [List.mem_append, List.mem_singleton] at ho
          rcases ho with ho | rfl
          · exact hfit head (List.mem_cons_self _ _) o ho c hc
          · simp only [List.mem_singleton] at hc
            subst hc
            exact divisorSet_new
        · exact hfit node (List.mem_cons_of_mem _ hnode) o ho c hc
  case tKeyword =>
    simp only [ParseState.divisorsFit, reduceCtorEq, if_false]
    simp only [PluralRules.parseToken] at heq
    cases hk : st.ruleChain with
    | none =>
      rw [hk] at heq
      cases hr : st.rules with
      | nil => rw [hr] at heq; cases heq
      | cons head next =>
        rw [hr] at heq hfit
        simp only [Option.some.injEq] at heq
        subst heq
        intro node hnode o ho c hc
        simp only [List.mem_cons] at hnode
        rcases hnode with rfl | hnode
        · simp only [List.mem_singleton] at ho
          subst ho
          simp only [List.mem_singleton] at hc
          subst hc
          exact divisorSet_new
        · exact hfit node (List.mem_cons_of_mem _ hnode) o ho c hc
    | some k =>
      rw [hk] at heq
      simp only [Option.some.injEq] at heq
      subst heq
      intro node hnode o ho c hc
      simp only [List.mem_append, List.mem_singleton] at hnode
      rcases hnode with hnode | rfl
      · exact hfit node hnode o ho c hc
      · simp only [List.mem_singleton] at ho
        subst ho
        simp only [List.mem_singleton] at hc
        subst hc
        exact divisorSet_new
  case tIs =>
    simp only [ParseState.divisorsFit, reduceCtorEq, if_false]
    refine allPredicates_assign _ _ ?_ st st1 hfit heq
    exact fun c hc => hc
  case tNot =>
    simp only [ParseState.divisorsFit, reduceCtorEq, if_false]
    refine allPredicates_assign _ _ ?_ st st1 hfit heq
    exact fun c hc => hc
  case tIn =>
    simp only [ParseState.divisorsFit, reduceCtorEq, if_false]
    refine allPredicates_assign _ _ ?_ st st1 hfit heq
    exact fun c hc => hc
  all_goals
    simp only [ParseState.divisorsFit, reduceCtorEq, if_false]
    simp only [PluralRules.parseToken, Option.some.injEq] at heq
    subst heq
    exact hfit

theorem parseToken_divisorsFit (prev type : tokenType) (st st1 : ParseState)
    (token : UnicodeString) (hfit : ParseState.divisorsFit prev st)
    (hmod : prev = tokenType.tMod →
      type = tokenType.tNumber ∧ 0 < PluralRules.getNumberValue token)
    (heq : PluralRules.parseToken st type token = some st1) :
    ParseState.divisorsFit type st1 := by
  by_cases hp : prev = tokenType.tMod
  · obtain ⟨ht, hv⟩ := hmod hp
    subst ht
    simp only [ParseState.divisorsFit, hp, if_true] at hfit
    simp only [ParseState.divisorsFit, reduceCtorEq, if_false]
    simp only [PluralRules.parseToken] at heq
    exact hfit _ st1 hv heq
  · simp only [ParseState.divisorsFit, hp, if_false] at hfit
    exact parseToken_divisorsFit_plain type st st1 token hfit heq

theorem getNumberValue_pos (token : UnicodeString)
    (hr : PluralRules.representable token = true) (hp : 0 < atoi token 0) :
    0 < PluralRules.getNumberValue token := by
  simp only [PluralRules.representable, Bool.and_eq_true, decide_eq_true_eq] at hr
  unfold PluralRules.getNumberValue
  rw [toInt32_of_le _ hr.2]
  omega

theorem buildFrom_divisorSet (toks : List (tokenType × UnicodeString)) :
    ∀ (prev : tokenType) (st st1 : ParseState), ParseState.divisorsFit prev st →
      (prev = tokenType.tMod →
        ∃ u rest, toks = u :: rest ∧ u.1 = tokenType.tNumber ∧ 0 < atoi u.2 0) →
      PluralRules.divisorsWritten toks = true →
      PluralRules.buildFrom st toks = some st1 →
      RuleChain.allPredicates AndConstraint.divisorSet st1.rules := by
  induction toks with
  | nil =>
    intro prev st st1 hfit hmod _ heq
    simp only [PluralRules.buildFrom, Option.some.injEq] at heq
    subst heq
    have hp : ¬ prev = tokenType.tMod := by
      intro h
      obtain ⟨u, rest, h0, _⟩ := hmod h
      cases h0
    simpa only [ParseState.divisorsFit, hp, if_false] using hfit
  | cons t toks ih =>
    intro prev st st1 hfit hmod hw heq
    simp only [PluralRules.divisorsWritten, Bool.and_eq_true] at hw
    obtain ⟨⟨hnum, hnext⟩, hrest⟩ := hw
    simp only [PluralRules.buildFrom] at heq
    cases hs : PluralRules.parseToken st t.1 t.2 with
    | none => rw [hs] at heq; cases heq
    | some st2 =>
      rw [hs] at heq
      have hstep : ParseState.divisorsFit t.1 st2 := by
        refine parseToken_divisorsFit prev t.1 st st2 t.2 hfit ?_ hs
        intro hp
        obtain ⟨u, rest, h0, hu, hpos⟩ := hmod hp
        simp only [List.cons.injEq] at h0
        obtain ⟨rfl, rfl⟩ := h0
        simp only [hu, if_true] at hnum
        exact ⟨hu, getNumberValue_pos _ hnum hpos⟩
      refine ih t.1 st2 st1 hstep ?_ hrest heq
      intro ht
      simp only [ht, if_true] at hnext
      cases toks with
      | nil => simp at hnext
      | cons u rest =>
        simp only [decide_eq_true_eq] at hnext
        exact ⟨u, rest, rfl, hnext.1, hnext.2⟩

theorem parseLoop_buildFrom (data : UnicodeString) (fuel : Nat) :
    ∀ (idx : Nat) (tok : UnicodeString) (ty prev : tokenType) (st : ParseState)
      (rules : List RuleChain),
      PluralRules.parseLoop data fuel idx tok ty prev st = Outcome.ok rules →
      ∃ st1, PluralRules.buildFrom st (RuleParser.tokensFrom data fuel idx tok ty) = some st1 ∧
        st1.rules = rules := by
  induction fuel with
  | zero =>
    intro idx tok ty prev st rules heq
    unfold PluralRules.parseLoop at heq
    unfold RuleParser.tokensFrom
    split at heq
    · cases heq
    · rename_i hidx
      cases heq
      simp only [hidx, if_false]
      exact ⟨st, rfl, rfl⟩
  | succ fuel ih =>
    intro idx tok ty prev st rules heq
    unfold PluralRules.parseLoop at heq
    unfold RuleParser.tokensFrom
    split at heq
    · rename_i hidx
      simp only [hidx, if_true]
      simp only [] at heq
      split at heq
      · cases heq
      · rename_i hst
        split at heq
        · cases heq
        · split at heq
          · cases heq
          · rename_i st2 hst2
            obtain ⟨st1, h1, h2⟩ := ih _ _ _ _ _ _ heq
            refine ⟨st1, ?_, h2⟩
            simp only [hst, Bool.false_eq_true, if_false, PluralRules.buildFrom, hst2]
            exact h1
    · rename_i hidx
      cases heq
      simp only [hidx, if_false]
      exact ⟨st, rfl, rfl⟩

theorem parseDescription_divisorSet (description : UnicodeString) (rules : List RuleChain)
    (h : PluralRules.parseDescription description = Outcome.ok rules)
    (hw : PluralRules.divisorsWritten (RuleParser.tokens description) = true) :
    RuleChain.allPredicates AndConstraint.divisorSet rules := by
  unfold PluralRules.parseDescription at h
  obtain ⟨st1, h1, h2⟩ := parseLoop_buildFrom _ _ _ _ _ _ _ _ h
  rw [← h2]
  refine buildFrom_divisorSet _ tokenType.none _ st1 ?_ (fun hp => by cases hp) hw h1
  simp only [ParseState.divisorsFit, reduceCtorEq, if_false]
  intro node hnode o ho
  simp only [List.mem_singleton] at hnode
  subst hnode
  simp [RuleChain.new] at ho

/-! ## Lemmas for the evaluation with the undefined remainder -/

theorem isFulfilledChecked_of_defined (c : AndConstraint) (number : Int)
    (h : c.remainderDefined number = true) :
    c.isFulfilledChecked number = some (c.isFulfilled number) := by
  simp [AndConstraint.isFulfilledChecked, h]

theorem andLoopChecked_eq (number : Int) (l : List AndConstraint) (result : Bool)
    (h : ∀ c ∈ l, c.remainderDefined number = true) :
    OrConstraint.andLoopChecked number l result
      = some (OrConstraint.andLoop number l result) := by
  induction l generalizing result with
  | nil => rfl
  | cons c l ih =>
    cases result
    · simp [OrConstraint.andLoopChecked, OrConstraint.andLoop]
    · simp only [OrConstraint.andLoopChecked, OrConstraint.andLoop, if_true,
        isFulfilledChecked_of_defined c number (h c (List.mem_cons_self _ _))]
      exact ih _ (fun c hc => h c (List.mem_cons_of_mem _ hc))

theorem orLoopChecked_eq (number : Int) (l : List OrConstraint) (result : Bool)
    (h : ∀ o ∈ l, ∀ c ∈ o.childNode, c.remainderDefined number = true) :
    OrConstraint.orLoopChecked number l result
      = some (OrConstraint.orLoop number l result) := by
  induction l generalizing result with
  | nil => rfl
  | cons o l ih =>
    cases result
    · simp only [OrConstraint.orLoopChecked, OrConstraint.orLoop, Bool.not_false, if_true,
        andLoopChecked_eq number o.childNode true (h o (List.mem_cons_self _ _))]
      exact ih _ (fun o ho => h o (List.mem_cons_of_mem _ ho))
    · simp [OrConstraint.orLoopChecked, OrConstraint.orLoop]

theorem ruleChain_selectChecked_eq (l : List RuleChain) (number : Int)
    (h : ∀ node ∈ l, ∀ o ∈ node.ruleHeader, ∀ c ∈ o.childNode,
      c.remainderDefined number = true) :
    RuleChain.selectChecked l number = some (RuleChain.select l number) := by
  induction l with
  | nil => rfl
  | cons this next ih =>
    have ihn := ih (fun node hn => h node (List.mem_cons_of_mem _ hn))
    have ho := orLoopChecked_eq number this.ruleHeader false (h this (List.mem_cons_self _ _))
    by_cases hne : this.ruleHeader = []
    · simp [RuleChain.selectChecked, RuleChain.select, hne, ihn]
    · simp only [RuleChain.selectChecked, RuleChain.select, OrConstraint.isFulfilledChecked,
        OrConstraint.isFulfilled, ho, ne_eq, hne, not_false_eq_true, if_true, true_and]
      cases OrConstraint.orLoop number this.ruleHeader false
      · simpa using ihn
      · simp

theorem selectChecked_eq (R : PluralRules) (number : Int)
    (h : ∀ node ∈ R.mRules, ∀ o ∈ node.ruleHeader, ∀ c ∈ o.childNode,
      c.remainderDefined number = true) :
    R.selectChecked number = some (R.select number) := by
  unfold PluralRules.selectChecked PluralRules.select
  by_cases hm : R.mRules = []
  · simp [hm]
  · simp only [hm, if_false]
    exact ruleChain_selectChecked_eq _ _ h

theorem compareLoopChecked_eq (a b : PluralRules) (l : List Nat)
    (ha : ∀ i : Nat, ∀ node ∈ a.mRules, ∀ o ∈ node.ruleHeader, ∀ c ∈ o.childNode,
      c.remainderDefined (Int.ofNat i) = true)
    (hb : ∀ i : Nat, ∀ node ∈ b.mRules, ∀ o ∈ node.ruleHeader, ∀ c ∈ o.childNode,
      c.remainderDefined (Int.ofNat i) = true) :
    PluralRules.compareLoopChecked a b l = some (PluralRules.compareLoop a b l) := by
  induction l with
  | nil => rfl
  | cons i l ih =>
    simp only [PluralRules.compareLoopChecked, PluralRules.compareLoop,
      selectChecked_eq a _ (ha i), selectChecked_eq b _ (hb i)]
    split
    · rfl
    · exact ih

theorem operatorEqChecked_eq (a b : PluralRules) (sameObject : Bool)
    (ha : ∀ i : Nat, ∀ node ∈ a.mRules, ∀ o ∈ node.ruleHeader, ∀ c ∈ o.childNode,
      c.remainderDefined (Int.ofNat i) = true)
    (hb : ∀ i : Nat, ∀ node ∈ b.mRules, ∀ o ∈ node.ruleHeader, ∀ c ∈ o.childNode,
      c.remainderDefined (Int.ofNat i) = true) :
    PluralRules.operatorEqChecked a b sameObject
      = some (PluralRules.operatorEq a b sameObject) := by
  have hs : PluralRules.compareSamplesChecked a b = some (PluralRules.compareSamples a b) := by
    unfold PluralRules.compareSamplesChecked PluralRules.compareSamples
    simp only []
    split
    · rfl
    · exact compareLoopChecked_eq a b _ ha hb
  unfold PluralRules.operatorEqChecked PluralRules.operatorEq
  simp only [hs]
  split
  · rfl
  · split
    · rfl
    · split <;> rfl

theorem remainderDefined_of_nonzero (rules : List RuleChain)
    (h : RuleChain.divisorsNonzero rules = true) (i : Nat) :
    ∀ node ∈ rules, ∀ o ∈ node.ruleHeader, ∀ c ∈ o.childNode,
      c.remainderDefined (Int.ofNat i) = true := by
  intro node hnode o ho c hc
  simp only [RuleChain.divisorsNonzero, List.all_eq_true, decide_eq_true_eq] at h
  have h0 := h node hnode o ho c hc
  simp only [AndConstraint.remainderDefined, decide_eq_true_eq]
  intro hop
  refine ⟨h0 hop, ?_⟩
  rintro ⟨h1, _⟩
  have h2 : (0 : Int) ≤ Int.ofNat i := Int.ofNat_nonneg i
  rw [h1] at h2
  exact absurd h2 (by decide)

theorem remainderDefined_of_divisorSet (rules : List RuleChain)
    (h : RuleChain.allPredicates AndConstraint.divisorSet rules) (number : Int) :
    ∀ node ∈ rules, ∀ o ∈ node.ruleHeader, ∀ c ∈ o.childNode,
      c.remainderDefined number = true := by
  intro node hnode o ho c hc
  have h0 := (h node hnode o ho c hc).2
  simp only [AndConstraint.remainderDefined, decide_eq_true_eq]
  intro hop
  have := h0 hop
  constructor
  · omega
  · rintro ⟨_, h2⟩
    omega

theorem mem_setRepeatLimit (l : List RuleChain) (node : RuleChain)
    (h : node ∈ RuleChain.setRepeatLimit l) :
    ∃ node0 ∈ l, node.ruleHeader = node0.ruleHeader := by
  induction l with
  | nil => simp [RuleChain.setRepeatLimit] at h
  | cons this next ih =>
    simp only [RuleChain.setRepeatLimit, List.mem_cons] at h
    rcases h with h | h
    · exact ⟨this, List.mem_cons_self _ _, by rw [h]⟩
    · obtain ⟨n0, hn0, he⟩ := ih h
      exact ⟨n0, List.mem_cons_of_mem _ hn0, he⟩

theorem copy_eq_self (R T : PluralRules) :
    PluralRules.copyConstruct R = R ∧ PluralRules.clone R = R ∧
      PluralRules.operatorAssign T R false = R := by
  have h : ∀ T : PluralRules, PluralRules.operatorAssign T R false = R := by
    intro T
    have hm := operatorAssign_mRules T R
    cases hT : PluralRules.operatorAssign T R false with
    | mk m =>
      rw [hT] at hm
      cases R
      simp only at hm
      rw [hm]
  unfold PluralRules.clone PluralRules.copyConstruct
  exact ⟨h _, h _, h T⟩

theorem selectChecked_instanceOf (rules : List RuleChain)
    (h : RuleChain.allPredicates AndConstraint.divisorSet rules) (number : Int) :
    (instanceOf rules).selectChecked number = some ((instanceOf rules).select number) := by
  apply selectChecked_eq
  intro node hnode o ho c hc
  obtain ⟨node0, hn0, he⟩ := mem_setRepeatLimit rules node hnode
  rw [he] at ho
  exact remainderDefined_of_divisorSet rules h number node0 hn0 o ho c hc

/-! ## Lemmas for spaces at the start of a description -/

theorem getNextToken_type_irrelevant (data : List Char) (hne : data ≠ [])
    (tok : UnicodeString) (ty1 ty2 : tokenType) (st : UErrorCode) :
    RuleParser.getNextToken data 0 tok ty1 st = RuleParser.getNextToken data 0 tok ty2 st ∨
      ((RuleParser.getNextToken data 0 tok ty1 st).status = UErrorCode.U_ILLEGAL_CHARACTER ∧
        (RuleParser.getNextToken data 0 tok ty2 st).status = UErrorCode.U_ILLEGAL_CHARACTER) := by
  cases data with
  | nil => exact absurd rfl hne
  | cons ch rest =>
    unfold RuleParser.getNextToken
    rw [List.drop_zero]
    by_cases hcap : 'A'.toNat ≤ ch.toNat ∧ ch.toNat ≤ 'Z'.toNat
    · right
      have hi : ∀ ty, RuleParser.inRange ch ty = (false, ty) := by
        intro ty
        unfold RuleParser.inRange
        rw [if_pos hcap]
      rw [RuleParser.getNextTokenLoop, RuleParser.getNextTokenLoop]
      simp [hi]
    · left
      have hi : RuleParser.inRange ch ty1 = RuleParser.inRange ch ty2 := by
        unfold RuleParser.inRange
        rw [if_neg hcap, if_neg hcap]
      rw [RuleParser.getNextTokenLoop, RuleParser.getNextTokenLoop, hi]

theorem parseFrom_type_irrelevant (data : List Char) (tok : UnicodeString)
    (ty1 ty2 prev : tokenType) (st : ParseState) :
    PluralRules.parseFrom data tok ty1 prev st = PluralRules.parseFrom data tok ty2 prev st := by
  by_cases hne : data = []
  · subst hne
    rw [parseFrom_nil, parseFrom_nil]
  · rw [parseFrom_step data hne, parseFrom_step data hne]
    rcases getNextToken_type_irrelevant data hne tok ty1 ty2 UErrorCode.U_ZERO_ERROR with h | h
    · rw [h]
    · simp [h.1, h.2, U_FAILURE]

theorem parseDescription_leading_space (t : UnicodeString) (hne : t ≠ []) :
    PluralRules.parseDescription (' ' :: t) = PluralRules.parseDescription t := by
  have hl : UnicodeString.toLower (' ' :: t) = ' ' :: UnicodeString.toLower t := by
    simp [UnicodeString.toLower]
  have hne1 : UnicodeString.toLower t ≠ [] := by
    simpa [UnicodeString.toLower] using hne
  rw [parseDescription_eq_parseFrom, parseDescription_eq_parseFrom, hl,
    parseFrom_space _ hne1]
  exact parseFrom_type_irrelevant _ _ _ _ _ _

theorem parseDescription_leading_spaces (n : Nat) (t : UnicodeString) (hne : t ≠ []) :
    PluralRules.parseDescription (List.replicate n ' ' ++ t)
      = PluralRules.parseDescription t := by
  induction n with
  | zero => simp
  | succ n ih =>
    rw [List.replicate_succ, List.cons_append, parseDescription_leading_space _ (by simp [hne]),
      ih]

/-- Computed with the total remainder, `operator==` gives true on a rule set
and its copy, whether the copy is made by the copy constructor, by `clone`, or
by assignment to another object. -/
theorem operatorEq_copy (R T : PluralRules) :
    PluralRules.operatorEq R (PluralRules.copyConstruct R) false = true ∧
    PluralRules.operatorEq R (PluralRules.clone R) false = true ∧
    PluralRules.operatorEq R (PluralRules.operatorAssign T R false) false = true := by
  have h : ∀ T : PluralRules, PluralRules.operatorAssign T R false = R := by
    intro T
    have hm := operatorAssign_mRules T R
    cases hT : PluralRules.operatorAssign T R false with
    | mk m =>
      rw [hT] at hm
      cases R
      simp only at hm
      rw [hm]
  unfold PluralRules.clone PluralRules.copyConstruct
  rw [h, h]
  exact ⟨operatorEq_self_value R, operatorEq_self_value R, operatorEq_self_value R⟩

/-! ## Claims -/

/-- Claim C1: for every rule chain and every integer, `RuleChain::select`
returns the keyword of the first entry, in declaration order, whose disjunction
is satisfied (at least one conjunction with all predicates fulfilled), and
"other" when no entry is satisfied. -/
theorem ruleChain_select_eq_selectSpec (chain : List RuleChain) (number : Int) :
    RuleChain.select chain number = RuleChain.selectSpec chain number := by
  induction chain with
  | nil => rfl
  | cons this next ih =>
    rw [ruleChain_select_cons, ih]
    unfold RuleChain.selectSpec
    by_cases h : OrConstraint.satisfiedSpec this.ruleHeader number = true
    · simp [List.find?, h]
    · simp [List.find?, h]

/-- Claim C2: for a non-negative number (and a positive divisor when modulo is
used) `AndConstraint::isFulfilled` is the evaluation the specification gives:
the value is the number, reduced modulo `opNum` when modulo is used; without an
upper bound the test is "lower bound unset or value equal to it", otherwise
membership in the closed range; `notIn` negates the result. -/
theorem andConstraint_isFulfilled_eq_evaluateSpec (c : AndConstraint) (number : Int)
    (hn : 0 ≤ number) (hop : c.op = RuleOp.MOD → 0 < c.opNum) :
    c.isFulfilled number = c.evaluateSpec number :=
  isFulfilled_eq_evaluateSpec_of_nonneg c number hn hop

/-- Witness for claim C2: the predicate `n mod 10 in 2..4` at the number 23. -/
theorem andConstraint_isFulfilled_eq_evaluateSpec_witness :
    AndConstraint.isFulfilled
        { op := RuleOp.MOD, opNum := 10, rangeLow := 2, rangeHigh := 4, notIn := false } 23
      = AndConstraint.evaluateSpec
        { op := RuleOp.MOD, opNum := 10, rangeLow := 2, rangeHigh := 4, notIn := false } 23 :=
  andConstraint_isFulfilled_eq_evaluateSpec
    { op := RuleOp.MOD, opNum := 10, rangeLow := 2, rangeHigh := 4, notIn := false } 23
    (by decide) (by intro _; decide)

/-- Claim C3: `createRules` accepts "one: n is 1; few: n in 2..4; other: n", and
the rule set it returns selects "one" at 1, "few" at 3, "other" at 5 and at 0;
for every integer it selects "one" iff the number is 1, "few" iff it lies in
2..4, and "other" otherwise. -/
theorem createRules_first_match_wins (hash : Hashtable) :
    ∃ R : PluralRules,
      (PluralRules.createRules hash "one: n is 1; few: n in 2..4; other: n".toList).2
        = Outcome.ok R ∧
      R.select 1 = ['o', 'n', 'e'] ∧ R.select 3 = ['f', 'e', 'w'] ∧
      R.select 5 = ['o', 't', 'h', 'e', 'r'] ∧ R.select 0 = ['o', 't', 'h', 'e', 'r'] ∧
      ∀ n : Int,
        (R.select n = ['o', 'n', 'e'] ↔ n = 1) ∧
        (R.select n = ['f', 'e', 'w'] ↔ 2 ≤ n ∧ n ≤ 4) ∧
        (R.select n = ['o', 't', 'h', 'e', 'r'] ↔ ¬ n = 1 ∧ ¬ (2 ≤ n ∧ n ≤ 4)) := by
  have hp : PluralRules.parseDescription "one: n is 1; few: n in 2..4; other: n".toList
      = Outcome.ok
        [⟨['o', 'n', 'e'], [⟨[⟨RuleOp.NONE, -1, 1, -1, false⟩]⟩], 0⟩,
         ⟨['f', 'e', 'w'], [⟨[⟨RuleOp.NONE, -1, 2, 4, false⟩]⟩], 0⟩,
         ⟨['o', 't', 'h', 'e', 'r'], [⟨[⟨RuleOp.NONE, -1, -1, -1, false⟩]⟩], 0⟩] := by decide!
  refine ⟨_, createRules_of_parse hash _ _ hp, by decide!, by decide!, by decide!,
    by decide!, ?_⟩
  intro n
  have hsel : ∀ l : List RuleChain, l ≠ [] →
      PluralRules.select { mRules := RuleChain.setRepeatLimit l } n = RuleChain.select l n := by
    intro l hl
    simp [PluralRules.select, setRepeatLimit_eq_nil, hl,
      select_setRepeatLimit]
  rw [hsel _ (by simp)]
  rw [ruleChain_select_cons, ruleChain_select_cons, ruleChain_select_cons,
    ruleChain_select_nil]
  simp only [OrConstraint.satisfiedSpec, AndConstraint.isFulfilled, List.any_cons,
    List.any_nil, List.all_cons, List.all_nil, PLURAL_KEYWORD_OTHER]
  by_cases h1 : n = 1
  · subst h1; simp
  · by_cases h2 : 2 ≤ n ∧ n ≤ 4
    · simp [h1, h2]
    · simp [h1, h2]

/-- Claim C6: the rule set `createDefaultRules` builds from "other: n" selects
"other" for every integer, zero and the negative ones included. -/
theorem createDefaultRules_select_other (hash : Hashtable) :
    ∃ R : PluralRules,
      (PluralRules.createDefaultRules hash).2 = Outcome.ok R ∧
      ∀ i : Int, R.select i = ['o', 't', 'h', 'e', 'r'] := by
  have hp : PluralRules.parseDescription PLURAL_DEFAULT_RULE
      = Outcome.ok [⟨['o', 't', 'h', 'e', 'r'], [⟨[⟨RuleOp.NONE, -1, -1, -1, false⟩]⟩], 0⟩] := by
    decide!
  refine ⟨_, createRules_of_parse hash _ _ hp, ?_⟩
  intro i
  simp [PluralRules.select, RuleChain.setRepeatLimit, RuleChain.select,
    OrConstraint.isFulfilled, OrConstraint.orLoop, OrConstraint.andLoop,
    AndConstraint.isFulfilled]

/-- Claim C7 (what the code does): an instance without a chain (`mRules` null)
returns from `PluralRules::select` the text of the default rule, "other: n",
for every integer; it is not the keyword "other". -/
theorem select_without_rules (number : Int) :
    PluralRules.select { mRules := [] } number = "other: n".toList ∧
    PluralRules.select { mRules := [] } number ≠ PLURAL_KEYWORD_OTHER := by
  constructor
  · simp [PluralRules.select, PLURAL_DEFAULT_RULE]
  · simp [PluralRules.select, PLURAL_DEFAULT_RULE, PLURAL_KEYWORD_OTHER]

/-- Claim C8, refuted as stated: the rule sets of "one: n is 1" and of
"one: n is 1 and n mod 5 is 1" have the same keywords and select the same
keyword at every integer of `[0, max limit]`, yet `operator==` answers false,
because their repeat limits (1 and 5) differ. -/
theorem operatorEq_claim_counterexample :
    ∃ a b : PluralRules,
      (PluralRules.createRules [] "one: n is 1".toList).2 = Outcome.ok a ∧
      (PluralRules.createRules [] "one: n is 1 and n mod 5 is 1".toList).2 = Outcome.ok b ∧
      ¬ (PluralRules.operatorEq a b false = true ↔
          ((∀ kw, kw ∈ a.getKeywords ↔ kw ∈ b.getKeywords) ∧
            ∀ i : Int, 0 ≤ i → i ≤ max a.getRepeatLimit b.getRepeatLimit →
              a.select i = b.select i)) := by
  have hp1 : PluralRules.parseDescription "one: n is 1".toList = Outcome.ok chainOneIs1 := by
    decide!
  have hp2 : PluralRules.parseDescription "one: n is 1 and n mod 5 is 1".toList
      = Outcome.ok chainOneIs1Mod5 := by decide!
  refine ⟨instanceOf chainOneIs1, instanceOf chainOneIs1Mod5,
    createRules_of_parse [] _ _ hp1, createRules_of_parse [] _ _ hp2, ?_⟩
  intro h
  have hfalse : ¬ (PluralRules.operatorEq (instanceOf chainOneIs1)
      (instanceOf chainOneIs1Mod5) false = true) := by decide!
  apply hfalse
  rw [h]
  constructor
  · intro kw
    have hk : (instanceOf chainOneIs1).getKeywords
        = (instanceOf chainOneIs1Mod5).getKeywords := by decide!
    rw [hk]
  · intro i h0 h5
    have hmax : max (instanceOf chainOneIs1).getRepeatLimit
        (instanceOf chainOneIs1Mod5).getRepeatLimit = 5 := by decide!
    rw [hmax] at h5
    interval_cases i <;> decide!

/-- Claim C8, amended: for two distinct instances whose keyword enumerations
have the same count, `operator==` answers true iff the two keyword sets are
identical ("other" counted in both), the two repeat limits are equal, and the
two instances select the same keyword at every integer `i` with
`0 ≤ i < repeatLimit`. -/
theorem operatorEq_iff_of_count_eq (a b : PluralRules)
    (hcount : a.getKeywords.length = b.getKeywords.length) :
    PluralRules.operatorEq a b false = true ↔
      ((∀ kw, kw ∈ a.getKeywords ↔ kw ∈ b.getKeywords) ∧
        a.getRepeatLimit = b.getRepeatLimit ∧
        ∀ i : Int, 0 ≤ i → i < a.getRepeatLimit → a.select i = b.select i) := by
  rw [operatorEq_of_count_eq a b hcount, Bool.and_eq_true, Bool.and_eq_true,
    compareSamples_eq_true, List.all_eq_true, List.all_eq_true]
  constructor
  · rintro ⟨⟨h1, h2⟩, h3⟩
    refine ⟨fun kw => ⟨fun hk => ?_, fun hk => ?_⟩, h3⟩
    · exact (mem_getKeywords_iff b kw).2 (h1 kw hk)
    · exact (mem_getKeywords_iff a kw).2 (h2 kw hk)
  · rintro ⟨h1, h3⟩
    refine ⟨⟨fun kw hk => ?_, fun kw hk => ?_⟩, h3⟩
    · exact (mem_getKeywords_iff b kw).1 ((h1 kw).1 hk)
    · exact (mem_getKeywords_iff a kw).1 ((h1 kw).2 hk)

/-- Witness for the amended claim C8: the rule sets of "one: n is 1" and
"two: n is 1" have enumerations of the same count (two names each). -/
theorem operatorEq_iff_of_count_eq_witness :
    (instanceOf chainOneIs1).getKeywords.length = (instanceOf chainTwoIs1).getKeywords.length ∧
    (PluralRules.operatorEq (instanceOf chainOneIs1) (instanceOf chainTwoIs1) false = true ↔
      ((∀ kw, kw ∈ (instanceOf chainOneIs1).getKeywords ↔
            kw ∈ (instanceOf chainTwoIs1).getKeywords) ∧
        (instanceOf chainOneIs1).getRepeatLimit = (instanceOf chainTwoIs1).getRepeatLimit ∧
        ∀ i : Int, 0 ≤ i → i < (instanceOf chainOneIs1).getRepeatLimit →
          (instanceOf chainOneIs1).select i = (instanceOf chainTwoIs1).select i)) :=
  ⟨by decide!, operatorEq_iff_of_count_eq _ _ (by decide!)⟩

/-- Claim C9, refuted as stated: `operator==` answers true on the rule sets of
"one: n mod 10 is 1" and "one: n is 1 and n mod 10 is 1", which select
different keywords at 11. -/
theorem operatorEq_exact_counterexample :
    ∃ a b : PluralRules,
      (PluralRules.createRules [] "one: n mod 10 is 1".toList).2 = Outcome.ok a ∧
      (PluralRules.createRules [] "one: n is 1 and n mod 10 is 1".toList).2 = Outcome.ok b ∧
      PluralRules.operatorEq a b false = true ∧
      ¬ (∀ i : Int, 0 ≤ i → a.select i = b.select i) := by
  have hp1 : PluralRules.parseDescription "one: n mod 10 is 1".toList
      = Outcome.ok chainOneMod10 := by decide!
  have hp2 : PluralRules.parseDescription "one: n is 1 and n mod 10 is 1".toList
      = Outcome.ok chainOneIs1Mod10 := by decide!
  refine ⟨instanceOf chainOneMod10, instanceOf chainOneIs1Mod10,
    createRules_of_parse [] _ _ hp1, createRules_of_parse [] _ _ hp2, by decide!, ?_⟩
  intro h
  exact absurd (h 11 (by decide)) (by decide!)

/-- Claim C9, amended: when `operator==` answers true for two distinct
instances, their repeat limits are equal and they select the same keyword at
every integer `i` with `0 ≤ i < repeatLimit`. -/
theorem operatorEq_sound_below_limit (a b : PluralRules)
    (h : PluralRules.operatorEq a b false = true) :
    a.getRepeatLimit = b.getRepeatLimit ∧
      ∀ i : Int, 0 ≤ i → i < a.getRepeatLimit → a.select i = b.select i :=
  (compareSamples_eq_true a b).1 (operatorEq_imp_compareSamples a b h)

/-- Witness for the amended claim C9: the two rule sets of its counterexample,
on which `operator==` answers true. -/
theorem operatorEq_sound_below_limit_witness :
    PluralRules.operatorEq (instanceOf chainOneMod10) (instanceOf chainOneIs1Mod10) false = true ∧
    (instanceOf chainOneMod10).getRepeatLimit = (instanceOf chainOneIs1Mod10).getRepeatLimit ∧
      ∀ i : Int, 0 ≤ i → i < (instanceOf chainOneMod10).getRepeatLimit →
        (instanceOf chainOneMod10).select i = (instanceOf chainOneIs1Mod10).select i :=
  ⟨by decide!, operatorEq_sound_below_limit _ _ (by decide!)⟩

/-- Claim C10, refuted as stated: the rule set of
"one: n mod 10 is 1 and n is not 1" (repeat limit 10) selects "one" at 11 but at
no integer of `[0, 10]`; and the rule set of "one: n is 0" (repeat limit 0)
selects "other" at 1 but not at 0. -/
theorem repeatLimit_exercise_counterexample :
    (∃ R : PluralRules,
      (PluralRules.createRules [] "one: n mod 10 is 1 and n is not 1".toList).2
        = Outcome.ok R ∧
      ¬ (∀ n : Int, 0 ≤ n → ∃ i : Int, 0 ≤ i ∧ i ≤ R.getRepeatLimit ∧
          R.select i = R.select n)) ∧
    (∃ R : PluralRules,
      (PluralRules.createRules [] "one: n is 0".toList).2 = Outcome.ok R ∧
      ¬ (∀ n : Int, 0 ≤ n → ∃ i : Int, 0 ≤ i ∧ i ≤ R.getRepeatLimit ∧
          R.select i = R.select n)) := by
  have hp1 : PluralRules.parseDescription "one: n mod 10 is 1 and n is not 1".toList
      = Outcome.ok chainOneMod10Not1 := by decide!
  have hp2 : PluralRules.parseDescription "one: n is 0".toList = Outcome.ok chainOneIs0 := by
    decide!
  constructor
  · refine ⟨instanceOf chainOneMod10Not1, createRules_of_parse [] _ _ hp1, ?_⟩
    intro h
    obtain ⟨i, h0, h10, hi⟩ := h 11 (by decide)
    have hl : (instanceOf chainOneMod10Not1).getRepeatLimit = 10 := by decide!
    rw [hl] at h10
    revert hi
    interval_cases i <;> decide!
  · refine ⟨instanceOf chainOneIs0, createRules_of_parse [] _ _ hp2, ?_⟩
    intro h
    obtain ⟨i, h0, h10, hi⟩ := h 1 (by decide)
    have hl : (instanceOf chainOneIs0).getRepeatLimit = 0 := by decide!
    rw [hl] at h10
    have hi0 : i = 0 := le_antisymm h10 h0
    subst hi0
    revert hi
    decide!

/-- Claim C10, amended: for every rule set built from a rule description none
of whose predicates uses modulo, every keyword it selects at some non-negative
integer is selected at some integer `i` with `0 ≤ i ≤ repeatLimit + 1`. -/
theorem select_exercised_without_modulo (hash : Hashtable) (description : UnicodeString)
    (R : PluralRules) (hR : (PluralRules.createRules hash description).2 = Outcome.ok R)
    (hmod : ∀ node ∈ R.mRules, ∀ o ∈ node.ruleHeader, ∀ c ∈ o.childNode,
      c.op = RuleOp.NONE)
    (n : Int) (hn : 0 ≤ n) :
    ∃ i : Int, 0 ≤ i ∧ i ≤ R.getRepeatLimit + 1 ∧ R.select i = R.select n := by
  obtain ⟨rules, _, hrules⟩ := createRules_inv hash description R hR
  subst hrules
  have hb := setRepeatLimit_bounds rules
  by_cases hnil : RuleChain.setRepeatLimit rules = []
  · exact ⟨0, le_refl 0, by simp [PluralRules.getRepeatLimit, hnil],
      by simp [PluralRules.select, hnil]⟩
  · have hlim : PluralRules.getRepeatLimit { mRules := RuleChain.setRepeatLimit rules }
        = RuleChain.getRepeatLimit (RuleChain.setRepeatLimit rules) := by
      simp [PluralRules.getRepeatLimit, hnil]
    by_cases hle : n ≤ RuleChain.getRepeatLimit (RuleChain.setRepeatLimit rules) + 1
    · exact ⟨n, hn, by rw [hlim]; exact hle, rfl⟩
    · refine ⟨RuleChain.getRepeatLimit (RuleChain.setRepeatLimit rules) + 1, by omega,
        by rw [hlim], ?_⟩
      simp only [PluralRules.select, hnil, if_false]
      exact (select_above_limit _ _ n
        (fun node hnode o ho c hc => ⟨hmod node hnode o ho c hc, hb.2 node hnode o ho c hc⟩)
        (by omega)).symm

/-- Witness for the amended claim C10: the rule set of "one: n is 0" at 7. -/
theorem select_exercised_without_modulo_witness :
    (PluralRules.createRules [] "one: n is 0".toList).2 = Outcome.ok (instanceOf chainOneIs0) ∧
    ∃ i : Int, 0 ≤ i ∧ i ≤ (instanceOf chainOneIs0).getRepeatLimit + 1 ∧
      (instanceOf chainOneIs0).select i = (instanceOf chainOneIs0).select 7 :=
  ⟨createRules_of_parse [] _ _ (by decide!),
    select_exercised_without_modulo [] "one: n is 0".toList (instanceOf chainOneIs0)
      (createRules_of_parse [] _ _ (by decide!)) (by decide!) 7 (by decide)⟩

/-- Claim C4: for every rule text "one: n mod A is B and n mod C is not D" whose
numbers are decimal numbers `getNumberValue` reads as written (`int32_t` range),
with A and C positive, `createRules` succeeds and the rule set selects "one" at
a non-negative `n` iff `n mod A = B` and `n mod C ≠ D`, and "other" otherwise. -/
theorem createRules_modulo_is_and_is_not (hash : Hashtable) (A B C D : UnicodeString)
    (hA : int32Number A = true) (hB : int32Number B = true) (hC : int32Number C = true)
    (hD : int32Number D = true) (hApos : 0 < decimalValue A) (hCpos : 0 < decimalValue C) :
    ∃ R : PluralRules,
      (PluralRules.createRules hash ("one: n mod ".toList ++ A ++ " is ".toList ++ B ++
        " and n mod ".toList ++ C ++ " is not ".toList ++ D)).2 = Outcome.ok R ∧
      ∀ n : Int, 0 ≤ n →
        (R.select n = ['o', 'n', 'e'] ↔
          (n % (decimalValue A : Int) = (decimalValue B : Int) ∧
            n % (decimalValue C : Int) ≠ (decimalValue D : Int))) ∧
        (R.select n = ['o', 't', 'h', 'e', 'r'] ↔
          ¬ (n % (decimalValue A : Int) = (decimalValue B : Int) ∧
            n % (decimalValue C : Int) ≠ (decimalValue D : Int))) := by
  refine ⟨_, createRules_of_parse hash _ _ (parse_modulo_is A B C D hA hB hC hD), ?_⟩
  intro n hn
  rw [select_instanceOf_single]
  simp only [OrConstraint.satisfiedSpec, List.any_cons, List.any_nil, List.all_cons,
    List.all_nil, Bool.and_true, Bool.or_false,
    isFulfilled_mod_is _ _ n false (Int.ofNat_pos.2 hApos) (Int.ofNat_nonneg _) hn,
    isFulfilled_mod_is _ _ n true (Int.ofNat_pos.2 hCpos) (Int.ofNat_nonneg _) hn,
    PLURAL_KEYWORD_OTHER]
  by_cases h1 : n % (decimalValue A : Int) = (decimalValue B : Int) <;>
    by_cases h2 : n % (decimalValue C : Int) = (decimalValue D : Int) <;>
    simp [h1, h2]

/-- Witness for claim C4: the text "one: n mod 10 is 1 and n mod 100 is not 11"
gives "one" at 1 and 21 and "other" at 11 and 111. -/
theorem createRules_modulo_is_and_is_not_witness :
    ∃ R : PluralRules,
      (PluralRules.createRules []
        "one: n mod 10 is 1 and n mod 100 is not 11".toList).2 = Outcome.ok R ∧
      R.select 1 = ['o', 'n', 'e'] ∧ R.select 11 = ['o', 't', 'h', 'e', 'r'] ∧
      R.select 21 = ['o', 'n', 'e'] ∧ R.select 111 = ['o', 't', 'h', 'e', 'r'] := by
  obtain ⟨R, hR, hsel⟩ := createRules_modulo_is_and_is_not [] "10".toList "1".toList
    "100".toList "11".toList (by decide) (by decide) (by decide) (by decide) (by decide)
    (by decide)
  have htext : "one: n mod ".toList ++ "10".toList ++ " is ".toList ++ "1".toList ++
      " and n mod ".toList ++ "100".toList ++ " is not ".toList ++ "11".toList
      = "one: n mod 10 is 1 and n mod 100 is not 11".toList := by decide
  rw [htext] at hR
  exact ⟨R, hR, (hsel 1 (by decide)).1.2 (by decide), (hsel 11 (by decide)).2.2 (by decide),
    (hsel 21 (by decide)).1.2 (by decide), (hsel 111 (by decide)).2.2 (by decide)⟩

/-- Claim C5: for every rule text "few: n mod A in B..C and n mod D not in E..F"
whose numbers are decimal numbers `getNumberValue` reads as written (`int32_t`
range), with A and D positive, `createRules` succeeds and the rule set selects
"few" at a non-negative `n` iff `B ≤ n mod A ≤ C` and not `E ≤ n mod D ≤ F`, and
"other" otherwise. -/
theorem createRules_modulo_in_and_not_in (hash : Hashtable) (A B C D E F : UnicodeString)
    (hA : int32Number A = true) (hB : int32Number B = true) (hC : int32Number C = true)
    (hD : int32Number D = true) (hE : int32Number E = true) (hF : int32Number F = true)
    (hApos : 0 < decimalValue A) (hDpos : 0 < decimalValue D) :
    ∃ R : PluralRules,
      (PluralRules.createRules hash ("few: n mod ".toList ++ A ++ " in ".toList ++ B ++
        "..".toList ++ C ++ " and n mod ".toList ++ D ++ " not in ".toList ++ E ++
        "..".toList ++ F)).2 = Outcome.ok R ∧
      ∀ n : Int, 0 ≤ n →
        (R.select n = ['f', 'e', 'w'] ↔
          (((decimalValue B : Int) ≤ n % (decimalValue A : Int) ∧
              n % (decimalValue A : Int) ≤ (decimalValue C : Int)) ∧
            ¬ ((decimalValue E : Int) ≤ n % (decimalValue D : Int) ∧
              n % (decimalValue D : Int) ≤ (decimalValue F : Int)))) ∧
        (R.select n = ['o', 't', 'h', 'e', 'r'] ↔
          ¬ (((decimalValue B : Int) ≤ n % (decimalValue A : Int) ∧
              n % (decimalValue A : Int) ≤ (decimalValue C : Int)) ∧
            ¬ ((decimalValue E : Int) ≤ n % (decimalValue D : Int) ∧
              n % (decimalValue D : Int) ≤ (decimalValue F : Int)))) := by
  refine ⟨_, createRules_of_parse hash _ _ (parse_modulo_in A B C D E F hA hB hC hD hE hF), ?_⟩
  intro n hn
  rw [select_instanceOf_single]
  simp only [OrConstraint.satisfiedSpec, List.any_cons, List.any_nil, List.all_cons,
    List.all_nil, Bool.and_true, Bool.or_false,
    isFulfilled_mod_in _ _ _ n false (Int.ofNat_pos.2 hApos) (Int.ofNat_nonneg _) hn,
    isFulfilled_mod_in _ _ _ n true (Int.ofNat_pos.2 hDpos) (Int.ofNat_nonneg _) hn,
    PLURAL_KEYWORD_OTHER]
  by_cases h1 : ((decimalValue B : Int) ≤ n % (decimalValue A : Int) ∧
      n % (decimalValue A : Int) ≤ (decimalValue C : Int)) <;>
    by_cases h2 : ((decimalValue E : Int) ≤ n % (decimalValue D : Int) ∧
      n % (decimalValue D : Int) ≤ (decimalValue F : Int)) <;>
    simp [h1, h2]

/-- Witness for claim C5: the text
"few: n mod 10 in 2..4 and n mod 100 not in 12..14" gives "few" at 2 and 22 and
"other" at 12. -/
theorem createRules_modulo_in_and_not_in_witness :
    ∃ R : PluralRules,
      (PluralRules.createRules []
        "few: n mod 10 in 2..4 and n mod 100 not in 12..14".toList).2 = Outcome.ok R ∧
      R.select 2 = ['f', 'e', 'w'] ∧ R.select 12 = ['o', 't', 'h', 'e', 'r'] ∧
      R.select 22 = ['f', 'e', 'w'] := by
  obtain ⟨R, hR, hsel⟩ := createRules_modulo_in_and_not_in [] "10".toList "2".toList
    "4".toList "100".toList "12".toList "14".toList (by decide) (by decide) (by decide)
    (by decide) (by decide) (by decide) (by decide) (by decide)
  have htext : "few: n mod ".toList ++ "10".toList ++ " in ".toList ++ "2".toList ++
      "..".toList ++ "4".toList ++ " and n mod ".toList ++ "100".toList ++
      " not in ".toList ++ "12".toList ++ "..".toList ++ "14".toList
      = "few: n mod 10 in 2..4 and n mod 100 not in 12..14".toList := by decide
  rw [htext] at hR
  exact ⟨R, hR, (hsel 2 (by decide)).1.2 (by decide), (hsel 12 (by decide)).2.2 (by decide),
    (hsel 22 (by decide)).1.2 (by decide)⟩

/-- Claim C11: after `setRepeatLimit`, the `repeatLimit` of every entry is the
maximum of 0 and the bounds of the predicates of that entry and of all later
entries: it is at least 0 and at least each such bound, and it is 0 or one of
these bounds.  (The head entry is position 0, where the later entries are the
whole chain.) -/
theorem setRepeatLimit_entry_is_maximum (l : List RuleChain) (i : Nat) (e : RuleChain)
    (he : (RuleChain.setRepeatLimit l)[i]? = some e) :
    0 ≤ e.repeatLimit ∧
    (∀ node ∈ l.drop i, ∀ o ∈ node.ruleHeader, ∀ c ∈ o.childNode,
      c.bound ≤ e.repeatLimit) ∧
    (e.repeatLimit = 0 ∨
      ∃ node ∈ l.drop i, ∃ o ∈ node.ruleHeader, ∃ c ∈ o.childNode,
        c.bound = e.repeatLimit) := by
  rw [setRepeatLimit_getElem l i e he]
  exact setRepeatLimit_head_is_maximum (l.drop i)

/-- Witness for claim C11: the chain of "other: n", which has no numeric bound,
gets the limit 0 on its only entry; so does the rule set `createRules` builds
from that text. -/
theorem setRepeatLimit_entry_is_maximum_witness :
    (PluralRules.createRules [] "other: n".toList).2 = Outcome.ok (instanceOf chainOther) ∧
    (instanceOf chainOther).getRepeatLimit = 0 ∧
    (RuleChain.setRepeatLimit chainOther)[0]?
      = some ⟨['o', 't', 'h', 'e', 'r'], [⟨[⟨RuleOp.NONE, -1, -1, -1, false⟩]⟩], 0⟩ ∧
    ((0 : Int) ≤ 0 ∧
      (∀ node ∈ chainOther.drop 0, ∀ o ∈ node.ruleHeader, ∀ c ∈ o.childNode,
        c.bound ≤ (0 : Int)) ∧
      ((0 : Int) = 0 ∨
        ∃ node ∈ chainOther.drop 0, ∃ o ∈ node.ruleHeader, ∃ c ∈ o.childNode,
          c.bound = (0 : Int))) :=
  ⟨createRules_of_parse [] _ _ (by decide!), by decide!, by decide!,
    setRepeatLimit_entry_is_maximum chainOther 0
      ⟨['o', 't', 'h', 'e', 'r'], [⟨[⟨RuleOp.NONE, -1, -1, -1, false⟩]⟩], 0⟩ (by decide!)⟩

/-- Claim C12, refuted as stated: "one: n mod 0 is 1 and n is 5" is accepted
and gives a rule set with the repeat limit 5.  Comparing it with a copy of it
calls `select(0)`, whose first predicate computes the remainder of 0 by 0, which
is undefined: `select` and `operator==` return no value, whichever way the copy
was made. -/
theorem operatorEq_copy_counterexample :
    (PluralRules.createRules [] "one: n mod 0 is 1 and n is 5".toList).2
      = Outcome.ok (instanceOf chainOneMod0Is5) ∧
    (instanceOf chainOneMod0Is5).getRepeatLimit = 5 ∧
    (instanceOf chainOneMod0Is5).selectChecked 0 = none ∧
    PluralRules.operatorEqChecked (instanceOf chainOneMod0Is5)
      (PluralRules.copyConstruct (instanceOf chainOneMod0Is5)) false = none ∧
    PluralRules.operatorEqChecked (instanceOf chainOneMod0Is5)
      (PluralRules.clone (instanceOf chainOneMod0Is5)) false = none ∧
    PluralRules.operatorEqChecked (instanceOf chainOneMod0Is5)
      (PluralRules.operatorAssign { mRules := [] } (instanceOf chainOneMod0Is5) false) false
      = none :=
  ⟨createRules_of_parse [] _ _ (by decide!), by decide, by decide, by decide, by decide,
    by decide⟩

/-- Claim C12, amended: a rule set none of whose predicates uses modulo with
the divisor 0 compares equal to its copy, whether the copy is made by the copy
constructor, by `clone`, or by assignment to another object: `operator==`
returns, and returns true. -/
theorem operatorEq_copy_of_divisors_nonzero (R T : PluralRules)
    (h : RuleChain.divisorsNonzero R.mRules = true) :
    PluralRules.operatorEqChecked R (PluralRules.copyConstruct R) false = some true ∧
    PluralRules.operatorEqChecked R (PluralRules.clone R) false = some true ∧
    PluralRules.operatorEqChecked R (PluralRules.operatorAssign T R false) false
      = some true := by
  have hd := fun i : Nat => remainderDefined_of_nonzero R.mRules h i
  have hs : PluralRules.operatorEqChecked R R false = some true := by
    rw [operatorEqChecked_eq R R false hd hd, operatorEq_self_value]
  obtain ⟨h1, h2, h3⟩ := copy_eq_self R T
  rw [h1, h2, h3]
  exact ⟨hs, hs, hs⟩

/-- Claim C12, witness of the amended claim: the rule set of "one: n mod 10 is 1"
(its repeat limit is 10, so ten values are compared). -/
theorem operatorEq_copy_of_divisors_nonzero_witness :
    RuleChain.divisorsNonzero (instanceOf chainOneMod10).mRules = true ∧
    (instanceOf chainOneMod10).getRepeatLimit = 10 ∧
    (PluralRules.operatorEqChecked (instanceOf chainOneMod10)
        (PluralRules.copyConstruct (instanceOf chainOneMod10)) false = some true ∧
      PluralRules.operatorEqChecked (instanceOf chainOneMod10)
        (PluralRules.clone (instanceOf chainOneMod10)) false = some true ∧
      PluralRules.operatorEqChecked (instanceOf chainOneMod10)
        (PluralRules.operatorAssign { mRules := [] } (instanceOf chainOneMod10) false) false
        = some true) :=
  ⟨by decide, by decide,
    operatorEq_copy_of_divisors_nonzero (instanceOf chainOneMod10) { mRules := [] } (by decide)⟩

/-- Claim C13: copy construction, `clone` and assignment give a chain identical
to the source's: the same entries in the same order, hence the same keywords,
the same `repeatLimit` on every entry and the same predicates with the same
fields, and the copy selects the same keyword at every integer. -/
theorem copy_is_structurally_identical (R T : PluralRules) :
    (PluralRules.copyConstruct R).mRules = R.mRules ∧
    (PluralRules.clone R).mRules = R.mRules ∧
    (PluralRules.operatorAssign T R false).mRules = R.mRules ∧
    (PluralRules.copyConstruct R).mRules.map (fun e => e.keyword)
      = R.mRules.map (fun e => e.keyword) ∧
    (PluralRules.copyConstruct R).mRules.map (fun e => e.repeatLimit)
      = R.mRules.map (fun e => e.repeatLimit) ∧
    (PluralRules.copyConstruct R).mRules.map (fun e => e.ruleHeader)
      = R.mRules.map (fun e => e.ruleHeader) ∧
    ∀ n : Int, (PluralRules.copyConstruct R).select n = R.select n ∧
      (PluralRules.clone R).select n = R.select n ∧
      (PluralRules.operatorAssign T R false).select n = R.select n := by
  have h1 : (PluralRules.copyConstruct R).mRules = R.mRules :=
    operatorAssign_mRules { mRules := [] } R
  have h2 : (PluralRules.clone R).mRules = R.mRules := operatorAssign_mRules { mRules := [] } R
  have h3 := operatorAssign_mRules T R
  refine ⟨h1, h2, h3, by rw [h1], by rw [h1], by rw [h1], ?_⟩
  intro n
  simp only [PluralRules.select, h1, h2, h3, and_self]

/-- Claim C14, refuted as stated: after the previous kind `tZero` (one of the
six category kinds the `switch` lists next to `tKeyword`) a colon is accepted,
although the table of the specification has no row for that kind. -/
theorem checkSyntax_table_counterexample :
    RuleParser.checkSyntax tokenType.tZero tokenType.tColon UErrorCode.U_ZERO_ERROR
      = UErrorCode.U_ZERO_ERROR ∧
    RuleParser.allowedSpec tokenType.tZero tokenType.tColon = false ∧
    ¬ (∀ prev cur : tokenType,
        RuleParser.checkSyntax prev cur UErrorCode.U_ZERO_ERROR = UErrorCode.U_ZERO_ERROR ↔
          RuleParser.allowedSpec prev cur = true) := by
  refine ⟨by decide, by decide, ?_⟩
  intro h
  exact absurd ((h tokenType.tZero tokenType.tColon).1 (by decide)) (by decide)

/-- Claim C14, amended: entered with a successful status, `checkSyntax` leaves
it unchanged exactly for the pairs of the transition table of the specification
and for a colon after one of the category kinds Zero, One, Two, Few, Many,
Other; for every other pair it sets UnexpectedToken.  Entered with a failure,
it leaves the status as it is. -/
theorem checkSyntax_eq_table (prev cur : tokenType) :
    RuleParser.checkSyntax prev cur UErrorCode.U_ZERO_ERROR
      = (if RuleParser.allowedSpec prev cur = true ∨
            (RuleParser.isCategoryKind prev = true ∧ cur = tokenType.tColon)
          then UErrorCode.U_ZERO_ERROR else UErrorCode.U_UNEXPECTED_TOKEN) ∧
    RuleParser.checkSyntax prev cur UErrorCode.U_ILLEGAL_CHARACTER
      = UErrorCode.U_ILLEGAL_CHARACTER ∧
    RuleParser.checkSyntax prev cur UErrorCode.U_UNEXPECTED_TOKEN
      = UErrorCode.U_UNEXPECTED_TOKEN ∧
    RuleParser.checkSyntax prev cur UErrorCode.U_BUFFER_OVERFLOW_ERROR
      = UErrorCode.U_BUFFER_OVERFLOW_ERROR := by
  refine ⟨?_, rfl, rfl, rfl⟩
  cases prev <;> cases cur <;> decide

/-- Claim C15 (what the code does): in "one: n is 1; few: n is 2 or n is 3" the
conjunction after `or` is added to the first entry, "one", so the rule set
selects "one" at 3 (and "few" at 2). -/
theorem or_in_later_rule_joins_first_entry (hash : Hashtable) :
    (PluralRules.createRules hash "one: n is 1; few: n is 2 or n is 3".toList).2
      = Outcome.ok (instanceOf chainOneFewOr) ∧
    (instanceOf chainOneFewOr).select 3 = ['o', 'n', 'e'] ∧
    (instanceOf chainOneFewOr).select 2 = ['f', 'e', 'w'] :=
  ⟨createRules_of_parse hash _ _ (by decide!), by decide!, by decide!⟩

/-- Claim C16 (what the code does): "one: n in 2.#4" contains `#`, which
`inRange` rejects, and is accepted all the same: the token that starts at the
first dot moves the cursor two places on, over a character it never examines. -/
theorem illegal_character_after_dot_accepted (hash : Hashtable) :
    '#' ∈ UnicodeString.toLower "one: n in 2.#4".toList ∧
    (∀ t : tokenType, (RuleParser.inRange '#' t).1 = false) ∧
    (PluralRules.createRules hash "one: n in 2.#4".toList).2
      = Outcome.ok (instanceOf chainOneIn2To4) :=
  ⟨by decide, fun _ => rfl, createRules_of_parse hash _ _ (by decide!)⟩

/-- Claim C17: when the first token of a rule description is a category keyword
and the lexer returns a further token after it that is not a colon,
`createRules` fails with UnexpectedToken and returns no rule set. -/
theorem createRules_keyword_without_colon (hash : Hashtable) (description : UnicodeString)
    (h1s : (RuleParser.getNextToken (UnicodeString.toLower description) 0 [] tokenType.none
      UErrorCode.U_ZERO_ERROR).status = UErrorCode.U_ZERO_ERROR)
    (h1t : (RuleParser.getNextToken (UnicodeString.toLower description) 0 [] tokenType.none
      UErrorCode.U_ZERO_ERROR).type = tokenType.tKeyword)
    (hmore : (RuleParser.getNextToken (UnicodeString.toLower description) 0 [] tokenType.none
      UErrorCode.U_ZERO_ERROR).ruleIndex < (UnicodeString.toLower description).length)
    (h2s : (RuleParser.getNextToken (UnicodeString.toLower description)
      (RuleParser.getNextToken (UnicodeString.toLower description) 0 [] tokenType.none
        UErrorCode.U_ZERO_ERROR).ruleIndex
      (RuleParser.getNextToken (UnicodeString.toLower description) 0 [] tokenType.none
        UErrorCode.U_ZERO_ERROR).token
      tokenType.tKeyword UErrorCode.U_ZERO_ERROR).status = UErrorCode.U_ZERO_ERROR)
    (h2t : (RuleParser.getNextToken (UnicodeString.toLower description)
      (RuleParser.getNextToken (UnicodeString.toLower description) 0 [] tokenType.none
        UErrorCode.U_ZERO_ERROR).ruleIndex
      (RuleParser.getNextToken (UnicodeString.toLower description) 0 [] tokenType.none
        UErrorCode.U_ZERO_ERROR).token
      tokenType.tKeyword UErrorCode.U_ZERO_ERROR).type ≠ tokenType.tColon) :
    (PluralRules.createRules hash description).2
      = Outcome.failure UErrorCode.U_UNEXPECTED_TOKEN :=
  createRules_of_failure hash description _
    (parseDescription_keyword_without_colon description h1s h1t hmore h2s h2t)

/-- Witness for claim C17: "one is 1", whose second token is `is`. -/
theorem createRules_keyword_without_colon_witness :
    (RuleParser.getNextToken (UnicodeString.toLower "one is 1".toList) 0 [] tokenType.none
      UErrorCode.U_ZERO_ERROR) = ⟨3, ['o', 'n', 'e'], tokenType.tKeyword, UErrorCode.U_ZERO_ERROR⟩ ∧
    (RuleParser.getNextToken (UnicodeString.toLower "one is 1".toList) 3 ['o', 'n', 'e']
      tokenType.tKeyword UErrorCode.U_ZERO_ERROR)
      = ⟨6, ['i', 's'], tokenType.tIs, UErrorCode.U_ZERO_ERROR⟩ ∧
    (PluralRules.createRules [] "one is 1".toList).2
      = Outcome.failure UErrorCode.U_UNEXPECTED_TOKEN :=
  ⟨by decide!, by decide!,
    createRules_keyword_without_colon [] "one is 1".toList (by decide!) (by decide!)
      (by decide!) (by decide!) (by decide!)⟩

/-- Claim C18, refuted as stated: "few: n in 2.." is accepted; the upper bound
of its predicate stays at the range-pending constant. -/
theorem unterminated_range_counterexample :
    (PluralRules.createRules [] "few: n in 2..".toList).2
      = Outcome.ok (instanceOf chainFewPending) ∧
    ¬ ∃ status, (PluralRules.createRules [] "few: n in 2..".toList).2
      = Outcome.failure status := by
  have h : (PluralRules.createRules [] "few: n in 2..".toList).2
      = Outcome.ok (instanceOf chainFewPending) :=
    createRules_of_parse [] _ _ (by decide!)
  refine ⟨h, ?_⟩
  rintro ⟨status, hs⟩
  rw [h] at hs
  exact Outcome.noConfusion hs

/-- Claim C18, amended: a rule description that is an unterminated range alone,
`in`, a lower bound and `..` (the "in 2.." of the specification), fails with
UnexpectedToken, since it does not start with a keyword; after `few: n` the
same unterminated range is accepted, and the predicate built is the range from
the lower bound to the range-pending constant. -/
theorem unterminated_range_behaviour (hash : Hashtable) (B : UnicodeString)
    (hB : int32Number B = true) :
    (PluralRules.createRules hash ("in ".toList ++ (B ++ "..".toList))).2
      = Outcome.failure UErrorCode.U_UNEXPECTED_TOKEN ∧
    (PluralRules.createRules hash ("few: n in ".toList ++ B ++ "..".toList)).2
      = Outcome.ok (instanceOf [⟨['f', 'e', 'w'],
          [⟨[⟨RuleOp.NONE, -1, decimalValue B, PLURAL_RANGE_HIGH, false⟩]⟩], 0⟩]) :=
  ⟨createRules_of_failure hash _ _ (parse_starting_with_in _),
    createRules_of_parse hash _ _ (parse_unterminated_range B hB)⟩

/-- Witness for the amended claim C18: the lower bound 2. -/
theorem unterminated_range_behaviour_witness :
    (PluralRules.createRules [] "in 2..".toList).2
      = Outcome.failure UErrorCode.U_UNEXPECTED_TOKEN ∧
    (PluralRules.createRules [] "few: n in 2..".toList).2
      = Outcome.ok (instanceOf chainFewPending) := by
  have h := unterminated_range_behaviour [] "2".toList (by decide)
  have e1 : "in ".toList ++ ("2".toList ++ "..".toList) = "in 2..".toList := by decide
  have e2 : "few: n in ".toList ++ "2".toList ++ "..".toList = "few: n in 2..".toList := by
    decide
  have e3 : instanceOf [⟨['f', 'e', 'w'],
      [⟨[⟨RuleOp.NONE, -1, decimalValue "2".toList, PLURAL_RANGE_HIGH, false⟩]⟩], 0⟩]
      = instanceOf chainFewPending := by decide
  rw [e1, e2, e3] at h
  exact h

/-- Claim C19: the enumeration `getKeywords` returns yields, call after call of
`snext`, the keywords of the entries of the instance's chain in declaration
order, then "other" exactly when no entry has that keyword, then `NULL`; and
`count` is the number of names it yields.  For "one: n is 1; other: n" and for
"one: n is 1" the names are "one", "other". -/
theorem keyword_enumeration_yields :
    (∀ (R : PluralRules) (k : Nat),
      ((PluralKeywordEnumeration.afterCalls k R.getKeywordsObject.reset).snext
          UErrorCode.U_ZERO_ERROR).1 = (RuleChain.keywordsSpec R.mRules)[k]? ∧
      R.getKeywordsObject.count = (RuleChain.keywordsSpec R.mRules).length ∧
      R.getKeywords = RuleChain.keywordsSpec R.mRules) ∧
    (∀ hash : Hashtable,
      (PluralRules.createRules hash "one: n is 1; other: n".toList).2
        = Outcome.ok (instanceOf chainOneOther) ∧
      (instanceOf chainOneOther).getKeywords = [['o', 'n', 'e'], ['o', 't', 'h', 'e', 'r']] ∧
      (instanceOf chainOneOther).getKeywordsObject.count = 2) ∧
    (∀ hash : Hashtable,
      (PluralRules.createRules hash "one: n is 1".toList).2
        = Outcome.ok (instanceOf chainOneIs1) ∧
      (instanceOf chainOneIs1).getKeywords = [['o', 'n', 'e'], ['o', 't', 'h', 'e', 'r']] ∧
      (instanceOf chainOneIs1).getKeywordsObject.count = 2) := by
  refine ⟨fun R k => keyword_enumeration_nth R k,
    fun hash => ⟨createRules_of_parse hash _ _ (by decide!), by decide!, by decide!⟩,
    fun hash => ⟨createRules_of_parse hash _ _ (by decide!), by decide!, by decide!⟩⟩

/-- Claim C20: `isKeyword` answers true iff the string is "other" or the
keyword of an entry of the instance's own chain. -/
theorem isKeyword_iff (R : PluralRules) (kw : UnicodeString) :
    R.isKeyword kw = true ↔
      (kw = PLURAL_KEYWORD_OTHER ∨ ∃ e ∈ R.mRules, e.keyword = kw) := by
  unfold PluralRules.isKeyword
  by_cases hk : kw = PLURAL_KEYWORD_OTHER
  · simp [hk]
  · by_cases hnil : R.mRules = []
    · simp [hk, hnil]
    · simp only [hk, hnil, if_false, false_or, ruleChain_isKeyword_eq_true, List.mem_map]

/-- Claim C21: when the table as seeded has no entry for the identifier `L` and
`A` is the first identifier of the parent chain of `L` (trailing subtag
stripped, nearest first) that has one, `forLocale(L)` returns an instance whose
chain is the one registered under `A`: the same `select`, the same keywords and
the same repeat limit.  (Every chain of the table is stored by `addRules`, with
its repeat limits set.) -/
theorem forLocale_nearest_registered_ancestor (hash : Hashtable) (L A : UnicodeString)
    (hinv : Hashtable.limitsSet hash)
    (hmiss : Hashtable.get (seededTable hash) L = [])
    (hA : (localeParents L).find?
        (fun p => decide (Hashtable.get (seededTable hash) p ≠ [])) = some A) :
    ∃ R : PluralRules,
      (PluralRules.forLocale hash L).2 = Outcome.ok R ∧
      R.mRules = Hashtable.get (seededTable hash) A ∧
      (∀ n : Int, R.select n = RuleChain.select (Hashtable.get (seededTable hash) A) n) ∧
      R.getKeywords = PluralKeywordEnumeration.new (Hashtable.get (seededTable hash) A) ∧
      R.getRepeatLimit = RuleChain.getRepeatLimit (Hashtable.get (seededTable hash) A) ∧
      (PluralRules.forLocale hash A).2 = Outcome.ok R := by
  have hne : Hashtable.get (seededTable hash) A ≠ [] := by
    have := List.find?_some hA
    simpa using this
  obtain ⟨e, he, heq⟩ := get_mem _ _ hne
  have hfix : RuleChain.setRepeatLimit (Hashtable.get (seededTable hash) A)
      = Hashtable.get (seededTable hash) A := by
    rw [← heq]
    exact seededTable_limitsSet hash hinv e he
  have h1 := forLocale_of_ancestor hash L A hmiss hA
  have h2 := forLocale_of_registered hash A hne
  rw [hfix] at h1 h2
  generalize Hashtable.get (seededTable hash) A = T at hne h1 h2
  refine ⟨{ mRules := T }, h1, rfl, ?_, rfl, ?_, h2⟩
  · intro n
    simp [PluralRules.select, hne]
  · simp [PluralRules.getRepeatLimit, hne]

/-- Claim C21, witness: with the built-in table, "fr_CA" has no entry, its
nearest registered ancestor is "fr", and `forLocale("fr_CA")` is the rule
"one: n in 0..1": "one" at 0 and at 1, "other" at 2. -/
theorem forLocale_nearest_registered_ancestor_witness :
    (∃ R : PluralRules,
      (PluralRules.forLocale [] "fr_CA".toList).2 = Outcome.ok R ∧
      R.mRules = Hashtable.get (seededTable []) "fr".toList ∧
      (∀ n : Int, R.select n = RuleChain.select (Hashtable.get (seededTable []) "fr".toList) n) ∧
      R.getKeywords = PluralKeywordEnumeration.new (Hashtable.get (seededTable []) "fr".toList) ∧
      R.getRepeatLimit = RuleChain.getRepeatLimit (Hashtable.get (seededTable []) "fr".toList) ∧
      (PluralRules.forLocale [] "fr".toList).2 = Outcome.ok R) ∧
    Hashtable.get (seededTable []) "fr".toList
      = [⟨"one".toList, [⟨[⟨RuleOp.NONE, -1, 0, 1, false⟩]⟩], 1⟩] ∧
    RuleChain.select (Hashtable.get (seededTable []) "fr".toList) 0 = "one".toList ∧
    RuleChain.select (Hashtable.get (seededTable []) "fr".toList) 1 = "one".toList ∧
    RuleChain.select (Hashtable.get (seededTable []) "fr".toList) 2 = "other".toList :=
  ⟨forLocale_nearest_registered_ancestor [] "fr_CA".toList "fr".toList
      (fun _ he => absurd he (List.not_mem_nil _)) (by decide!) (by decide!),
    by decide!, by decide!, by decide!, by decide!⟩

/-- Claim C22: when the table as seeded has an entry neither for the identifier
`L` nor for any identifier of its parent chain, `forLocale(L)` returns without
error the instance `createRules` builds from the default rule "other: n":
`select` is "other" at every integer and the keyword enumeration is exactly
["other"]. -/
theorem forLocale_unregistered_is_default (hash : Hashtable) (L : UnicodeString)
    (hmiss : Hashtable.get (seededTable hash) L = [])
    (hnone : ∀ p ∈ localeParents L, Hashtable.get (seededTable hash) p = []) :
    ∃ R : PluralRules,
      (PluralRules.forLocale hash L).2 = Outcome.ok R ∧
      (PluralRules.createDefaultRules (seededTable hash)).2 = Outcome.ok R ∧
      (∀ n : Int, R.select n = "other".toList) ∧
      R.getKeywords = ["other".toList] := by
  have hp : PluralRules.parseDescription PLURAL_DEFAULT_RULE
      = Outcome.ok [⟨['o', 't', 'h', 'e', 'r'], [⟨[⟨RuleOp.NONE, -1, -1, -1, false⟩]⟩], 0⟩] := by
    decide!
  have hc := createRules_of_parse (seededTable hash) _ _ hp
  refine ⟨_, ?_, hc, ?_, ?_⟩
  · rw [forLocale_of_unregistered hash L hmiss hnone, hc]
  · intro n
    simp [PluralRules.select, RuleChain.setRepeatLimit, RuleChain.select,
      OrConstraint.isFulfilled, OrConstraint.orLoop, OrConstraint.andLoop,
      AndConstraint.isFulfilled]
  · decide

/-- Claim C22, witness: with the built-in table, "zh" has no entry and no
parent. -/
theorem forLocale_unregistered_is_default_witness :
    Hashtable.get (seededTable []) "zh".toList = [] ∧
    localeParents "zh".toList = [] ∧
    ∃ R : PluralRules,
      (PluralRules.forLocale [] "zh".toList).2 = Outcome.ok R ∧
      (PluralRules.createDefaultRules (seededTable [])).2 = Outcome.ok R ∧
      (∀ n : Int, R.select n = "other".toList) ∧
      R.getKeywords = ["other".toList] :=
  ⟨by decide!, by decide!,
    forLocale_unregistered_is_default [] "zh".toList (by decide!) (by decide!)⟩

/-- Claim C23: the table `uCharPluralRules` has 13 rows; for each of them
`parseDescription` accepts the text before the '/' separator (the thirteenth
row is empty, and so is its text); and the constructor, which seeds the
repository from the table, ends without error whatever the table holds. -/
theorem builtin_descriptions_are_accepted :
    uCharPluralRules.length = 13 ∧
    (∀ row ∈ uCharPluralRules,
      (PluralRules.parseDescription (row.takeWhile (fun c => decide (c ≠ '/')))).void
        = Outcome.ok ()) ∧
    (∀ row ∈ uCharPluralRules,
      (match row.indexOf? '/' with
        | some slashIndex =>
          (PluralRules.parseDescription (UnicodeString.sub row 0 slashIndex)).void
        | none => Outcome.ok ()) = Outcome.ok ()) ∧
    ∀ hash : Hashtable, (PluralRules.new hash).2.2 = Outcome.ok () := by
  refine ⟨rfl, by decide!, by decide!, fun hash => ?_⟩
  rw [new_eq]

/-- Claim C24 (what the code does): spaces added at the start of a non-empty
description change nothing, but a space added at the end makes an accepted
description fail: "other: n" is accepted and "other: n " is rejected with
UnexpectedToken.  On the space at the end `getNextToken` reaches the end of the
text and returns with the kind Space, which `checkSyntax` rejects whatever the
kind before it is. -/
theorem trailing_space_is_rejected (hash : Hashtable) :
    (PluralRules.createRules hash "other: n".toList).2 = Outcome.ok (instanceOf chainOther) ∧
    (PluralRules.createRules hash "other: n ".toList).2
      = Outcome.failure UErrorCode.U_UNEXPECTED_TOKEN ∧
    RuleParser.getNextToken "other: n ".toList 8 ['n'] tokenType.tVariableN
        UErrorCode.U_ZERO_ERROR
      = { ruleIndex := 9, token := ['n'], type := tokenType.tSpace,
          status := UErrorCode.U_ZERO_ERROR } ∧
    (∀ prev : tokenType,
      RuleParser.checkSyntax prev tokenType.tSpace UErrorCode.U_ZERO_ERROR
        = UErrorCode.U_UNEXPECTED_TOKEN) ∧
    (PluralRules.createRules hash " other: n".toList).2 = Outcome.ok (instanceOf chainOther) ∧
    ∀ (n : Nat) (t : UnicodeString), t ≠ [] →
      PluralRules.parseDescription (List.replicate n ' ' ++ t)
        = PluralRules.parseDescription t :=
  ⟨createRules_of_parse hash _ _ (by decide!), createRules_of_failure hash _ _ (by decide!),
    by decide!, fun prev => by cases prev <;> rfl,
    createRules_of_parse hash _ _ (by decide!),
    fun n t hne => parseDescription_leading_spaces n t hne⟩

/-- Claim C25 (what the code does): a token that starts at a dot is of kind Dot
and moves the cursor two places on, whatever the character after the dot is;
that character is never examined.  In "2.4" the token that starts at the dot
ends past the `4`, and "one: n in 2.4" is accepted as the range from 2 with no
upper end. -/
theorem single_dot_is_taken_as_separator (hash : Hashtable) :
    (∀ (x : Char) (post : List Char) (tok : UnicodeString) (ty : tokenType),
      RuleParser.getNextToken ('.' :: x :: post) 0 tok ty UErrorCode.U_ZERO_ERROR
        = { ruleIndex := 2, token := tok, type := tokenType.tDot,
            status := UErrorCode.U_ZERO_ERROR }) ∧
    RuleParser.getNextToken "2.4".toList 1 ['2'] tokenType.tNumber UErrorCode.U_ZERO_ERROR
      = { ruleIndex := 3, token := ['2'], type := tokenType.tDot,
          status := UErrorCode.U_ZERO_ERROR } ∧
    (PluralRules.createRules hash "one: n in 2.4".toList).2
      = Outcome.ok (instanceOf chainOneFrom2) :=
  ⟨fun _ post tok ty => getNextToken_dot _ tok ty _, by decide!,
    createRules_of_parse hash _ _ (by decide!)⟩

/-- Claim C26 (what the code does): on letters followed by a digit, "ab1 ",
`getNextToken` returns the kind Number with the token text it was entered with
and the cursor past the digit; on digits followed by letters, "12ab ", it
returns the kind Number with the text "12ab".  So "one: n is a1" is accepted as
"one: n is 0". -/
theorem token_runs_do_not_stop_at_class_change (hash : Hashtable) :
    RuleParser.getNextToken "ab1 ".toList 0 ['x'] tokenType.none UErrorCode.U_ZERO_ERROR
      = { ruleIndex := 3, token := ['x'], type := tokenType.tNumber,
          status := UErrorCode.U_ZERO_ERROR } ∧
    RuleParser.getNextToken "12ab ".toList 0 ['x'] tokenType.none UErrorCode.U_ZERO_ERROR
      = { ruleIndex := 4, token := "12ab".toList, type := tokenType.tNumber,
          status := UErrorCode.U_ZERO_ERROR } ∧
    (PluralRules.createRules hash "one: n is a1".toList).2
      = Outcome.ok (instanceOf chainOneIs0) :=
  ⟨by decide!, by decide!, createRules_of_parse hash _ _ (by decide!)⟩

/-- Claim C27, refuted as stated: the token kinds of "one: n is 1 is 2" pass
`checkSyntax` one by one from the start of the input, and the text is accepted,
although no sequence of rules of the grammar has these kinds (a sequence of
rules has as many `n` as it has `is` and `in` together). -/
theorem validator_accepts_more_than_grammar :
    RuleParser.passesFrom tokenType.none
        [tokenType.tKeyword, tokenType.tColon, tokenType.tVariableN, tokenType.tIs,
          tokenType.tNumber, tokenType.tIs, tokenType.tNumber] = true ∧
    (¬ ∃ rules : List RuleShape, RuleShape.sequenceTokens rules
        = [tokenType.tKeyword, tokenType.tColon, tokenType.tVariableN, tokenType.tIs,
            tokenType.tNumber, tokenType.tIs, tokenType.tNumber]) ∧
    PluralRules.parseDescription "one: n is 1 is 2".toList = Outcome.ok chainOneIs1Is2 ∧
    ¬ (∀ kinds : List tokenType, RuleParser.passesFrom tokenType.none kinds = true →
        ∃ rules : List RuleShape, RuleShape.sequenceTokens rules = kinds) := by
  have hno : ¬ ∃ rules : List RuleShape, RuleShape.sequenceTokens rules
      = [tokenType.tKeyword, tokenType.tColon, tokenType.tVariableN, tokenType.tIs,
          tokenType.tNumber, tokenType.tIs, tokenType.tNumber] := by
    rintro ⟨rules, h⟩
    have hc := count_sequence rules
    rw [h] at hc
    revert hc
    decide
  exact ⟨by decide, hno, by decide!, fun h => hno (h _ (by decide))⟩

/-- Claim C27, amended: every sequence of rules of the shape
`keyword : n [mod N] (is [not] N | [not] in N..N) ((and|or) n ...)*`,
separated by semicolons, passes `checkSyntax` token by token from the start of
the input. -/
theorem grammar_sentences_pass_checkSyntax (rules : List RuleShape) :
    RuleParser.passesFrom tokenType.none (RuleShape.sequenceTokens rules) = true :=
  passesFrom_sequence rules tokenType.none (Or.inl rfl)

/-- Claim C28: for every sequence of tokens whose kinds pass `checkSyntax` one
after the other from the start of the input, the builder meets no null pointer
at any step: the first token is a Keyword, which creates the rule header and the
current predicate, and after every token both are present.  So
`parseDescription` never ends in the null-pointer branch. -/
theorem builder_meets_no_null_pointer (toks : List (tokenType × UnicodeString))
    (hpass : RuleParser.passesFrom tokenType.none (toks.map (fun t => t.1)) = true) :
    (∃ st, PluralRules.buildFrom ParseState.initial toks = some st ∧
      (toks ≠ [] → st.present = true)) ∧
    (∀ t rest, toks = t :: rest → t.1 = tokenType.tKeyword) ∧
    ∀ description : UnicodeString,
      PluralRules.parseDescription description ≠ Outcome.nullDeref := by
  refine ⟨buildFrom_fits toks tokenType.none ParseState.initial (Or.inl ⟨rfl, rfl⟩) hpass, ?_, ?_⟩
  · intro t rest ht
    subst ht
    simp only [List.map_cons, RuleParser.passesFrom] at hpass
    generalize t.1 = k at hpass
    cases k <;> simp [RuleParser.checkSyntax, U_FAILURE] at hpass ⊢
  · intro description
    unfold PluralRules.parseDescription
    exact parseLoop_ne_nullDeref _ _ _ _ _ _ _ (Or.inl ⟨rfl, rfl⟩)

/-- Claim C28, witness: the tokens of "one: n is 1". -/
theorem builder_meets_no_null_pointer_witness :
    RuleParser.passesFrom tokenType.none
      ([(tokenType.tKeyword, "one".toList), (tokenType.tColon, "one".toList),
        (tokenType.tVariableN, "n".toList), (tokenType.tIs, "is".toList),
        (tokenType.tNumber, "1".toList)].map (fun t => t.1)) = true ∧
    PluralRules.buildFrom ParseState.initial
      [(tokenType.tKeyword, "one".toList), (tokenType.tColon, "one".toList),
        (tokenType.tVariableN, "n".toList), (tokenType.tIs, "is".toList),
        (tokenType.tNumber, "1".toList)]
      = some ⟨chainOneIs1, some 0, some 0⟩ ∧
    ((∃ st, PluralRules.buildFrom ParseState.initial
        [(tokenType.tKeyword, "one".toList), (tokenType.tColon, "one".toList),
          (tokenType.tVariableN, "n".toList), (tokenType.tIs, "is".toList),
          (tokenType.tNumber, "1".toList)] = some st ∧
      ([(tokenType.tKeyword, "one".toList), (tokenType.tColon, "one".toList),
          (tokenType.tVariableN, "n".toList), (tokenType.tIs, "is".toList),
          (tokenType.tNumber, "1".toList)] ≠ [] → st.present = true)) ∧
    (∀ t rest, [(tokenType.tKeyword, "one".toList), (tokenType.tColon, "one".toList),
          (tokenType.tVariableN, "n".toList), (tokenType.tIs, "is".toList),
          (tokenType.tNumber, "1".toList)] = t :: rest → t.1 = tokenType.tKeyword) ∧
    ∀ description : UnicodeString,
      PluralRules.parseDescription description ≠ Outcome.nullDeref) :=
  ⟨by decide, by decide!, builder_meets_no_null_pointer _ (by decide)⟩

/-- Claim C29: when `getNextToken` is entered with the cursor at a position `p`
smaller than the length of the text and returns without an error, the cursor is
strictly greater than `p`; and the loop of `parseDescription`, given as many
iterations as the text has characters left, never runs out of them, on any
text. -/
theorem getNextToken_advances_and_loop_ends (data : UnicodeString) (p : Nat)
    (token : UnicodeString) (type : tokenType) (status : UErrorCode)
    (hp : p < data.length)
    (hok : (RuleParser.getNextToken data p token type status).status
      = UErrorCode.U_ZERO_ERROR) :
    p < (RuleParser.getNextToken data p token type status).ruleIndex ∧
    (∀ (text : UnicodeString) (fuel idx : Nat) (tok : UnicodeString) (ty prev : tokenType)
      (st : ParseState), text.length - idx ≤ fuel →
      PluralRules.parseLoop text fuel idx tok ty prev st ≠ Outcome.outOfFuel) ∧
    ∀ description : UnicodeString,
      PluralRules.parseDescription description ≠ Outcome.outOfFuel := by
  refine ⟨getNextToken_advance data p hp token type status hok, ?_, ?_⟩
  · intro text fuel idx tok ty prev st hf
    exact parseLoop_ne_outOfFuel text fuel idx tok ty prev st hf
  · intro description
    unfold PluralRules.parseDescription
    exact parseLoop_ne_outOfFuel _ _ _ _ _ _ _ (by omega)

/-- Claim C29, witness: "one: n is 1" from the cursor 4, where the run of
spaces is skipped and the token `n` ends at 6. -/
theorem getNextToken_advances_and_loop_ends_witness :
    (RuleParser.getNextToken "one: n is 1".toList 4 "one".toList tokenType.tColon
      UErrorCode.U_ZERO_ERROR)
      = { ruleIndex := 6, token := "n".toList, type := tokenType.tVariableN,
          status := UErrorCode.U_ZERO_ERROR } ∧
    (4 < (RuleParser.getNextToken "one: n is 1".toList 4 "one".toList tokenType.tColon
      UErrorCode.U_ZERO_ERROR).ruleIndex ∧
    (∀ (text : UnicodeString) (fuel idx : Nat) (tok : UnicodeString) (ty prev : tokenType)
      (st : ParseState), text.length - idx ≤ fuel →
      PluralRules.parseLoop text fuel idx tok ty prev st ≠ Outcome.outOfFuel) ∧
    ∀ description : UnicodeString,
      PluralRules.parseDescription description ≠ Outcome.outOfFuel) :=
  ⟨by decide!, getNextToken_advances_and_loop_ends "one: n is 1".toList 4 "one".toList
    tokenType.tColon UErrorCode.U_ZERO_ERROR (by decide) (by decide!)⟩

/-- Claim C30, refuted as stated: "one: n mod 0 is 1" is accepted and its
predicate uses modulo with the divisor 0, so `select` meets an undefined
remainder; "one: n mod" is accepted with the divisor left at -1; and
"one: n mod 2147483648 is 1" is accepted with the divisor -2147483648. -/
theorem divisor_zero_or_unset_counterexample :
    PluralRules.parseDescription "one: n mod 0 is 1".toList = Outcome.ok chainOneMod0 ∧
    PluralRules.parseDescription "one: n mod".toList = Outcome.ok chainOneModUnset ∧
    PluralRules.parseDescription "one: n mod 2147483648 is 1".toList
      = Outcome.ok chainOneModOverflow ∧
    (PluralRules.createRules [] "one: n mod 0 is 1".toList).2
      = Outcome.ok (instanceOf chainOneMod0) ∧
    (instanceOf chainOneMod0).selectChecked 5 = none ∧
    ¬ (∀ (description : UnicodeString) (rules : List RuleChain),
        PluralRules.parseDescription description = Outcome.ok rules →
        ∀ node ∈ rules, ∀ o ∈ node.ruleHeader, ∀ c ∈ o.childNode,
          c.op = RuleOp.MOD → 0 < c.opNum) := by
  have hp : PluralRules.parseDescription "one: n mod 0 is 1".toList
      = Outcome.ok chainOneMod0 := by decide!
  refine ⟨hp, by decide!, by decide!, createRules_of_parse [] _ _ hp, by decide, ?_⟩
  intro h
  have h0 := h _ _ hp ⟨['o', 'n', 'e'], [⟨[⟨RuleOp.MOD, 0, 1, -1, false⟩]⟩], 0⟩
    (by simp [chainOneMod0]) ⟨[⟨RuleOp.MOD, 0, 1, -1, false⟩]⟩ (by simp)
    ⟨RuleOp.MOD, 0, 1, -1, false⟩ (by simp) rfl
  exact absurd h0 (by decide)

/-- Claim C30, amended: when a rule description is parsed successfully and, in
the tokens read from it, every number is representable (fewer than 128
characters, a value of at most 2147483647) and every `mod` is directly followed
by a number greater than zero, every predicate of the rule set that uses modulo
has a divisor `opNum > 0`, and `select` of the instance built from it computes
no undefined remainder at any integer. -/
theorem divisors_positive_when_written (description : UnicodeString)
    (rules : List RuleChain)
    (h : PluralRules.parseDescription description = Outcome.ok rules)
    (hw : PluralRules.divisorsWritten (RuleParser.tokens description) = true) :
    (∀ node ∈ rules, ∀ o ∈ node.ruleHeader, ∀ c ∈ o.childNode,
      c.op = RuleOp.MOD → 0 < c.opNum) ∧
    ∀ number : Int,
      (instanceOf rules).selectChecked number = some ((instanceOf rules).select number) := by
  have hall := parseDescription_divisorSet description rules h hw
  refine ⟨?_, fun number => selectChecked_instanceOf rules hall number⟩
  intro node hnode o ho c hc hop
  exact (hall node hnode o ho c hc).2 hop

/-- Claim C30, witness of the amended claim: "one: n mod 10 is 1"; and the rule
text of every row of the built-in table meets the condition on the tokens. -/
theorem divisors_positive_when_written_witness :
    PluralRules.parseDescription "one: n mod 10 is 1".toList = Outcome.ok chainOneMod10 ∧
    PluralRules.divisorsWritten (RuleParser.tokens "one: n mod 10 is 1".toList) = true ∧
    ((∀ node ∈ chainOneMod10, ∀ o ∈ node.ruleHeader, ∀ c ∈ o.childNode,
        c.op = RuleOp.MOD → 0 < c.opNum) ∧
      ∀ number : Int,
        (instanceOf chainOneMod10).selectChecked number
          = some ((instanceOf chainOneMod10).select number)) ∧
    ∀ row ∈ uCharPluralRules,
      PluralRules.divisorsWritten
          (RuleParser.tokens (row.takeWhile (fun c => decide (c ≠ '/')))) = true ∧
        RuleChain.divisorsPositive (builtinChain row) = true :=
  ⟨by decide!, by decide!,
    divisors_positive_when_written "one: n mod 10 is 1".toList chainOneMod10 (by decide!)
      (by decide!),
    by decide!⟩
